import Mathlib

/-! libSQL vector subsystem: parameter store, blob detection, text parser, column types,
index parameters, index lifecycle, SQL functions, the aggregate `vector_sum` and the
rendering of key columns.

A shallow embedding of parts of `libsql-sqlite3/src/vectorIndex.c` and
`libsql-sqlite3/src/vector.c`, followed by theorems about the embedded code.

Conventions of the embedding:

* a byte (`u8`, `unsigned char`) is a `Nat`; a `char` argument is the `Int` it promotes to;
* a C string is the list of its bytes; reading past the end of the list reads the
  terminating NUL, and a zero byte inside the list terminates the string as in C;
* a `const char *` into a string is the suffix of the list that starts at the pointer;
* out-parameters are returned next to the return code.
-/

namespace Libsql

/-! ## Index parameter record (`vectorIndex.c`, lines 57-93) -/

/-- Modelled from the spec: `VECTOR_INDEX_PARAMS_BUF_SIZE` is defined in `vectorIndexInt.h`,
which is not part of the sources at hand; the spec gives the record a budget of 128 bytes. -/
def VECTOR_INDEX_PARAMS_BUF_SIZE : Nat := 128

/-- The struct `VectorIdxParams`: `u8 pBinBuf[VECTOR_INDEX_PARAMS_BUF_SIZE]` and
`int nBinSize` (never negative in the code modelled here). -/
structure VectorIdxParams where
  pBinBuf : List Nat
  nBinSize : Nat
deriving DecidableEq, Repr

/-- Conversion of a `char` to `u8` on assignment into `pBinBuf`. -/
def charToU8 (c : Int) : Nat := (c % 256).toNat

/-- The function `vectorIdxParamsInit`: `pBinBuf = none` is the `NULL` buffer; `memcpy` replaces
the first `nBinSize` bytes of the record's buffer, whose previous content is kept elsewhere. -/
def vectorIdxParamsInit (pParams : VectorIdxParams) (pBinBuf : Option (List Nat))
    (nBinSize : Nat) : VectorIdxParams :=
  match pBinBuf with
  | none => { pBinBuf := pParams.pBinBuf, nBinSize := nBinSize }
  | some src =>
    { pBinBuf := src.take nBinSize ++ pParams.pBinBuf.drop nBinSize, nBinSize := nBinSize }

/-- Inner loop of `vectorIdxParamsGetU64`:
`value = 0; for(offset = 0; offset < 8; offset++) value |= (u64)buf[i+1+offset] << (8*offset)`. -/
def readU64 (buf : List Nat) (i : Nat) : Nat :=
  (List.range 8).foldl (fun value offset => value ||| (buf.getD (i + 1 + offset) 0 <<< (8 * offset))) 0

/-- Outer loop of `vectorIdxParamsGetU64`: `for (i = 0; i + 9 <= nBinSize; i += 9)`.
The first argument bounds the number of iterations; `nBinSize` iterations always suffice
because `i` grows by 9 each time. -/
def getU64Loop (pParams : VectorIdxParams) (tag : Int) : Nat → Nat → Nat → Nat
  | 0, _, value => value
  | fuel + 1, i, value =>
    if i + 9 ≤ pParams.nBinSize then
      if (pParams.pBinBuf.getD i 0 : Int) ≠ tag then
        getU64Loop pParams tag fuel (i + 9) value
      else
        getU64Loop pParams tag fuel (i + 9) (readU64 pParams.pBinBuf i)
    else value

/-- The function `vectorIdxParamsGetU64`. -/
def vectorIdxParamsGetU64 (pParams : VectorIdxParams) (tag : Int) : Nat :=
  getU64Loop pParams tag pParams.nBinSize 0 0

/-- One step `pBinBuf[nBinSize++] = b`. -/
def pushByte (pParams : VectorIdxParams) (b : Nat) : VectorIdxParams :=
  { pBinBuf := pParams.pBinBuf.set pParams.nBinSize b, nBinSize := pParams.nBinSize + 1 }

/-- The function `vectorIdxParamsPutU64`: the return code and the record after the call. -/
def vectorIdxParamsPutU64 (pParams : VectorIdxParams) (tag : Int) (value : Nat) :
    Int × VectorIdxParams :=
  if pParams.nBinSize + 9 > VECTOR_INDEX_PARAMS_BUF_SIZE then (-1, pParams)
  else
    let s := (List.range 8).foldl
      (fun (s : VectorIdxParams × Nat) _ => (pushByte s.1 (s.2 &&& 0xff), s.2 >>> 8))
      (pushByte pParams (charToU8 tag), value)
    (0, s.1)

/-- A sequence of `vectorIdxParamsPutU64` calls on one record: the return codes in order and
the record after the last call. -/
def putAll : VectorIdxParams → List (Int × Nat) → List Int × VectorIdxParams
  | p, [] => ([], p)
  | p, (tag, value) :: ops =>
    let r := vectorIdxParamsPutU64 p tag value
    let rest := putAll r.2 ops
    (r.1 :: rest.1, rest.2)

/-- The nine bytes of one entry: the tag byte, then the value in little-endian order. -/
def entryBytes (tag : Int) (value : Nat) : List Nat :=
  [charToU8 tag, value % 256, value / 256 % 256, value / 256 ^ 2 % 256, value / 256 ^ 3 % 256,
   value / 256 ^ 4 % 256, value / 256 ^ 5 % 256, value / 256 ^ 6 % 256, value / 256 ^ 7 % 256]

/-- A value of C type `char`, whichever signedness the platform gives it. -/
def isChar (c : Int) : Prop := -128 ≤ c ∧ c ≤ 255

instance (c : Int) : Decidable (isChar c) := by unfold isChar; infer_instance

/-- The value a forward scan over a list of entries ends with. -/
def scanEntries (tag : Int) (es : List (Int × Nat)) (value : Nat) : Nat :=
  es.foldl (fun v e => if (charToU8 e.1 : Int) = tag then e.2 else v) value

/-! ## Vector parameters of a blob (`vector.c`, lines 293-321) -/

/-- Modelled from the spec: `VECTOR_TYPE_FLOAT32` is defined in `vectorInt.h`, which is not
part of the sources at hand; the spec gives the F32 type tag the value 1. -/
def VECTOR_TYPE_FLOAT32 : Nat := 1

/-- Modelled from the spec: `VECTOR_TYPE_FLOAT64` is defined in `vectorInt.h`, which is not
part of the sources at hand; the spec gives the F64 type tag the value 2. -/
def VECTOR_TYPE_FLOAT64 : Nat := 2

/-- Modelled from the spec: `MAX_VECTOR_SZ` is defined in `vectorInt.h`, which is not part of
the sources at hand; the spec calls it `MAX_DIMS` and recommends 16384. -/
def MAX_VECTOR_SZ : Nat := 16384

/-- The constant `MAX_FLOAT_CHAR_SZ` of `vector.c`. -/
def MAX_FLOAT_CHAR_SZ : Nat := 1024

/-- The diagnostics of `vector.c` that the embedded functions store in `*pzErrMsg`, one
constructor per format string, carrying the arguments that are formatted into it. -/
inductive VecErr where
  /-- Text `vector: unexpected binary type: got %d, expected %d or %d`. -/
  | unexpectedBinaryType (got expected1 expected2 : Nat)
  /-- Text `vector: max size exceeded: %d > %d`. -/
  | blobMaxSizeExceeded (dims max : Nat)
  /-- Text `vector: must start with '['`. -/
  | mustStartWithBracket
  /-- Text `vector: float string length exceeded %d characters: '%s'`. -/
  | floatStringTooLong (max : Nat) (valueBuf : List Nat)
  /-- Text `vector: invalid float at position %d: '%s'`. -/
  | invalidFloat (iElem : Nat) (valueBuf : List Nat)
  /-- Text `vector: max size exceeded %d`. -/
  | textMaxSizeExceeded (max : Nat)
  /-- Text `vector: must end with ']'`. -/
  | mustEndWithBracket
  /-- Text `vector: non-space symbols after closing ']' are forbidden`. -/
  | nonSpaceAfterBracket
  /-- Text `unexpected vector type`. -/
  | unexpectedVectorType
  /-- Text `vector: unexpected value type: got %s, expected TEXT or BLOB`. -/
  | unexpectedValueType (typeRepr : String)
  /-- A diagnostic set by one of the type-specific routines, which are not part of the sources
  at hand. -/
  | typeSpecific
deriving DecidableEq, Repr

/-- What `detectBlobVectorParameters` leaves behind: the return code, the out-parameters
`*pType` and `*pDims` (`none` when the call did not assign them) and `*pzErrMsg`. -/
structure DetectResult where
  rc : Int
  pType : Option Nat
  pDims : Option Nat
  zErrMsg : Option VecErr
deriving DecidableEq, Repr

/-- The tail of `detectBlobVectorParameters` after `*pDims` is assigned (lines 316-320). -/
def detectBlobCheckDims (pType pDims : Nat) : DetectResult :=
  if pDims > MAX_VECTOR_SZ then
    ⟨-1, some pType, some pDims, some (.blobMaxSizeExceeded pDims MAX_VECTOR_SZ)⟩
  else ⟨0, some pType, some pDims, none⟩

/-- The function `detectBlobVectorParameters` on a blob value with bytes `pBlob`;
`sizeof(float)` is 4 and `sizeof(double)` is 8. -/
def detectBlobVectorParameters (pBlob : List Nat) : DetectResult :=
  let nBlobSize := pBlob.length
  let pType := if nBlobSize % 2 ≠ 0 then pBlob.getD (nBlobSize - 1) 0 else VECTOR_TYPE_FLOAT32
  if pType = VECTOR_TYPE_FLOAT32 then detectBlobCheckDims pType (nBlobSize / 4)
  else if pType = VECTOR_TYPE_FLOAT64 then detectBlobCheckDims pType (nBlobSize / 8)
  else
    ⟨-1, some pType, none,
      some (.unexpectedBinaryType pType VECTOR_TYPE_FLOAT32 VECTOR_TYPE_FLOAT64)⟩

/-! ## Text vectors (`vector.c`, lines 179-275) -/

/-- Modelled from the spec: `sqlite3Isspace` is a macro of `sqliteInt.h` over the table
`sqlite3CtypeMap`, neither of which is part of the sources at hand; the spec writes the class
as `\s`: space, tab, line feed, vertical tab, form feed and carriage return. -/
def sqlite3Isspace (c : Nat) : Bool := c == 0x20 || (0x09 ≤ c && c ≤ 0x0d)

/-- Modelled from the spec: `sqlite3Isdigit` is a macro of `sqliteInt.h` over the table
`sqlite3CtypeMap`, neither of which is part of the sources at hand; the decimal digits. -/
def sqlite3Isdigit (c : Nat) : Bool := 0x30 ≤ c && c ≤ 0x39

/-- The bytes of an ASCII string literal, used to write down concrete inputs. -/
def bytes (s : String) : List Nat := s.toList.map Char.toNat

/-- Dereference `*p` of a pointer into a C string: the byte at the pointer, or the
terminating NUL when the pointer stands at the end of the list. -/
def deref : List Nat → Nat
  | [] => 0
  | c :: _ => c

/-- The loop `while( sqlite3Isspace(*pzText) ) pzText++;`, returning the advanced pointer. -/
def skipSpace : List Nat → List Nat
  | [] => []
  | c :: rest => if sqlite3Isspace c then skipSpace rest else c :: rest

/-- Local state of `vectorParseSqliteText` inside its main loop.

* `iElem` is the variable of that name;
* `valueBuf` holds the bytes `valueBuf[0 .. iBuf)`, so that `iBuf` is its length (all other
  bytes of the array are zero);
* `stores` logs the assignments `elems[iElem++] = elem` to the vector's data as pairs of
  index and stored value, in program order;
* `atofArgs` logs the byte strings handed to `sqlite3AtoF`, in program order;
* `bufWrites` logs the indices of `valueBuf` assigned by `valueBuf[iBuf++] = this`. -/
structure TextParseState (D : Type) where
  iElem : Nat
  valueBuf : List Nat
  stores : List (Nat × D)
  atofArgs : List (List Nat)
  bufWrites : List Nat

/-- How the main loop of `vectorParseSqliteText` is left: through `goto error` with a
diagnostic, or normally (loop condition false, or `break`) with the pointer `pzText`. -/
inductive LoopExit (D : Type) where
  | error (e : VecErr) (st : TextParseState D)
  | done (pzText : List Nat) (st : TextParseState D)

/-- The assignment `elemsFloat[iElem++] = elem` or `elemsDouble[iElem++] = elem` together with
the preceding `memset(valueBuf, 0, iBuf); iBuf = 0;` (lines 244-250). `toF32` is the
conversion from `double` to `float`. For a type that is neither F32 nor F64 nothing is
stored and `iElem` stays. -/
def storeElem {D : Type} (toF32 : D → D) (type : Nat) (st : TextParseState D) (elem : D) :
    TextParseState D :=
  if type = VECTOR_TYPE_FLOAT32 then
    { st with valueBuf := [], stores := st.stores ++ [(st.iElem, toF32 elem)],
              iElem := st.iElem + 1 }
  else if type = VECTOR_TYPE_FLOAT64 then
    { st with valueBuf := [], stores := st.stores ++ [(st.iElem, elem)], iElem := st.iElem + 1 }
  else { st with valueBuf := [] }

/-- The main loop `for(; *pzText != '\0'; pzText++)` of `vectorParseSqliteText`
(lines 218-254), by recursion on the text that starts at `pzText`. The float parser
`sqlite3AtoF(valueBuf, &elem, iBuf, SQLITE_UTF8)` is not part of the sources at hand and is a
parameter: it maps the `iBuf` bytes it is given to its return code and the parsed value.
Byte 0x2c is the comma and 0x5d the closing bracket. -/
def parseLoop {D : Type} (sqlite3AtoF : List Nat → Int × D) (toF32 : D → D) (type : Nat) :
    List Nat → TextParseState D → LoopExit D
  | [], st => .done [] st
  | c :: rest, st =>
    if c = 0 then .done (c :: rest) st
    else if sqlite3Isspace c then parseLoop sqlite3AtoF toF32 type rest st
    else if c ≠ 0x2c ∧ c ≠ 0x5d then
      if st.valueBuf.length > MAX_FLOAT_CHAR_SZ then
        .error (.floatStringTooLong MAX_FLOAT_CHAR_SZ st.valueBuf) st
      else
        parseLoop sqlite3AtoF toF32 type rest
          { st with valueBuf := st.valueBuf ++ [c],
                    bufWrites := st.bufWrites ++ [st.valueBuf.length] }
    else if c = 0x5d ∧ st.iElem = 0 ∧ st.valueBuf.length = 0 then .done (c :: rest) st
    else
      let st1 := { st with atofArgs := st.atofArgs ++ [st.valueBuf] }
      if (sqlite3AtoF st.valueBuf).1 ≤ 0 then .error (.invalidFloat st.iElem st.valueBuf) st1
      else if st.iElem ≥ MAX_VECTOR_SZ then .error (.textMaxSizeExceeded MAX_VECTOR_SZ) st1
      else if c = 0x5d then
        .done (c :: rest) (storeElem toF32 type st1 (sqlite3AtoF st.valueBuf).2)
      else
        parseLoop sqlite3AtoF toF32 type rest
          (storeElem toF32 type st1 (sqlite3AtoF st.valueBuf).2)

/-- What `vectorParseSqliteText` leaves behind: the return code, `*pzErrMsg`, the value
assigned to `pVector->dims` (`none` when it is not assigned) and the logs of the state. -/
structure TextParseResult (D : Type) where
  rc : Int
  zErrMsg : Option VecErr
  dims : Option Nat
  stores : List (Nat × D)
  atofArgs : List (List Nat)
  bufWrites : List Nat

/-- The `goto error` exit of `vectorParseSqliteText`. -/
def parseError {D : Type} (e : VecErr) (st : TextParseState D) : TextParseResult D :=
  ⟨-1, some e, none, st.stores, st.atofArgs, st.bufWrites⟩

/-- The function `vectorParseSqliteText` for a vector of element type `type`;
`pzText = none` is the `NULL` result of `sqlite3_value_text`. Byte 0x5b is the opening
bracket. -/
def vectorParseSqliteText {D : Type} (sqlite3AtoF : List Nat → Int × D) (toF32 : D → D)
    (type : Nat) (pzText : Option (List Nat)) : TextParseResult D :=
  match pzText with
  | none => ⟨0, none, none, [], [], []⟩
  | some text =>
    let p := skipSpace text
    if deref p ≠ 0x5b then parseError .mustStartWithBracket ⟨0, [], [], [], []⟩
    else
      match parseLoop sqlite3AtoF toF32 type p.tail ⟨0, [], [], [], []⟩ with
      | .error e st => parseError e st
      | .done p1 st =>
        let p2 := skipSpace p1
        if deref p2 ≠ 0x5d then parseError .mustEndWithBracket st
        else
          let p3 := skipSpace p2.tail
          if deref p3 ≠ 0 then parseError .nonSpaceAfterBracket st
          else ⟨0, none, some st.iElem, st.stores, st.atofArgs, st.bufWrites⟩

/-- Modelled from the spec: `sqlite3AtoF` is defined in `util.c`, which is not part of the
sources at hand. This stand-in is the float parser restricted to unsigned decimal integers: a
non-empty string of decimal digits is accepted (return code 1) with its integer value, and
every other string is rejected (return code 0). It serves for concrete instances only; the
theorems hold for every float parser. -/
def atofDigits (z : List Nat) : Int × Nat :=
  if z ≠ [] ∧ z.all sqlite3Isdigit then (1, z.foldl (fun v c => 10 * v + (c - 0x30)) 0)
  else (0, 0)

/-! ## Shapes of text vectors, in the words of the specification -/

/-- A run of whitespace `ws`. -/
def IsSpaces (w : List Nat) : Prop := ∀ c ∈ w, sqlite3Isspace c = true

instance (w : List Nat) : Decidable (IsSpaces w) := by unfold IsSpaces; infer_instance

/-- A literal as it can stand in a list: a string of bytes of a C string (no NUL) without
whitespace, comma (0x2c) or closing bracket (0x5d). -/
def IsLiteral (l : List Nat) : Prop :=
  ∀ c ∈ l, c ≠ 0 ∧ sqlite3Isspace c = false ∧ c ≠ 0x2c ∧ c ≠ 0x5d

instance (l : List Nat) : Decidable (IsLiteral l) := by unfold IsLiteral; infer_instance

/-- The list body `ws lit_1 ws , ws lit_2 ws , ... , ws lit_n ws` for items
`(ws, lit_i, ws)`. -/
def renderItems : List (List Nat × List Nat × List Nat) → List Nat
  | [] => []
  | [it] => it.1 ++ it.2.1 ++ it.2.2
  | it :: it2 :: rest => it.1 ++ it.2.1 ++ it.2.2 ++ 0x2c :: renderItems (it2 :: rest)

/-- The bytes of a text that are not whitespace. -/
def stripSpaces (t : List Nat) : List Nat := t.filter (fun c => !sqlite3Isspace c)

/-- The state of `vectorParseSqliteText` after one more literal `l` has been collected in
`valueBuf`, handed to the float parser and stored. -/
def stepItem {D : Type} (sqlite3AtoF : List Nat → Int × D) (toF32 : D → D) (type : Nat)
    (st : TextParseState D) (l : List Nat) : TextParseState D :=
  storeElem toF32 type
    { st with valueBuf := st.valueBuf ++ l,
              bufWrites := st.bufWrites ++ List.range' st.valueBuf.length l.length,
              atofArgs := st.atofArgs ++ [st.valueBuf ++ l] }
    (sqlite3AtoF (st.valueBuf ++ l)).2

/-- The value stored for a parsed `double`: narrowed by `toF32` for an F32 vector. -/
def storedValue {D : Type} (toF32 : D → D) (type : Nat) (elem : D) : D :=
  if type = VECTOR_TYPE_FLOAT32 then toF32 elem else elem

/-- The text `ws [ ws lit_1 ws , ... , ws lit_n ws ] ws`; byte 0x5b is the opening and 0x5d
the closing bracket. With no items it is `ws [ ws ] ws`. -/
def listText (w0 wmid : List Nat) (items : List (List Nat × List Nat × List Nat))
    (w1 : List Nat) : List Nat :=
  w0 ++ 0x5b :: (wmid ++ renderItems items ++ 0x5d :: w1)

/-- The content of `valueBuf` after the main loop has consumed the bytes `pre` without
leaving: a comma (0x2c) empties the buffer, whitespace is skipped and any other byte is
appended. -/
def pending (valueBuf pre : List Nat) : List Nat :=
  pre.foldl (fun acc c => if c = 0x2c then [] else if sqlite3Isspace c then acc else acc ++ [c])
    valueBuf

/-- The result of `vectorParseSqliteText` is a failure: return code -1 with a diagnostic. -/
def Fails {D : Type} (r : TextParseResult D) : Prop := r.rc = -1 ∧ r.zErrMsg ≠ none

/-- Exits of the main loop after which `vectorParseSqliteText` fails: a `goto error`, the end
of the string, or a closing bracket followed by something that is not whitespace. -/
def LoopFails {D : Type} (out : LoopExit D) : Prop :=
  (∃ e st, out = .error e st) ∨ (∃ p st, out = .done p st ∧ deref p = 0) ∨
  (∃ post st, out = .done (0x5d :: post) st ∧ deref (skipSpace post) ≠ 0)

/-- The comma-separated list `num,num,...,num` of the given literals (empty for none). -/
def joinComma : List (List Nat) → List Nat
  | [] => []
  | [l] => l
  | l :: l2 :: rest => l ++ 0x2c :: joinComma (l2 :: rest)

/-- The text wire format in the words of the specification,
`^\s*\[\s*(num(\s*,\s*num)*)?\s*\]\s*$`, where each `num` is one contiguous literal that the
float parser accepts. -/
def TextWireFormat (accepts : List Nat → Prop) (text : List Nat) : Prop :=
  ∃ (w0 wmid w1 : List Nat) (items : List (List Nat × List Nat × List Nat)),
    IsSpaces w0 ∧ IsSpaces wmid ∧ IsSpaces w1 ∧
    (∀ it ∈ items, IsSpaces it.1 ∧ IsLiteral it.2.1 ∧ IsSpaces it.2.2 ∧ accepts it.2.1) ∧
    text = listText w0 wmid items w1

/-! ## Column type strings (`vectorIndex.c`, lines 367-377 and 498-571) -/

/-- Modelled from the spec: the table `sqlite3UpperToLower` is defined in `global.c`, which is
not part of the sources at hand; comparisons are case-insensitive, the ASCII capital letters
are mapped to their small letters and every other byte to itself. -/
def sqlite3UpperToLower (c : Nat) : Nat := if 0x41 ≤ c ∧ c ≤ 0x5a then c + 0x20 else c

/-- Modelled from the spec: `sqlite3_strnicmp` is defined in `util.c`, which is not part of
the sources at hand; it compares at most `N` bytes of two C strings without regard to letter
case, as the loop `while( N-- > 0 && *a!=0 && lower[*a]==lower[*b] ){ a++; b++; }` followed
by `return N<0 ? 0 : lower[*a] - lower[*b];`. -/
def sqlite3_strnicmp : List Nat → List Nat → Nat → Int
  | _, _, 0 => 0
  | a, b, N + 1 =>
    if deref a ≠ 0 ∧ sqlite3UpperToLower (deref a) = sqlite3UpperToLower (deref b) then
      sqlite3_strnicmp a.tail b.tail N
    else (sqlite3UpperToLower (deref a) : Int) - (sqlite3UpperToLower (deref b) : Int)

/-- The function `skipSpaces` of `vectorIndex.c`, returning the advanced pointer. -/
def skipSpaces : List Nat → List Nat
  | [] => []
  | c :: rest => if c ≠ 0 ∧ sqlite3Isspace c then skipSpaces rest else c :: rest

/-- The table `VECTOR_COLUMN_TYPES`: pairs of `zName` and `nBits`. -/
def VECTOR_COLUMN_TYPES : List (List Nat × Nat) :=
  [(bytes "FLOAT32", 32), (bytes "FLOAT64", 64), (bytes "F32_BLOB", 32), (bytes "F64_BLOB", 64)]

/-- What `vectorIdxParseColumnType` leaves behind: the return code, the out-parameters
`*pType` and `*pDims` (`none` when not assigned) and the static string `*pErrMsg`. -/
structure ColumnTypeResult where
  rc : Int
  pType : Option Nat
  pDims : Option Nat
  pErrMsg : Option String
deriving DecidableEq, Repr

/-- The digit loop of `vectorIdxParseColumnType` (lines 528-539),
`while( *zTypePtr != '\0' && *zTypePtr != ')' && !sqlite3Isspace(*zTypePtr) )`, started with
the current value of `dimensions`: either the message of the failing `return -1` or the
advanced pointer and the final `dimensions`. Byte 0x29 is the closing parenthesis. -/
def parseDimensions : List Nat → Nat → Except String (List Nat × Nat)
  | [], dimensions => .ok ([], dimensions)
  | c :: rest, dimensions =>
    if c ≠ 0 ∧ c ≠ 0x29 ∧ ¬ sqlite3Isspace c then
      if ¬ sqlite3Isdigit c then .error "non digit symbol in vector column parameter"
      else if dimensions * 10 + (c - 0x30) > MAX_VECTOR_SZ then
        .error "max vector dimension exceeded"
      else parseDimensions rest (dimensions * 10 + (c - 0x30))
    else .ok (c :: rest, dimensions)

/-- The body of the `for` loop of `vectorIdxParseColumnType` once the name of an entry with
`nBits` has matched; `zTypePtr` is `zType + strlen(name)`. Byte 0x28 is the opening
parenthesis. The `break` of line 523 leads to the `return -1` after the loop. -/
def columnTypeBody (nBits : Nat) (zTypePtr : List Nat) : ColumnTypeResult :=
  let p1 := skipSpaces zTypePtr
  if deref p1 ≠ 0x28 then ⟨-1, none, none, some "unexpected vector column type"⟩
  else
    let p2 := skipSpaces p1.tail
    match parseDimensions p2 0 with
    | .error msg => ⟨-1, none, none, some msg⟩
    | .ok (p3, dimensions) =>
      let p4 := skipSpaces p3
      if deref p4 ≠ 0x29 then
        ⟨-1, none, none, some "missed closing brace for vector column type"⟩
      else
        let p5 := skipSpaces p4.tail
        if deref p5 ≠ 0 then
          ⟨-1, none, none, some "extra data after dimension parameter for vector column type"⟩
        else if dimensions ≤ 0 then
          ⟨-1, none, none, some "vector column must have non-zero dimension for index"⟩
        else if nBits = 32 then ⟨0, some VECTOR_TYPE_FLOAT32, some dimensions, none⟩
        else if nBits = 64 then ⟨0, some VECTOR_TYPE_FLOAT64, some dimensions, none⟩
        else ⟨-1, none, some dimensions, some "unsupported vector type"⟩

/-- The `for` loop of `vectorIdxParseColumnType` over the remaining entries of the table. -/
def columnTypeLoop (zType : List Nat) : List (List Nat × Nat) → ColumnTypeResult
  | [] => ⟨-1, none, none, some "unexpected vector column type"⟩
  | (name, nBits) :: types =>
    if sqlite3_strnicmp zType name name.length ≠ 0 then columnTypeLoop zType types
    else columnTypeBody nBits (zType.drop name.length)

/-- The function `vectorIdxParseColumnType`. -/
def vectorIdxParseColumnType (zType : List Nat) : ColumnTypeResult :=
  columnTypeLoop (skipSpaces zType) VECTOR_COLUMN_TYPES

/-- The value of a decimal numeral. -/
def digitsValue (ds : List Nat) : Nat := ds.foldl (fun v c => v * 10 + (c - 0x30)) 0

/-- The strings equal up to the case of ASCII letters. -/
def EqIgnoreCase (a b : List Nat) : Prop := a.map sqlite3UpperToLower = b.map sqlite3UpperToLower

instance (a b : List Nat) : Decidable (EqIgnoreCase a b) := by
  unfold EqIgnoreCase; infer_instance

/-- The column type syntax in the words of the specification:
`ws NAME ws ( ws digits ws ) ws` with `NAME` one of the four names in any letter case and
`digits` a non-empty decimal numeral with value `dims`, `1 ≤ dims ≤ MAX_VECTOR_SZ`; `nBits`
is the width that the table gives the name. -/
def ColumnTypeSyntax (zType : List Nat) (nBits dims : Nat) : Prop :=
  ∃ (w0 name w1 w2 ds w3 w4 zName : List Nat),
    IsSpaces w0 ∧ IsSpaces w1 ∧ IsSpaces w2 ∧ IsSpaces w3 ∧ IsSpaces w4 ∧
    (zName, nBits) ∈ VECTOR_COLUMN_TYPES ∧ EqIgnoreCase name zName ∧
    ds ≠ [] ∧ (∀ c ∈ ds, sqlite3Isdigit c = true) ∧ digitsValue ds = dims ∧
    1 ≤ dims ∧ dims ≤ MAX_VECTOR_SZ ∧
    zType = w0 ++ name ++ w1 ++ 0x28 :: (w2 ++ ds ++ w3 ++ 0x29 :: w4)

/-! ## Index parameters from `key=value` strings (`vectorIndex.c`, lines 379-483) -/

/-- The tag ids and enum codes of `vectorIndexInt.h`, which is not part of the sources at
hand and whose numeric values the specification does not give: they are a parameter of the
embedding. Tags are passed to the `char tag` parameter of the record functions. -/
structure VectorParamIds where
  VECTOR_FORMAT_PARAM_ID : Int
  VECTOR_INDEX_TYPE_PARAM_ID : Int
  VECTOR_TYPE_PARAM_ID : Int
  VECTOR_DIM_PARAM_ID : Int
  VECTOR_METRIC_TYPE_PARAM_ID : Int
  VECTOR_PRUNING_ALPHA_PARAM_ID : Int
  VECTOR_SEARCH_L_PARAM_ID : Int
  VECTOR_INSERT_L_PARAM_ID : Int
  VECTOR_INDEX_TYPE_DISKANN : Nat
  VECTOR_METRIC_TYPE_COS : Nat
  VECTOR_METRIC_TYPE_L2 : Nat

/-- Modelled from the spec: `VECTOR_FORMAT_DEFAULT` is defined in `vectorIndexInt.h`, which is
not part of the sources at hand; the spec gives the format tag the value 1. -/
def VECTOR_FORMAT_DEFAULT : Nat := 1

/-- The functions of `util.c` that `parseVectorIdxParam` calls and that are not part of the
sources at hand, as parameters: `sqlite3Atoi` maps a C string to an `int`, `sqlite3AtoF`
maps the bytes it is given to its return code and the parsed `double`, and `doubleBits` is
the bit pattern `*((u64*)&value)` of a `double`. -/
structure ParamExterns (D : Type) where
  sqlite3Atoi : List Nat → Int
  sqlite3AtoF : List Nat → Int × D
  doubleBits : D → Nat

/-- The struct `VectorParamName`; `type` is 0 for an enum, 1 for an integer and 2 for a
float. The `NULL` value string of the entries that are not enums is never read and is the
empty list here. -/
structure VectorParamName where
  zName : List Nat
  tag : Int
  type : Nat
  zValueStr : List Nat
  value : Nat

/-- The table `VECTOR_PARAM_NAMES`. -/
def VECTOR_PARAM_NAMES (ids : VectorParamIds) : List VectorParamName :=
  [ ⟨bytes "type", ids.VECTOR_INDEX_TYPE_PARAM_ID, 0, bytes "diskann",
      ids.VECTOR_INDEX_TYPE_DISKANN⟩,
    ⟨bytes "metric", ids.VECTOR_METRIC_TYPE_PARAM_ID, 0, bytes "cosine",
      ids.VECTOR_METRIC_TYPE_COS⟩,
    ⟨bytes "metric", ids.VECTOR_METRIC_TYPE_PARAM_ID, 0, bytes "l2",
      ids.VECTOR_METRIC_TYPE_L2⟩,
    ⟨bytes "alpha", ids.VECTOR_PRUNING_ALPHA_PARAM_ID, 2, [], 0⟩,
    ⟨bytes "search_l", ids.VECTOR_SEARCH_L_PARAM_ID, 1, [], 0⟩,
    ⟨bytes "insert_l", ids.VECTOR_INSERT_L_PARAM_ID, 2, [], 0⟩ ]

/-- The bytes of a C string before its terminating NUL. -/
def cstr (z : List Nat) : List Nat := z.takeWhile (fun c => c != 0)

/-- Modelled from the spec: `sqlite3Strlen30` is defined in `util.c`, which is not part of the
sources at hand; the length of a C string, kept to 30 bits (`0x3fffffff & (int)strlen(z)`). -/
def sqlite3Strlen30 (z : List Nat) : Nat := (cstr z).length % 2 ^ 30

/-- The loop `while( zParam[iDelimiter] && zParam[iDelimiter] != '=' ) iDelimiter++;` of
`parseVectorIdxParam`, started at `iDelimiter = 0` on the string: the final `iDelimiter`.
Byte 0x3d is the equals sign. -/
def findDelimiter : List Nat → Nat
  | [] => 0
  | c :: rest => if c ≠ 0 ∧ c ≠ 0x3d then findDelimiter rest + 1 else 0

/-- What `parseVectorIdxParam` leaves behind: the return code, the record and `*pErrMsg`. -/
structure ParamResult where
  rc : Int
  params : VectorIdxParams
  pErrMsg : Option String
deriving DecidableEq, Repr

/-- A call `vectorIdxParamsPutU64(pParams, tag, value)` of `parseVectorIdxParam` followed by
its `return`: -1 with the given message when the put fails, else 0. -/
def putParam (pParams : VectorIdxParams) (tag : Int) (value : Nat) (msg : String) :
    ParamResult :=
  if (vectorIdxParamsPutU64 pParams tag value).1 ≠ 0 then
    ⟨-1, (vectorIdxParamsPutU64 pParams tag value).2, some msg⟩
  else ⟨0, (vectorIdxParamsPutU64 pParams tag value).2, none⟩

/-- The `for` loop of `parseVectorIdxParam` over the remaining entries of the table
(lines 412-453). An `int` is converted to `u64` modulo `2^64`; a `u64` is below `2^64`. -/
def paramLoop {D : Type} (ext : ParamExterns D) (zParam : List Nat) (iDelimiter : Nat)
    (zValue : List Nat) (nValueLen : Nat) (pParams : VectorIdxParams) :
    List VectorParamName → ParamResult
  | [] => ⟨-1, pParams, some "unexpected parameter key"⟩
  | e :: rest =>
    if sqlite3_strnicmp e.zName zParam iDelimiter ≠ 0 then
      paramLoop ext zParam iDelimiter zValue nValueLen pParams rest
    else if e.type = 1 then
      if (ext.sqlite3Atoi zValue % 2 ^ 64).toNat = 0 then
        ⟨-1, pParams, some "invalid representation of integer vector index parameter"⟩
      else
        putParam pParams e.tag (ext.sqlite3Atoi zValue % 2 ^ 64).toNat
          "unable to serialize integer vector index parameter"
    else if e.type = 2 then
      if (ext.sqlite3AtoF (zValue.take nValueLen)).1 ≤ 0 then
        ⟨-1, pParams,
          some "invalid representation of floating point vector index parameter"⟩
      else
        putParam pParams e.tag
          (ext.doubleBits (ext.sqlite3AtoF (zValue.take nValueLen)).2 % 2 ^ 64)
          "unable to serialize floating point vector index parameter"
    else if e.type = 0 then
      if sqlite3_strnicmp e.zValueStr zValue nValueLen = 0 then
        putParam pParams e.tag (e.value % 2 ^ 64) "unable to serialize vector index parameter"
      else paramLoop ext zParam iDelimiter zValue nValueLen pParams rest
    else ⟨-1, pParams, some "unexpected parameter type"⟩

/-- The function `parseVectorIdxParam`. -/
def parseVectorIdxParam {D : Type} (ids : VectorParamIds) (ext : ParamExterns D)
    (zParam : List Nat) (pParams : VectorIdxParams) : ParamResult :=
  let iDelimiter := findDelimiter zParam
  if deref (zParam.drop iDelimiter) ≠ 0x3d then
    ⟨-1, pParams, some "unexpected parameter format"⟩
  else
    let zValue := zParam.drop (iDelimiter + 1)
    paramLoop ext zParam iDelimiter zValue (sqlite3Strlen30 zValue) pParams
      (VECTOR_PARAM_NAMES ids)

/-- The token codes `TK_...` of `parse.h` (not part of the sources at hand) that the code
compares the `op` of an expression with, `TK_COLLATE` apart, which is the constructor
`Expr.collate`; every other code is `other`. -/
inductive TokenCode where
  | TK_FUNCTION
  | TK_COLUMN
  | TK_STRING
  | other (code : Nat)
deriving DecidableEq, Repr

/-- The struct `Expr` of `sqliteInt.h` (not part of the sources at hand), as far as the code
reads it. An expression with `op == TK_COLLATE` is `collate pLeft`, with its operand
`pLeft`. Every other expression is `node op zToken pList iColumn` with the fields `op`,
`u.zToken`, `x.pList` and `iColumn`. The field `x.pList` is the pointer to the argument list
of a function call: `none` is `NULL`, which is what the parser stores for a call without
arguments such as `f()` and for an expression that is not a call, and `some args` is a list
with `nExpr = args.length` entries. -/
inductive Expr where
  | collate (pLeft : Expr)
  | node (op : TokenCode) (zToken : List Nat) (pList : Option (List Expr)) (iColumn : Int)

/-- The test `pExpr->op == code` for a code other than `TK_COLLATE`. -/
def Expr.opIs : Expr → TokenCode → Bool
  | .collate _, _ => false
  | .node op _ _ _, code => op == code

/-- Field `u.zToken` of an expression. -/
def Expr.zToken : Expr → List Nat
  | .collate _ => []
  | .node _ z _ _ => z

/-- Field `x.pList` of an expression; the code reads it only of an expression that is not a
`COLLATE` operator. -/
def Expr.pList : Expr → Option (List Expr)
  | .collate _ => none
  | .node _ _ l _ => l

/-- Field `iColumn` of an expression. -/
def Expr.iColumn : Expr → Int
  | .collate _ => 0
  | .node _ _ _ i => i

/-- Modelled from the spec: the result codes of `sqlite3.h`, which is not part of the sources
at hand; the spec names the outcomes, the values are those of the SQLite C interface. -/
def SQLITE_OK : Int := 0

/-- Modelled from the spec: see `SQLITE_OK`. -/
def SQLITE_ERROR : Int := 1

/-- Modelled from the spec: see `SQLITE_OK`. -/
def SQLITE_NOMEM : Int := 7

/-- Modelled from the spec: see `SQLITE_OK`. -/
def SQLITE_CONSTRAINT : Int := 19

/-- Modelled from the spec: the extended result code `SQLITE_CONSTRAINT_PRIMARYKEY` of
`sqlite3.h`, `SQLITE_CONSTRAINT | (6<<8)`, which `sqlite3_step` returns for a PRIMARY KEY
violation on a connection with extended result codes enabled; see `SQLITE_OK`. -/
def SQLITE_CONSTRAINT_PRIMARYKEY : Int := 1555

/-- Modelled from the spec: see `SQLITE_OK`. -/
def SQLITE_DONE : Int := 101

/-- The messages that the index code hands to `sqlite3ErrorMsg`, one constructor per format
string, carrying the arguments formatted into it. -/
inductive IdxErr where
  /-- Text `unable to serialize vector index parameter: format`. -/
  | serializeFormat
  /-- Text `unable to serialize vector index parameter: type`. -/
  | serializeType
  /-- Text `unable to serialize vector index parameter: dim`. -/
  | serializeDim
  /-- Text `all arguments after first must be strings`. -/
  | argsMustBeStrings
  /-- Text `invalid vector index parameter '%s': %s`. -/
  | invalidParam (zToken : List Nat) (pErrMsg : Option String)
  /-- Text `USING syntax is deprecated, please use plain CREATE INDEX: ...`, in either of
  its two forms. -/
  | usingDeprecated
  /-- Text `vector index can't have collation`. -/
  | cantHaveCollation
  /-- Text `vector index must contain exactly one column wrapped into the
  libsql_vector_idx function`. -/
  | exactlyOneColumn
  /-- Text `partial vector index is not supported`. -/
  | partialNotSupported
  /-- Text `libsql_vector_idx must contain at least one argument`. -/
  | atLeastOneArgument
  /-- Text `libsql_vector_idx first argument must be a column token`. -/
  | firstArgColumnToken
  /-- Text `libsql_vector_idx first argument must be column with vector type`. -/
  | firstArgVectorColumn
  /-- Text `%s: %s` with the message of `vectorIdxParseColumnType` and the type name. -/
  | columnType (pErrMsg : Option String) (zType : List Nat)
  /-- Text `failed to init vector index meta table: %s`. -/
  | metaTableInit
  /-- Text `failed to parse vector idx params`. -/
  | parseParams
  /-- Text `failed to detect underlying table key: %s`. -/
  | tableKey (pErrMsg : String)
  /-- Text `vector index for tables without ROWID and composite primary key are not
  supported`. -/
  | compositeKey
  /-- Text `unable to initialize diskann vector index`. -/
  | diskAnnInit
  /-- Text `unable to update global metadata table`. -/
  | metadataUpdate
deriving DecidableEq, Repr

/-- What `parseVectorIdxParams` leaves behind: the return code, the record and the messages
passed to `sqlite3ErrorMsg`, in order. -/
structure ParamsResult where
  rc : Int
  params : VectorIdxParams
  errMsgs : List IdxErr
deriving DecidableEq, Repr

/-- The loop `for(i = 0; i < nArgs; i++)` of `parseVectorIdxParams` over the remaining
arguments. -/
def paramsArgLoop {D : Type} (ids : VectorParamIds) (ext : ParamExterns D)
    (pParams : VectorIdxParams) : List Expr → ParamsResult
  | [] => ⟨SQLITE_OK, pParams, []⟩
  | pArgExpr :: rest =>
    if ¬ pArgExpr.opIs .TK_STRING then ⟨SQLITE_ERROR, pParams, [.argsMustBeStrings]⟩
    else if (parseVectorIdxParam ids ext pArgExpr.zToken pParams).rc ≠ 0 then
      ⟨SQLITE_ERROR, (parseVectorIdxParam ids ext pArgExpr.zToken pParams).params,
        [.invalidParam pArgExpr.zToken
          (parseVectorIdxParam ids ext pArgExpr.zToken pParams).pErrMsg]⟩
    else
      paramsArgLoop ids ext (parseVectorIdxParam ids ext pArgExpr.zToken pParams).params rest

/-- The function `parseVectorIdxParams`; `pArgList` holds the `nArgs` expressions
`pArgList[0 .. nArgs)`, and the `int` arguments `type` and `dims` are converted to `u64`. -/
def parseVectorIdxParams {D : Type} (ids : VectorParamIds) (ext : ParamExterns D)
    (pParams : VectorIdxParams) (type dims : Int) (pArgList : List Expr) : ParamsResult :=
  let r1 := vectorIdxParamsPutU64 pParams ids.VECTOR_FORMAT_PARAM_ID VECTOR_FORMAT_DEFAULT
  if r1.1 ≠ 0 then ⟨SQLITE_ERROR, r1.2, [.serializeFormat]⟩
  else
    let r2 := vectorIdxParamsPutU64 r1.2 ids.VECTOR_TYPE_PARAM_ID (type % 2 ^ 64).toNat
    if r2.1 ≠ 0 then ⟨SQLITE_ERROR, r2.2, [.serializeType]⟩
    else
      let r3 := vectorIdxParamsPutU64 r2.2 ids.VECTOR_DIM_PARAM_ID (dims % 2 ^ 64).toNat
      if r3.1 ≠ 0 then ⟨SQLITE_ERROR, r3.2, [.serializeDim]⟩
      else paramsArgLoop ids ext r3.2 pArgList

/-- An instance of the tag ids and enum codes, numbered in the order of the specification's
table of tags, for concrete examples. -/
def sampleIds : VectorParamIds :=
  { VECTOR_FORMAT_PARAM_ID := 1, VECTOR_INDEX_TYPE_PARAM_ID := 2, VECTOR_TYPE_PARAM_ID := 3,
    VECTOR_DIM_PARAM_ID := 4, VECTOR_METRIC_TYPE_PARAM_ID := 5,
    VECTOR_PRUNING_ALPHA_PARAM_ID := 6, VECTOR_SEARCH_L_PARAM_ID := 7,
    VECTOR_INSERT_L_PARAM_ID := 8, VECTOR_INDEX_TYPE_DISKANN := 1,
    VECTOR_METRIC_TYPE_COS := 1, VECTOR_METRIC_TYPE_L2 := 2 }

/-- Modelled from the spec: `sqlite3Atoi` is defined in `util.c`, which is not part of the
sources at hand. This stand-in is the integer parser restricted to an optional minus sign
(0x2d) followed by decimal digits only, which it maps to the integer they denote; every other
string gives 0. It serves for concrete examples. -/
def atoiDecimal (z : List Nat) : Int :=
  match z with
  | 0x2d :: ds => if (atofDigits ds).1 = 1 then - ((atofDigits ds).2 : Int) else 0
  | ds => if (atofDigits ds).1 = 1 then ((atofDigits ds).2 : Int) else 0

/-- The external functions for concrete examples: the stand-ins `atoiDecimal` and
`atofDigits`, a `double` being represented by the natural number it equals and its bit
pattern not being modelled. -/
def sampleExterns : ParamExterns Nat :=
  { sqlite3Atoi := atoiDecimal, sqlite3AtoF := atofDigits, doubleBits := fun d => d }

/-- The tags that an entry of `VECTOR_PARAM_NAMES` can write. -/
def userTags (ids : VectorParamIds) : List Int :=
  [ids.VECTOR_INDEX_TYPE_PARAM_ID, ids.VECTOR_METRIC_TYPE_PARAM_ID,
   ids.VECTOR_PRUNING_ALPHA_PARAM_ID, ids.VECTOR_SEARCH_L_PARAM_ID,
   ids.VECTOR_INSERT_L_PARAM_ID]

/-- The tag ids are distinct tags, as in the specification's table of tags: the three seeded
tags (format, element type, dimension) are byte values 0..127, differ from one another and
from every tag of a `key=value` parameter, all of which are values of type `char`. -/
def SeedTagsDistinct (ids : VectorParamIds) : Prop :=
  (0 ≤ ids.VECTOR_FORMAT_PARAM_ID ∧ ids.VECTOR_FORMAT_PARAM_ID ≤ 127) ∧
  (0 ≤ ids.VECTOR_TYPE_PARAM_ID ∧ ids.VECTOR_TYPE_PARAM_ID ≤ 127) ∧
  (0 ≤ ids.VECTOR_DIM_PARAM_ID ∧ ids.VECTOR_DIM_PARAM_ID ≤ 127) ∧
  ids.VECTOR_FORMAT_PARAM_ID ≠ ids.VECTOR_TYPE_PARAM_ID ∧
  ids.VECTOR_FORMAT_PARAM_ID ≠ ids.VECTOR_DIM_PARAM_ID ∧
  ids.VECTOR_TYPE_PARAM_ID ≠ ids.VECTOR_DIM_PARAM_ID ∧
  ∀ u ∈ userTags ids, isChar u ∧ u ≠ ids.VECTOR_FORMAT_PARAM_ID ∧
    u ≠ ids.VECTOR_TYPE_PARAM_ID ∧ u ≠ ids.VECTOR_DIM_PARAM_ID

instance (ids : VectorParamIds) : Decidable (SeedTagsDistinct ids) := by
  unfold SeedTagsDistinct; infer_instance

/-! ## Index lifecycle (`vectorIndex.c`, lines 108-130, 225-269, 573-656, 750-925 and
1013-1052; `vector.c`, lines 323-367) -/

/-- A value `sqlite3_value` by its `sqlite3_value_type`: `SQLITE_NULL`, `SQLITE_INTEGER`,
`SQLITE_FLOAT`, `SQLITE_TEXT` with the bytes that `sqlite3_value_bytes` counts, or
`SQLITE_BLOB` with its bytes. -/
inductive SqlValue where
  | null
  | integer (i : Int)
  | real
  | text (z : List Nat)
  | blob (b : List Nat)
deriving DecidableEq, Repr

/-- The function `sqlite3_type_repr` of `vector.c`. -/
def sqlite3_type_repr : SqlValue → String
  | .null => "NULL"
  | .integer _ => "INTEGER"
  | .real => "FLOAT"
  | .blob _ => "BLOB"
  | .text _ => "TEXT"

/-- The function `detectTextVectorParameters` on the bytes of a TEXT value. -/
def detectTextVectorParameters (text : List Nat) (typeHint : Nat) : DetectResult :=
  let scan := text.foldl
    (fun (s : Nat × Bool) c => (if c = 0x2c then s.1 + 1 else s.1, s.2 || sqlite3Isdigit c))
    (0, false)
  let pDims := if scan.2 then scan.1 + 1 else scan.1
  if typeHint = 0 then ⟨0, some VECTOR_TYPE_FLOAT32, some pDims, none⟩
  else if typeHint = VECTOR_TYPE_FLOAT32 then ⟨0, some VECTOR_TYPE_FLOAT32, some pDims, none⟩
  else if typeHint = VECTOR_TYPE_FLOAT64 then ⟨0, some VECTOR_TYPE_FLOAT64, some pDims, none⟩
  else ⟨-1, none, none, some .unexpectedVectorType⟩

/-- The function `detectVectorParameters`. -/
def detectVectorParameters (arg : SqlValue) (typeHint : Nat) : DetectResult :=
  match arg with
  | .blob b => detectBlobVectorParameters b
  | .text z => detectTextVectorParameters z typeHint
  | v => ⟨-1, none, none, some (.unexpectedValueType (sqlite3_type_repr v))⟩

/-- The data buffer of a vector: as allocated, pointing into a blob, or as written by the
text parser (the log of its stores). -/
inductive VectorData (D : Type) where
  | uninit
  | fromBlob (pBlob : List Nat)
  | stored (stores : List (Nat × D))

/-- The struct `Vector`, as far as the code at hand reads or writes it. -/
structure Vector (D : Type) where
  type : Nat
  dims : Nat
  flags : Nat
  data : VectorData D

/-- The struct `VectorInRow`; `pVector = none` is the `NULL` pointer. -/
structure VectorInRow (D : Type) where
  pVector : Option (Vector D)
  nKeys : Int
  pKeyValues : List SqlValue

/-- The struct `UnpackedRecord` of `sqliteInt.h` (not part of the sources at hand), as far as
the code reads it: the fields `aMem[0 .. nField)`. -/
structure UnpackedRecord where
  aMem : List SqlValue
  nField : Nat

/-- The struct `VectorIdxKey`. -/
structure VectorIdxKey where
  nKeyColumns : Nat
  aKeyAffinity : List Nat
  azKeyCollation : List (List Nat)
deriving DecidableEq, Repr

/-- The calls that leave the code at hand, in the order they are made: statements against
the metadata table and calls of the graph engine. -/
inductive Effect (D : Type) where
  /-- The `sqlite3_exec` of `CREATE TABLE IF NOT EXISTS ... libsql_vector_meta_shadow`. -/
  | execCreateMetaTable (zDbSName : List Nat)
  /-- The `sqlite3_prepare_v2` of the `INSERT` into the metadata table. -/
  | prepareInsertParams (zDbSName : List Nat)
  /-- The `sqlite3_step` of the `INSERT` with the bound name and parameter blob. -/
  | stepInsertParams (zName : List Nat) (params : VectorIdxParams)
  /-- The `sqlite3_prepare_v2` of the `DELETE` from the metadata table. -/
  | prepareRemoveParams
  /-- The `sqlite3_step` of the `DELETE` with the bound name. -/
  | stepRemoveParams (zName : List Nat)
  | diskAnnCreateIndex (zDbSName zIdxName : List Nat) (key : VectorIdxKey)
      (params : VectorIdxParams)
  | diskAnnDropIndex (zDbSName zIdxName : List Nat)
  | diskAnnClearIndex (zDbSName zIdxName : List Nat)
  | diskAnnInsert (row : VectorInRow D)
  | diskAnnDelete (row : VectorInRow D)

/-- What the services outside the code at hand answer, one field per call site: the
allocator, the SQL interface and the graph engine. -/
structure Host where
  /-- Bytes of the local variable `idxParams.pBinBuf` before it is initialised. -/
  idxParamsStack : List Nat
  /-- Whether `sqlite3_mprintf` in `initVectorIndexMetaTable` returns a string. -/
  mprintfMetaTable : Bool
  rcExecMetaTable : Int
  rcDiskAnnCreateIndex : Int
  /-- Whether `sqlite3_mprintf` in `insertIndexParameters` returns a string. -/
  mprintfInsert : Bool
  rcInsertPrepare : Int
  rcInsertBindText : Int
  rcInsertBindBlob : Int
  rcInsertStep : Int
  rcDiskAnnDropIndex : Int
  rcRemovePrepare : Int
  rcRemoveBindText : Int
  rcRemoveStep : Int
  rcDiskAnnClearIndex : Int
  /-- Whether `sqlite3_malloc` in `vectorAlloc` returns memory. -/
  mallocVector : Bool
  rcDiskAnnInsert : Int
  rcDiskAnnDelete : Int

/-- A return code together with the calls made. -/
structure Outcome (D : Type) where
  rc : Int
  trace : List (Effect D)

/-- The function `initVectorIndexMetaTable`; `SQLITE_NOMEM_BKPT` is `SQLITE_NOMEM`. -/
def initVectorIndexMetaTable {D : Type} (host : Host) (zDbSName : List Nat) : Outcome D :=
  if ¬ host.mprintfMetaTable then ⟨SQLITE_NOMEM, []⟩
  else ⟨host.rcExecMetaTable, [.execCreateMetaTable zDbSName]⟩

/-- The function `insertIndexParameters`. -/
def insertIndexParameters {D : Type} (host : Host) (zDbSName : List Nat)
    (zName : List Nat) (pParameters : VectorIdxParams) : Outcome D :=
  if ¬ host.mprintfInsert then ⟨SQLITE_NOMEM, []⟩
  else if host.rcInsertPrepare ≠ SQLITE_OK then
    ⟨host.rcInsertPrepare, [.prepareInsertParams zDbSName]⟩
  else if host.rcInsertBindText ≠ SQLITE_OK then
    ⟨host.rcInsertBindText, [.prepareInsertParams zDbSName]⟩
  else if host.rcInsertBindBlob ≠ SQLITE_OK then
    ⟨host.rcInsertBindBlob, [.prepareInsertParams zDbSName]⟩
  else if host.rcInsertStep = SQLITE_CONSTRAINT then
    ⟨SQLITE_CONSTRAINT, [.prepareInsertParams zDbSName, .stepInsertParams zName pParameters]⟩
  else if host.rcInsertStep ≠ SQLITE_DONE then
    ⟨SQLITE_ERROR, [.prepareInsertParams zDbSName, .stepInsertParams zName pParameters]⟩
  else ⟨SQLITE_OK, [.prepareInsertParams zDbSName, .stepInsertParams zName pParameters]⟩

/-- The function `removeIndexParameters`. -/
def removeIndexParameters {D : Type} (host : Host) (zName : List Nat) : Outcome D :=
  if host.rcRemovePrepare ≠ SQLITE_OK then ⟨host.rcRemovePrepare, [.prepareRemoveParams]⟩
  else if host.rcRemoveBindText ≠ SQLITE_OK then
    ⟨host.rcRemoveBindText, [.prepareRemoveParams]⟩
  else if host.rcRemoveStep ≠ SQLITE_DONE then
    ⟨SQLITE_ERROR, [.prepareRemoveParams, .stepRemoveParams zName]⟩
  else ⟨SQLITE_OK, [.prepareRemoveParams, .stepRemoveParams zName]⟩

/-- The connection `sqlite3`, as far as the code reads it: `IsVacuum(db)`, that is
`(db->mDbFlags & DBFLAG_Vacuum) != 0`, and `db->init.busy`. -/
structure Db where
  isVacuum : Bool
  initBusy : Nat

/-- The function `vectorIndexDrop`. -/
def vectorIndexDrop {D : Type} (host : Host) (db : Db) (zDbSName zIdxName : List Nat) :
    Outcome D :=
  if db.isVacuum then ⟨SQLITE_OK, []⟩
  else
    let rcIdx := host.rcDiskAnnDropIndex
    let rParams : Outcome D := removeIndexParameters host zIdxName
    ⟨if rcIdx ≠ SQLITE_OK then rcIdx else rParams.rc,
      .diskAnnDropIndex zDbSName zIdxName :: rParams.trace⟩

/-- The function `vectorIndexClear`. -/
def vectorIndexClear {D : Type} (host : Host) (db : Db) (zDbSName zIdxName : List Nat) :
    Outcome D :=
  if db.isVacuum then ⟨SQLITE_OK, []⟩
  else ⟨host.rcDiskAnnClearIndex, [.diskAnnClearIndex zDbSName zIdxName]⟩

/-- The function `vectorAlloc`: `none` is `NULL`; `vectorInit` sets the fields. -/
def vectorAlloc {D : Type} (host : Host) (type dims : Nat) : Option (Vector D) :=
  if ¬ host.mallocVector then none else some ⟨type, dims, 0, .uninit⟩

/-- Modelled from the spec: `vectorF32InitFromBlob` and `vectorF64InitFromBlob`, to which
`vectorInitFromBlob` dispatches, are defined in files that are not part of the sources at
hand; the spec calls it a direct initialisation from the blob, without parsing. -/
def vectorInitFromBlob {D : Type} (pVector : Vector D) (pBlob : List Nat) : Vector D :=
  { pVector with data := .fromBlob pBlob }

/-- What `vectorInRowAlloc` leaves behind: the return code, the row and `*pzErrMsg`. -/
structure InRowResult (D : Type) where
  rc : Int
  row : VectorInRow D
  zErrMsg : Option VecErr

/-- The function `vectorInRowAlloc`. The call `vectorParse` stands under the test that the
value is TEXT, where it is `vectorParseSqliteText`. At the label `out` a vector allocated
before a failure is freed; the field `pVector` keeps its pointer. -/
def vectorInRowAlloc {D : Type} (host : Host) (atof : List Nat → Int × D) (toF32 : D → D)
    (pRecord : UnpackedRecord) : InRowResult D :=
  let nKeys : Int := (pRecord.nField : Int) - 1
  let pKeyValues := pRecord.aMem.tail
  if nKeys ≤ 0 then ⟨SQLITE_ERROR, ⟨none, nKeys, pKeyValues⟩, none⟩
  else
    let pVectorValue := pRecord.aMem.headD .null
    if pVectorValue = .null then ⟨SQLITE_OK, ⟨none, nKeys, pKeyValues⟩, none⟩
    else
      let det := detectVectorParameters pVectorValue VECTOR_TYPE_FLOAT32
      if det.rc ≠ 0 then ⟨SQLITE_ERROR, ⟨none, nKeys, pKeyValues⟩, det.zErrMsg⟩
      else
        match vectorAlloc host (det.pType.getD 0) (det.pDims.getD 0) with
        | none => ⟨SQLITE_NOMEM, ⟨none, nKeys, pKeyValues⟩, none⟩
        | some v =>
          match pVectorValue with
          | .blob b => ⟨SQLITE_OK, ⟨some (vectorInitFromBlob v b), nKeys, pKeyValues⟩, none⟩
          | .text z =>
            let r := vectorParseSqliteText atof toF32 v.type (some z)
            if r.rc ≠ 0 then
              ⟨SQLITE_ERROR, ⟨some { v with data := .stored r.stores }, nKeys, pKeyValues⟩,
                r.zErrMsg⟩
            else
              ⟨SQLITE_OK,
                ⟨some { v with dims := r.dims.getD v.dims, data := .stored r.stores }, nKeys,
                  pKeyValues⟩, none⟩
          | _ => ⟨SQLITE_OK, ⟨some v, nKeys, pKeyValues⟩, none⟩

/-- What `vectorIndexInsert` and `vectorIndexDelete` leave behind. -/
structure CursorResult (D : Type) where
  rc : Int
  zErrMsg : Option VecErr
  trace : List (Effect D)

/-- The function `vectorIndexInsert`; `db` is `pCur->db`. -/
def vectorIndexInsert {D : Type} (host : Host) (atof : List Nat → Int × D) (toF32 : D → D)
    (db : Db) (pRecord : UnpackedRecord) : CursorResult D :=
  if db.isVacuum then ⟨SQLITE_OK, none, []⟩
  else
    let r := vectorInRowAlloc host atof toF32 pRecord
    if r.rc ≠ SQLITE_OK then ⟨r.rc, r.zErrMsg, []⟩
    else if r.row.pVector.isNone then ⟨SQLITE_OK, none, []⟩
    else ⟨host.rcDiskAnnInsert, none, [.diskAnnInsert r.row]⟩

/-- The function `vectorIndexDelete`; `db` is `pCur->db`. -/
def vectorIndexDelete {D : Type} (host : Host) (db : Db) (r : UnpackedRecord) :
    CursorResult D :=
  if db.isVacuum then ⟨SQLITE_OK, none, []⟩
  else
    ⟨host.rcDiskAnnDelete, none, [.diskAnnDelete ⟨none, (r.nField : Int) - 1, r.aMem.tail⟩]⟩

/-! ## Index creation (`vectorIndex.c`, lines 108-130 and 779-925) -/

/-- Modelled from the spec: `sqlite3StrICmp` is defined in `util.c`, which is not part of the
sources at hand; the marker name is compared case-insensitively, as the loop
`for(;;){ c = *a; x = *b; if( c==x ){ if( c==0 ) break; }else{ c = lower[c] - lower[x];
if( c ) break; } a++; b++; }` followed by `return c;`. -/
def sqlite3StrICmp : List Nat → List Nat → Int
  | [], b => (sqlite3UpperToLower 0 : Int) - (sqlite3UpperToLower (deref b) : Int)
  | c :: a, b =>
    if c = deref b then (if c = 0 then 0 else sqlite3StrICmp a b.tail)
    else if (sqlite3UpperToLower c : Int) - (sqlite3UpperToLower (deref b) : Int) ≠ 0 then
      (sqlite3UpperToLower c : Int) - (sqlite3UpperToLower (deref b) : Int)
    else sqlite3StrICmp a b.tail

/-- The string `VECTOR_INDEX_MARKER_FUNCTION`. -/
def VECTOR_INDEX_MARKER_FUNCTION : List Nat := bytes "libsql_vector_idx"

/-- Modelled from the spec: `VECTOR_INDEX_MAX_KEY_COLUMNS` is defined in `vectorIndexInt.h`,
which is not part of the sources at hand; the spec gives the key descriptor up to 16
entries. -/
def VECTOR_INDEX_MAX_KEY_COLUMNS : Nat := 16

/-- Modelled from the spec: the affinity code `SQLITE_AFF_INTEGER` of `sqliteInt.h`, which is
not part of the sources at hand; the key of a rowid table is one integer column. -/
def SQLITE_AFF_INTEGER : Nat := 0x44

/-- A column of a table, as far as the code reads it: `zCnName`, the string that
`sqlite3ColumnType(pCol, "")` returns, and `affinity`. -/
structure Column where
  zCnName : List Nat
  zType : List Nat
  affinity : Nat

/-- The primary key index that `sqlite3PrimaryKeyIndex` returns. -/
structure PkIndex where
  nKeyCol : Nat
  aiColumn : List Nat
  azColl : List (List Nat)

/-- The struct `Table`, as far as the code reads it; `hasRowid` is `HasRowid(pTable)`. -/
structure Table where
  zName : List Nat
  aCol : List Column
  hasRowid : Bool
  pk : PkIndex

/-- The struct `Index`, as far as the code reads or writes it; `none` is `NULL`. -/
structure Index where
  zName : List Nat
  pTable : Table
  aColExpr : Option (List Expr)
  pPartIdxWhere : Option Expr
  idxType : Nat

/-- The struct `Parse`, as far as the code reads it. -/
structure Parse where
  db : Db
  eParseMode : Nat

/-- The function `vectorIdxKeyGet`: the message on failure, the key on success. -/
def vectorIdxKeyGet (pTable : Table) : Except String VectorIdxKey :=
  if ¬ pTable.hasRowid then
    if pTable.pk.nKeyCol > VECTOR_INDEX_MAX_KEY_COLUMNS then
      .error "exceeded limit for composite columns in primary key index"
    else
      .ok ⟨pTable.pk.nKeyCol,
        (List.range pTable.pk.nKeyCol).map
          (fun i => ((pTable.aCol.get? (pTable.pk.aiColumn.getD i 0)).map Column.affinity).getD 0),
        (List.range pTable.pk.nKeyCol).map (fun i => pTable.pk.azColl.getD i [])⟩
  else .ok ⟨1, [SQLITE_AFF_INTEGER], [bytes "BINARY"]⟩

/-- The loop `while( pExpr->op == TK_COLLATE )`: the expression it ends at and whether its
body ran. -/
def stripCollate : Expr → Expr × Bool
  | .collate pLeft => ((stripCollate pLeft).1, true)
  | .node op zToken pList iColumn => (.node op zToken pList iColumn, false)

/-- The loop over `pIdx->aColExpr` of `vectorIndexCreate`, from given values of
`hasLibsqlVectorIdxFn` and `hasCollation` to the final ones. -/
def scanColExprs : List Expr → Bool × Bool → Bool × Bool
  | [], s => s
  | pExpr :: rest, s =>
    scanColExprs rest
      (if (stripCollate pExpr).1.opIs .TK_FUNCTION ∧
          sqlite3StrICmp (stripCollate pExpr).1.zToken VECTOR_INDEX_MARKER_FUNCTION = 0
        then true else s.1,
       if (stripCollate pExpr).2 then true else s.2)

/-- The labels that `vectorIndexCreate` leaves through. -/
inductive CreateExit where
  | ok
  | ignore
  | skip_refill
  | fail
deriving DecidableEq, Repr

/-- What `vectorIndexCreate` leaves behind: the return code, the field `pIdx->idxType`, the
messages passed to `sqlite3ErrorMsg` in order, and the calls made. -/
structure CreateResult (D : Type) where
  rc : Int
  idxType : Nat
  errMsgs : List IdxErr
  trace : List (Effect D)

/-- The code at the labels `ok`, `ignore`, `skip_refill` and `fail`. -/
def createReturn {D : Type} (SQLITE_IDXTYPE_VECTOR : Nat) (pIdx : Index) (label : CreateExit)
    (errMsgs : List IdxErr) (trace : List (Effect D)) : CreateResult D :=
  match label with
  | .ok => ⟨0, SQLITE_IDXTYPE_VECTOR, errMsgs, trace⟩
  | .ignore => ⟨0, pIdx.idxType, errMsgs, trace⟩
  | .skip_refill => ⟨1, SQLITE_IDXTYPE_VECTOR, errMsgs, trace⟩
  | .fail => ⟨-1, pIdx.idxType, errMsgs, trace⟩

/-- Lines 900-915 of `vectorIndexCreate`: the graph engine creates the index, then the
parameter row is inserted. -/
def createStore {D : Type} (SQLITE_IDXTYPE_VECTOR : Nat) (host : Host) (pIdx : Index)
    (zDbSName : List Nat) (idxKey : VectorIdxKey) (idxParams : VectorIdxParams)
    (errMsgs : List IdxErr) (trace : List (Effect D)) : CreateResult D :=
  if host.rcDiskAnnCreateIndex ≠ SQLITE_OK then
    createReturn SQLITE_IDXTYPE_VECTOR pIdx .fail (errMsgs ++ [.diskAnnInit])
      (trace ++ [.diskAnnCreateIndex zDbSName pIdx.zName idxKey idxParams])
  else
    let ins : Outcome D := insertIndexParameters host zDbSName pIdx.zName idxParams
    if ins.rc = SQLITE_CONSTRAINT then
      createReturn SQLITE_IDXTYPE_VECTOR pIdx .skip_refill errMsgs
        (trace ++ .diskAnnCreateIndex zDbSName pIdx.zName idxKey idxParams :: ins.trace)
    else if ins.rc ≠ SQLITE_OK then
      createReturn SQLITE_IDXTYPE_VECTOR pIdx .fail (errMsgs ++ [.metadataUpdate])
        (trace ++ .diskAnnCreateIndex zDbSName pIdx.zName idxKey idxParams :: ins.trace)
    else
      createReturn SQLITE_IDXTYPE_VECTOR pIdx .ok errMsgs
        (trace ++ .diskAnnCreateIndex zDbSName pIdx.zName idxKey idxParams :: ins.trace)

/-- Lines 882-915 of `vectorIndexCreate`: the metadata table, the parameters, the key, then
`createStore`. -/
def createPersist {D E : Type} (SQLITE_IDXTYPE_VECTOR : Nat) (ids : VectorParamIds)
    (ext : ParamExterns E) (host : Host) (pIdx : Index) (zDbSName : List Nat)
    (idxParams : VectorIdxParams) (type dims : Int) (pArgs : List Expr) : CreateResult D :=
  let tbl : Outcome D := initVectorIndexMetaTable host zDbSName
  if tbl.rc ≠ SQLITE_OK then
    createReturn SQLITE_IDXTYPE_VECTOR pIdx .fail [.metaTableInit] tbl.trace
  else
    let parsed := parseVectorIdxParams ids ext idxParams type dims pArgs
    if parsed.rc ≠ SQLITE_OK then
      createReturn SQLITE_IDXTYPE_VECTOR pIdx .fail (parsed.errMsgs ++ [.parseParams]) tbl.trace
    else
      match vectorIdxKeyGet pIdx.pTable with
      | .error pzErrMsg =>
        createReturn SQLITE_IDXTYPE_VECTOR pIdx .fail (parsed.errMsgs ++ [.tableKey pzErrMsg])
          tbl.trace
      | .ok idxKey =>
        if idxKey.nKeyColumns ≠ 1 then
          createReturn SQLITE_IDXTYPE_VECTOR pIdx .fail (parsed.errMsgs ++ [.compositeKey])
            tbl.trace
        else
          createStore SQLITE_IDXTYPE_VECTOR host pIdx zDbSName idxKey parsed.params
            parsed.errMsgs tbl.trace

/-- Lines 853-880 of `vectorIndexCreate`: the arguments of the marker call, the indexed
column and its type, then `createPersist` unless the schema is being loaded. The test
`pArgsList->nExpr < 1` reads through the pointer `pArgsList`: with `pArgsList = none`, the
`NULL` pointer, the read is a `NULL` dereference and the function does not return, which is
the result `none`. -/
def createArgs {D E : Type} (SQLITE_IDXTYPE_VECTOR : Nat) (ids : VectorParamIds)
    (ext : ParamExterns E) (host : Host) (pParse : Parse) (pIdx : Index) (zDbSName : List Nat)
    (idxParams : VectorIdxParams) (pArgsList : Option (List Expr)) :
    Option (CreateResult D) :=
  match pArgsList with
  | none => none
  | some [] => some (createReturn SQLITE_IDXTYPE_VECTOR pIdx .fail [.atLeastOneArgument] [])
  | some (pArg0 :: pRest) =>
    if ¬ pArg0.opIs .TK_COLUMN then
      some (createReturn SQLITE_IDXTYPE_VECTOR pIdx .fail [.firstArgColumnToken] [])
    else if pArg0.iColumn < 0 then
      some (createReturn SQLITE_IDXTYPE_VECTOR pIdx .fail [.firstArgVectorColumn] [])
    else
      let zEmbeddingColumnTypeName :=
        ((pIdx.pTable.aCol.get? pArg0.iColumn.toNat).map Column.zType).getD []
      let ct := vectorIdxParseColumnType zEmbeddingColumnTypeName
      if ct.rc ≠ 0 then
        some (createReturn SQLITE_IDXTYPE_VECTOR pIdx .fail
          [.columnType ct.pErrMsg zEmbeddingColumnTypeName] [])
      else if pParse.db.initBusy = 1 then
        some (createReturn SQLITE_IDXTYPE_VECTOR pIdx .ok [] [])
      else
        some (createPersist SQLITE_IDXTYPE_VECTOR ids ext host pIdx zDbSName idxParams
          ((ct.pType.getD 0 : Nat) : Int) ((ct.pDims.getD 0 : Nat) : Int) pRest)

/-- The function `vectorIndexCreate`; `SQLITE_IDXTYPE_VECTOR` is the constant of
`sqliteInt.h`, which is not part of the sources at hand, and `pUsing = none` is `NULL`. The
result is `some` of what the function leaves behind when it returns, and `none` when it
dereferences the `NULL` argument list of the marker call (see `createArgs`). -/
def vectorIndexCreate {D E : Type} (SQLITE_IDXTYPE_VECTOR : Nat) (ids : VectorParamIds)
    (ext : ParamExterns E) (host : Host) (pParse : Parse) (pIdx : Index) (zDbSName : List Nat)
    (pUsing : Option (List (List Nat))) : Option (CreateResult D) :=
  if pParse.db.isVacuum then some ⟨SQLITE_OK, pIdx.idxType, [], []⟩
  else
    let idxParams := vectorIdxParamsInit ⟨host.idxParamsStack, 0⟩ none 0
    if pParse.eParseMode ≠ 0 then some (createReturn SQLITE_IDXTYPE_VECTOR pIdx .ignore [] [])
    else if pParse.db.initBusy = 0 ∧ pUsing.isSome then
      some (createReturn SQLITE_IDXTYPE_VECTOR pIdx .fail [.usingDeprecated] [])
    else if pParse.db.initBusy = 1 ∧ pUsing.isSome then
      some (createReturn SQLITE_IDXTYPE_VECTOR pIdx .ok [] [])
    else
      match pIdx.aColExpr with
      | none => some (createReturn SQLITE_IDXTYPE_VECTOR pIdx .ignore [] [])
      | some aColExpr =>
        if ¬ (scanColExprs aColExpr (false, false)).1 then
          some (createReturn SQLITE_IDXTYPE_VECTOR pIdx .ignore [] [])
        else if (scanColExprs aColExpr (false, false)).2 then
          some (createReturn SQLITE_IDXTYPE_VECTOR pIdx .fail [.cantHaveCollation] [])
        else if aColExpr.length ≠ 1 then
          some (createReturn SQLITE_IDXTYPE_VECTOR pIdx .fail [.exactlyOneColumn] [])
        else if pIdx.pPartIdxWhere.isSome then
          some (createReturn SQLITE_IDXTYPE_VECTOR pIdx .fail [.partialNotSupported] [])
        else
          createArgs SQLITE_IDXTYPE_VECTOR ids ext host pParse pIdx zDbSName idxParams
            (aColExpr.head?.bind Expr.pList)

/-! ## Recognition of a vector index, in the words of the specification -/

/-- The expression is a top-level call of the marker: a function call whose name equals
`libsql_vector_idx` up to letter case, or a `COLLATE` operator applied to such an
expression. -/
def IsMarkerCall : Expr → Prop
  | .collate pLeft => IsMarkerCall pLeft
  | .node op zToken _ _ =>
    op = .TK_FUNCTION ∧ EqIgnoreCase (cstr zToken) VECTOR_INDEX_MARKER_FUNCTION

/-- Whether an expression is a top-level call of the marker can be computed. -/
def IsMarkerCall.dec : (e : Expr) → Decidable (IsMarkerCall e)
  | .collate pLeft => by unfold IsMarkerCall; exact IsMarkerCall.dec pLeft
  | .node _ _ _ _ => by unfold IsMarkerCall; infer_instance

instance (e : Expr) : Decidable (IsMarkerCall e) := IsMarkerCall.dec e

/-- One of the indexed expressions is a top-level call of the marker. -/
def HasMarker (l : List Expr) : Prop := ∃ e ∈ l, IsMarkerCall e

instance (l : List Expr) : Decidable (HasMarker l) := by
  unfold HasMarker; infer_instance

/-- The expression is a `COLLATE` operator: `op == TK_COLLATE`. -/
def Expr.isCollate : Expr → Bool
  | .collate _ => true
  | .node _ _ _ _ => false

mutual
/-- A `COLLATE` operator occurs in the expression: at its top, below another `COLLATE`, or
in an argument. -/
def Expr.containsCollate : Expr → Bool
  | .collate _ => true
  | .node _ _ none _ => false
  | .node _ _ (some pList) _ => containsCollateList pList
/-- A `COLLATE` operator occurs in one of the expressions. -/
def containsCollateList : List Expr → Bool
  | [] => false
  | e :: rest => e.containsCollate || containsCollateList rest
end

/-- A host whose services all succeed, for concrete examples; the local buffer holds zeros. -/
def sampleHost : Host :=
  { idxParamsStack := List.replicate 128 0, mprintfMetaTable := true,
    rcExecMetaTable := SQLITE_OK, rcDiskAnnCreateIndex := SQLITE_OK, mprintfInsert := true,
    rcInsertPrepare := SQLITE_OK, rcInsertBindText := SQLITE_OK,
    rcInsertBindBlob := SQLITE_OK, rcInsertStep := SQLITE_DONE,
    rcDiskAnnDropIndex := SQLITE_OK, rcRemovePrepare := SQLITE_OK,
    rcRemoveBindText := SQLITE_OK, rcRemoveStep := SQLITE_DONE,
    rcDiskAnnClearIndex := SQLITE_OK, mallocVector := true, rcDiskAnnInsert := SQLITE_OK,
    rcDiskAnnDelete := SQLITE_OK }

/-- The table `CREATE TABLE t (v F32_BLOB(3))`, for concrete examples. -/
def sampleTable : Table :=
  { zName := bytes "t", aCol := [⟨bytes "v", bytes "F32_BLOB(3)", 0x41⟩], hasRowid := true,
    pk := ⟨0, [], []⟩ }

/-- The column reference `v` of `sampleTable`. -/
def sampleColumn : Expr := .node .TK_COLUMN (bytes "v") none 0

/-- The call `libsql_vector_idx(args)` with at least one argument. -/
def markerCall (args : List Expr) : Expr :=
  .node .TK_FUNCTION (bytes "libsql_vector_idx") (some args) 0

/-- The string literal `'z'`. -/
def stringLiteral (z : String) : Expr := .node .TK_STRING (bytes z) none 0

/-- The index `CREATE INDEX idx ON t (exprs) [WHERE pWhere]`, for concrete examples. -/
def sampleIndex (exprs : List Expr) (pWhere : Option Expr) : Index :=
  { zName := bytes "idx", pTable := sampleTable, aColExpr := some exprs,
    pPartIdxWhere := pWhere, idxType := 0 }

/-- A statement outside VACUUM in normal parse mode with the given `init.busy`. -/
def sampleParse (initBusy : Nat) : Parse := ⟨⟨false, initBusy⟩, 0⟩

/-- The host of `sampleHost` with the given result of the step of the `INSERT` into the
metadata table. -/
def sampleHostStep (rcInsertStep : Int) : Host :=
  { sampleHost with rcInsertStep := rcInsertStep }

/-! ## Shape of a text vector before and after parsing -/

/-- The state in which the main loop of `vectorParseSqliteText` is left. -/
def LoopExit.state {D : Type} : LoopExit D → TextParseState D
  | .error _ st => st
  | .done _ st => st

/-- The logs of a state stay within the buffers: every element is stored at an index below
`dims`, every byte of `valueBuf` is written at an index of the array
`valueBuf[MAX_FLOAT_CHAR_SZ + 1]`, and every string handed to the float parser (whose length
is the `iBuf` of the following `memset(valueBuf, 0, iBuf)`) fits that array. -/
def LogsWithin {D : Type} (dims : Nat) (stores : List (Nat × D)) (atofArgs : List (List Nat))
    (bufWrites : List Nat) : Prop :=
  (∀ s ∈ stores, s.1 < dims) ∧ (∀ i ∈ bufWrites, i ≤ MAX_FLOAT_CHAR_SZ) ∧
  (∀ a ∈ atofArgs, a.length ≤ MAX_FLOAT_CHAR_SZ + 1)

/-- The float parser accepts only strings that contain a decimal digit. -/
def AcceptsOnlyWithDigit {D : Type} (sqlite3AtoF : List Nat → Int × D) : Prop :=
  ∀ l, 0 < (sqlite3AtoF l).1 → ∃ c ∈ l, sqlite3Isdigit c = true

/-! ## SQL functions (`vector.c`, lines 84-159, 277-291, 369-383, 414-428 and 474-687) -/

/-- Modelled from the spec: the type-specific routines `vectorF32...` and `vectorF64...`, to
which the functions of `vector.c` dispatch on the element type, are defined in files that are
not part of the sources at hand. They are parameters here, together with the float parser:
a blob parser returns its code and the dimension and data it leaves in the vector, the
algebra returns the distance (`vectorF..DistanceCos`) or the data it leaves in its first
argument (`vectorF..Add` and `vectorF..Mult`, in place on the first argument); none of them
changes the element type of a vector. The factor of `vectorMult` is 1 or -1 in the code
modelled here and is an integer. `zero` is the value `0` that `vectorDistanceCos` returns
after `assert(0)`. -/
structure VectorExterns (D : Type) where
  sqlite3AtoF : List Nat → Int × D
  toF32 : D → D
  vectorF32ParseSqliteBlob : List Nat → Vector D → Int × Nat × VectorData D
  vectorF64ParseSqliteBlob : List Nat → Vector D → Int × Nat × VectorData D
  vectorF32DistanceCos : Vector D → Vector D → D
  vectorF64DistanceCos : Vector D → Vector D → D
  vectorF32Add : Vector D → Vector D → VectorData D
  vectorF64Add : Vector D → Vector D → VectorData D
  vectorF32Mult : Vector D → Int → VectorData D
  vectorF64Mult : Vector D → Int → VectorData D
  zero : D

/-- What a parser leaves behind: the return code, the vector and `*pzErrMsg`. -/
structure ParseOutcome (D : Type) where
  rc : Int
  vector : Vector D
  zErrMsg : Option VecErr

/-- The function `vectorParseSqliteBlob` on a blob value with bytes `pBlob`. -/
def vectorParseSqliteBlob {D : Type} (ext : VectorExterns D) (pBlob : List Nat)
    (pVector : Vector D) : ParseOutcome D :=
  if pVector.type = VECTOR_TYPE_FLOAT32 then
    let r := ext.vectorF32ParseSqliteBlob pBlob pVector
    ⟨r.1, { pVector with dims := r.2.1, data := r.2.2 },
      if r.1 ≠ 0 then some .typeSpecific else none⟩
  else if pVector.type = VECTOR_TYPE_FLOAT64 then
    let r := ext.vectorF64ParseSqliteBlob pBlob pVector
    ⟨r.1, { pVector with dims := r.2.1, data := r.2.2 },
      if r.1 ≠ 0 then some .typeSpecific else none⟩
  else ⟨-1, pVector, none⟩

/-- The function `vectorParse`. The text of a TEXT value is the bytes of the value, which
`vectorParseSqliteText` reads as a C string; on success it assigns `pVector->dims`, and the
elements it has stored are in the data in any case. -/
def vectorParse {D : Type} (ext : VectorExterns D) (arg : SqlValue) (pVector : Vector D) :
    ParseOutcome D :=
  match arg with
  | .blob b => vectorParseSqliteBlob ext b pVector
  | .text z =>
    let r := vectorParseSqliteText ext.sqlite3AtoF ext.toF32 pVector.type (some z)
    ⟨r.rc, { pVector with dims := r.dims.getD pVector.dims, data := .stored r.stores },
      r.zErrMsg⟩
  | v => ⟨-1, pVector, some (.unexpectedValueType (sqlite3_type_repr v))⟩

/-- The function `vectorDistanceCos`. -/
def vectorDistanceCos {D : Type} (ext : VectorExterns D) (pVector1 pVector2 : Vector D) : D :=
  if pVector1.type = VECTOR_TYPE_FLOAT32 then ext.vectorF32DistanceCos pVector1 pVector2
  else if pVector1.type = VECTOR_TYPE_FLOAT64 then ext.vectorF64DistanceCos pVector1 pVector2
  else ext.zero

/-- The function `vectorAdd`: the first vector after the call. -/
def vectorAdd {D : Type} (ext : VectorExterns D) (v1 v2 : Vector D) : Vector D :=
  if v1.type = VECTOR_TYPE_FLOAT32 then { v1 with data := ext.vectorF32Add v1 v2 }
  else if v1.type = VECTOR_TYPE_FLOAT64 then { v1 with data := ext.vectorF64Add v1 v2 }
  else v1

/-- The function `vectorMult`: the vector after the call. -/
def vectorMult {D : Type} (ext : VectorExterns D) (pVector : Vector D) (k : Int) : Vector D :=
  if pVector.type = VECTOR_TYPE_FLOAT32 then
    { pVector with data := ext.vectorF32Mult pVector k }
  else if pVector.type = VECTOR_TYPE_FLOAT64 then
    { pVector with data := ext.vectorF64Mult pVector k }
  else pVector

/-- A call of the vector algebra with the vectors handed to it. -/
inductive AlgebraCall (D : Type) where
  | vectorDistanceCos (pVector1 pVector2 : Vector D)
  | vectorAdd (v1 v2 : Vector D)

/-- The result that a SQL function sets on its context. -/
inductive SqlResult (D : Type) where
  /-- No `sqlite3_result_...` call is made: the result stays `NULL`. -/
  | unset
  /-- The call `sqlite3_result_error(context, pzErrMsg, -1)` with a diagnostic of the parsers. -/
  | error (zErrMsg : Option VecErr)
  /-- Text `%s: vectors must have the same type: %d != %d`. -/
  | sameType (zFunc : String) (type1 type2 : Nat)
  /-- Text `%s: vectors must have the same length: %d != %d`. -/
  | sameLength (zFunc : String) (dims1 dims2 : Nat)
  /-- The call `sqlite3_result_error_nomem` of `vectorContextAlloc`. -/
  | nomem
  /-- The call `vectorSerialize(context, pVector)`, which dispatches on `pVector->type`. -/
  | serialized (pVector : Vector D)
  /-- The call `sqlite3_result_double`. -/
  | double (value : D)

/-- What a SQL function leaves behind: its result and the calls of the algebra it made. -/
structure FuncOutcome (D : Type) where
  result : SqlResult D
  calls : List (AlgebraCall D)

/-- The function `vectorContextAlloc` when `sqlite3_malloc64` returns memory: `vectorInit`
sets the fields. -/
def vectorContextAlloc {D : Type} (type dims : Nat) : Vector D := ⟨type, dims, 0, .uninit⟩

/-- The function `vectorFuncHintedType`; `argv` holds the `argc` arguments, and `mallocOk n`
tells whether the allocation number `n` of the call returns memory. -/
def vectorFuncHintedType {D : Type} (ext : VectorExterns D) (mallocOk : Nat → Bool)
    (argv : List SqlValue) (typeHint : Nat) : FuncOutcome D :=
  match argv with
  | [] => ⟨.unset, []⟩
  | arg0 :: _ =>
    let det := detectVectorParameters arg0 typeHint
    if det.rc ≠ 0 then ⟨.error det.zErrMsg, []⟩
    else if ¬ mallocOk 0 then ⟨.nomem, []⟩
    else
      let p := vectorParse ext arg0 (vectorContextAlloc (det.pType.getD 0) (det.pDims.getD 0))
      if p.rc ≠ 0 then ⟨.error p.zErrMsg, []⟩
      else ⟨.serialized p.vector, []⟩

/-- The function `vector32Func`. -/
def vector32Func {D : Type} (ext : VectorExterns D) (mallocOk : Nat → Bool)
    (argv : List SqlValue) : FuncOutcome D :=
  vectorFuncHintedType ext mallocOk argv VECTOR_TYPE_FLOAT32

/-- The function `vector64Func`. -/
def vector64Func {D : Type} (ext : VectorExterns D) (mallocOk : Nat → Bool)
    (argv : List SqlValue) : FuncOutcome D :=
  vectorFuncHintedType ext mallocOk argv VECTOR_TYPE_FLOAT64

/-- The function `vectorDistanceCosFunc`. -/
def vectorDistanceCosFunc {D : Type} (ext : VectorExterns D) (mallocOk : Nat → Bool)
    (argv : List SqlValue) : FuncOutcome D :=
  match argv with
  | arg0 :: arg1 :: _ =>
    let det1 := detectVectorParameters arg0 0
    if det1.rc ≠ 0 then ⟨.error det1.zErrMsg, []⟩
    else
      let det2 := detectVectorParameters arg1 0
      if det2.rc ≠ 0 then ⟨.error det2.zErrMsg, []⟩
      else if det1.pType.getD 0 ≠ det2.pType.getD 0 then
        ⟨.sameType "vector_distance_cos" (det1.pType.getD 0) (det2.pType.getD 0), []⟩
      else if det1.pDims.getD 0 ≠ det2.pDims.getD 0 then
        ⟨.sameLength "vector_distance_cos" (det1.pDims.getD 0) (det2.pDims.getD 0), []⟩
      else if ¬ mallocOk 0 then ⟨.nomem, []⟩
      else if ¬ mallocOk 1 then ⟨.nomem, []⟩
      else
        let p1 := vectorParse ext arg0
          (vectorContextAlloc (det1.pType.getD 0) (det1.pDims.getD 0))
        if p1.rc < 0 then ⟨.error p1.zErrMsg, []⟩
        else
          let p2 := vectorParse ext arg1
            (vectorContextAlloc (det2.pType.getD 0) (det2.pDims.getD 0))
          if p2.rc < 0 then ⟨.error p2.zErrMsg, []⟩
          else
            ⟨.double (vectorDistanceCos ext p1.vector p2.vector),
              [.vectorDistanceCos p1.vector p2.vector]⟩
  | _ => ⟨.unset, []⟩

/-- The loop `for(i = 1; i < argc; i++)` of `vectorSumFunc` over the remaining arguments,
from given vectors `pSum` and `pVector` and the calls made so far. -/
def vectorSumLoop {D : Type} (ext : VectorExterns D) (typeSum dimsSum : Nat) :
    List SqlValue → Vector D → Vector D → List (AlgebraCall D) → FuncOutcome D
  | [], pSum, _, calls => ⟨.serialized pSum, calls⟩
  | arg :: rest, pSum, pVector, calls =>
    let det := detectVectorParameters arg 0
    if det.rc ≠ 0 then ⟨.error det.zErrMsg, calls⟩
    else if typeSum ≠ det.pType.getD 0 then
      ⟨.sameType "vector_sum" typeSum (det.pType.getD 0), calls⟩
    else if dimsSum ≠ det.pDims.getD 0 then
      ⟨.sameLength "vector_sum" dimsSum (det.pDims.getD 0), calls⟩
    else
      let p := vectorParse ext arg pVector
      if p.rc < 0 then ⟨.error p.zErrMsg, calls⟩
      else
        vectorSumLoop ext typeSum dimsSum rest (vectorAdd ext pSum p.vector) p.vector
          (calls ++ [.vectorAdd pSum p.vector])

/-- The function `vectorSumFunc`. -/
def vectorSumFunc {D : Type} (ext : VectorExterns D) (mallocOk : Nat → Bool)
    (argv : List SqlValue) : FuncOutcome D :=
  match argv with
  | [] => ⟨.unset, []⟩
  | arg0 :: rest =>
    let det := detectVectorParameters arg0 0
    if det.rc ≠ 0 then ⟨.error det.zErrMsg, []⟩
    else if ¬ mallocOk 0 then ⟨.nomem, []⟩
    else
      let p := vectorParse ext arg0 (vectorContextAlloc (det.pType.getD 0) (det.pDims.getD 0))
      if p.rc < 0 then ⟨.error p.zErrMsg, []⟩
      else if ¬ mallocOk 1 then ⟨.nomem, []⟩
      else
        vectorSumLoop ext (det.pType.getD 0) (det.pDims.getD 0) rest p.vector
          (vectorContextAlloc (det.pType.getD 0) (det.pDims.getD 0)) []

/-- Modelled from the spec: a stand-in for the blob parsers `vectorF32ParseSqliteBlob`
(`size = 4`) and `vectorF64ParseSqliteBlob` (`size = 8`), which are not part of the sources
at hand. A blob is a packed sequence of elements, followed by a type-tag byte when its
length is odd; the stand-in accepts a blob whose payload is whole elements, with the
dimension `payload length / size`, and rejects every other blob. It serves for concrete
examples. -/
def blobParseStandIn {D : Type} (size : Nat) (pBlob : List Nat) (pVector : Vector D) :
    Int × Nat × VectorData D :=
  if (pBlob.length - pBlob.length % 2) % size = 0 then
    (0, (pBlob.length - pBlob.length % 2) / size, .fromBlob pBlob)
  else (-1, pVector.dims, pVector.data)

/-- The external routines for concrete examples: the stand-ins `atofDigits` and
`blobParseStandIn`; a number is represented by the natural number it equals, and the
algebra, whose values no example looks at, returns 0 and leaves the data. -/
def sampleVectorExterns : VectorExterns Nat :=
  { sqlite3AtoF := atofDigits, toF32 := id,
    vectorF32ParseSqliteBlob := blobParseStandIn 4,
    vectorF64ParseSqliteBlob := blobParseStandIn 8,
    vectorF32DistanceCos := fun _ _ => 0, vectorF64DistanceCos := fun _ _ => 0,
    vectorF32Add := fun v1 _ => v1.data, vectorF64Add := fun v1 _ => v1.data,
    vectorF32Mult := fun v _ => v.data, vectorF64Mult := fun v _ => v.data, zero := 0 }

/-! ## The aggregate `vector_sum` and the registration (`vector.c`, lines 94-105 and
689-796 and 875-889) -/

/-- Modelled from the spec: the flag `VECTOR_FLAGS_STATIC` is defined in `vectorInt.h`, which
is not part of the sources at hand; it is the flag bit that tells a vector whose buffer is
borrowed from a blob from one that owns its buffer. -/
def VECTOR_FLAGS_STATIC : Nat := 1

/-- The struct `VectorSumCtx`; `none` is the `NULL` pointer. A pointer keeps its value when
the block it points to is freed. -/
structure VectorSumCtx (D : Type) where
  count : Int
  pSum : Option (Vector D)
  pVector : Option (Vector D)

/-- The two blocks that a `VectorSumCtx` points to. -/
inductive SumBlock where
  | pSum
  | pVector
deriving DecidableEq, Repr

/-- The state of one group of the aggregate: the context that `sqlite3_aggregate_context`
returns (`none` before its first call with a size, a zeroed struct at that call), and the
blocks that have been passed to `sqlite3_free` while the context still points to them. -/
structure AggState (D : Type) where
  p : Option (VectorSumCtx D)
  freed : List SumBlock

/-- The function `vectorFree`: whether it passes the block to `sqlite3_free`. -/
def vectorFree {D : Type} (pVector : Option (Vector D)) : Bool :=
  match pVector with
  | none => false
  | some v => if v.flags &&& VECTOR_FLAGS_STATIC ≠ 0 then false else true

/-- What `vectorSumAdd` leaves behind: the result it sets, the state of the group, the calls
of the algebra, and whether it has read or written a block after it was freed. -/
structure SumAddOutcome (D : Type) where
  result : SqlResult D
  state : AggState D
  calls : List (AlgebraCall D)
  usesFreed : Bool

/-- The function `vectorSumAdd` with the factor `k`; `mallocOk n` tells whether the
allocation number `n` of the call returns memory. A vector that the context points to is
read with the fields it had when it was last written. -/
def vectorSumAdd {D : Type} (ext : VectorExterns D) (mallocOk : Nat → Bool) (st : AggState D)
    (argv0 : SqlValue) (k : Int) : SumAddOutcome D :=
  let p : VectorSumCtx D := st.p.getD ⟨0, none, none⟩
  let det := detectVectorParameters argv0 0
  if det.rc ≠ 0 then ⟨.error det.zErrMsg, ⟨some p, st.freed⟩, [], false⟩
  else if p.count = 0 ∧ ¬ mallocOk 0 then
    ⟨.nomem, ⟨some { p with pSum := none }, st.freed.filter (fun b => b ≠ .pSum)⟩, [], false⟩
  else
    let freed := if p.count = 0 then st.freed.filter (fun b => b ≠ .pSum) else st.freed
    let pSum : Vector D :=
      if p.count = 0 then vectorContextAlloc (det.pType.getD 0) (det.pDims.getD 0)
      else p.pSum.getD (vectorContextAlloc 0 0)
    let p1 : VectorSumCtx D := { p with pSum := some pSum }
    let uses1 : Bool := decide (SumBlock.pSum ∈ freed)
    if pSum.type ≠ det.pType.getD 0 then
      ⟨.sameType "vector_sum" pSum.type (det.pType.getD 0), ⟨some p1, freed⟩, [], uses1⟩
    else if pSum.dims ≠ det.pDims.getD 0 then
      ⟨.sameLength "vector_sum" pSum.dims (det.pDims.getD 0), ⟨some p1, freed⟩, [], uses1⟩
    else if p.count = 0 then
      let r := vectorParse ext argv0 pSum
      if r.rc < 0 then ⟨.error r.zErrMsg, ⟨some { p1 with pSum := some r.vector }, freed⟩, [],
        uses1⟩
      else
        ⟨.unset,
          ⟨some { p1 with pSum := some (vectorMult ext r.vector k), count := p.count + 1 },
            freed⟩, [], uses1⟩
    else if p.pVector.isNone ∧ ¬ mallocOk 0 then ⟨.nomem, ⟨some p1, freed⟩, [], uses1⟩
    else
      let freed2 := if p.pVector.isNone then freed.filter (fun b => b ≠ .pVector) else freed
      let pVector : Vector D :=
        p.pVector.getD (vectorContextAlloc (det.pType.getD 0) (det.pDims.getD 0))
      let uses2 : Bool := uses1 || decide (SumBlock.pVector ∈ freed2)
      let r := vectorParse ext argv0 pVector
      if r.rc < 0 then
        ⟨.error r.zErrMsg, ⟨some { p1 with pVector := some r.vector }, freed2⟩, [], uses2⟩
      else
        ⟨.unset,
          ⟨some { p1 with pSum := some (vectorAdd ext pSum (vectorMult ext r.vector k)),
                          pVector := some (vectorMult ext r.vector k),
                          count := p.count + 1 }, freed2⟩,
          [.vectorAdd pSum (vectorMult ext r.vector k)], uses2⟩

/-- The function `vectorSumEnd`: the result it sets and the state of the group after it.
With `freeMem` the blocks of `pSum` and `pVector` are freed; the pointers in the context
stay. -/
def vectorSumEnd {D : Type} (st : AggState D) (freeMem : Bool) : SqlResult D × AggState D :=
  match st.p with
  | none => (.unset, st)
  | some p =>
    (if p.count > 0 then (match p.pSum with | some v => .serialized v | none => .unset)
      else .unset,
     ⟨some p,
       st.freed ++ (if p.pSum.isSome ∧ freeMem ∧ vectorFree p.pSum then [SumBlock.pSum] else [])
         ++ (if p.pVector.isSome ∧ freeMem ∧ vectorFree p.pVector then [SumBlock.pVector]
              else [])⟩)

/-- The function `vectorSumStep`. -/
def vectorSumStep {D : Type} (ext : VectorExterns D) (mallocOk : Nat → Bool) (st : AggState D)
    (argv0 : SqlValue) : SumAddOutcome D :=
  vectorSumAdd ext mallocOk st argv0 1

/-- The function `vectorSumInverse`. -/
def vectorSumInverse {D : Type} (ext : VectorExterns D) (mallocOk : Nat → Bool)
    (st : AggState D) (argv0 : SqlValue) : SumAddOutcome D :=
  vectorSumAdd ext mallocOk st argv0 (-1)

/-- The function `vectorSumFinalize`. -/
def vectorSumFinalize {D : Type} (st : AggState D) : SqlResult D × AggState D :=
  vectorSumEnd st true

/-- The function `vectorSumValue`. -/
def vectorSumValue {D : Type} (st : AggState D) : SqlResult D × AggState D :=
  vectorSumEnd st false

/-- The functions of `vector.c` that are registered or could be. -/
inductive Callback where
  | vector32Func
  | vector64Func
  | vectorExtractFunc
  | vectorSumFunc
  | vectorMultFunc
  | vectorDistanceCosFunc
  | vectorSumStep
  | vectorSumFinalize
  | vectorSumValue
  | vectorSumInverse
  | libsqlVectorIdx
deriving DecidableEq, Repr

/-- The struct `FuncDef` of `sqliteInt.h` (not part of the sources at hand), as far as the
registration fills it: the name, the number of arguments and the callbacks. -/
structure FuncDef where
  zName : String
  nArg : Int
  xSFunc : Callback
  xFinalize : Option Callback
  xValue : Option Callback
  xInverse : Option Callback
deriving DecidableEq, Repr

/-- Modelled from the spec: the macro `FUNCTION(zName, nArg, iArg, bNC, xFunc)` of
`sqliteInt.h`, which is not part of the sources at hand: a scalar function with the
callback `xFunc`. -/
def FUNCTION (zName : String) (nArg : Int) (_iArg _bNC : Nat) (xFunc : Callback) : FuncDef :=
  ⟨zName, nArg, xFunc, none, none, none⟩

/-- Modelled from the spec: the macro
`WAGGREGATE(zName, nArg, arg, nc, xStep, xFinal, xValue, xInverse, f)` of `sqliteInt.h`,
which is not part of the sources at hand: a window aggregate whose callbacks are, in this
order, step, final, value and inverse (the spec: step add, inverse subtract, value and final
emit the running sum). The flags `f` are left out. -/
def WAGGREGATE (zName : String) (nArg : Int) (_arg _nc : Nat)
    (xStep xFinal xValue xInverse : Callback) : FuncDef :=
  ⟨zName, nArg, xStep, some xFinal, some xValue, some xInverse⟩

/-- The table `aVectorFuncs` of `sqlite3RegisterVectorFunctions`. -/
def aVectorFuncs : List FuncDef :=
  [ FUNCTION "vector" 1 0 0 .vector32Func,
    FUNCTION "vector32" 1 0 0 .vector32Func,
    FUNCTION "vector64" 1 0 0 .vector64Func,
    FUNCTION "vector_extract" 1 0 0 .vectorExtractFunc,
    FUNCTION "vector_sum" (-1) 0 0 .vectorSumFunc,
    FUNCTION "vector_mult" 2 0 0 .vectorMultFunc,
    FUNCTION "vector_distance_cos" 2 0 0 .vectorDistanceCosFunc,
    WAGGREGATE "vector_sum" 1 0 0 .vectorSumStep .vectorSumFinalize .vectorSumFinalize
      .vectorSumInverse,
    FUNCTION "libsql_vector_idx" (-1) 0 0 .libsqlVectorIdx ]

/-- The call of a registered callback that ends or reads a group: `vectorSumFinalize` and
`vectorSumValue` are the functions of these names; no other callback is of this kind. -/
def callEnd {D : Type} (f : Callback) (st : AggState D) : Option (SqlResult D × AggState D) :=
  match f with
  | .vectorSumFinalize => some (vectorSumFinalize st)
  | .vectorSumValue => some (vectorSumValue st)
  | _ => none

/-- The value callback of the window aggregate registered under `zName`, run on a group. -/
def windowValue {D : Type} (zName : String) (st : AggState D) :
    Option (SqlResult D × AggState D) :=
  match aVectorFuncs.find? (fun d => d.zName == zName && d.xValue.isSome) with
  | some d => (d.xValue.bind (fun f => callEnd f st))
  | none => none

/-! ## Rendering of key columns (`vectorIndex.c`, lines 132-162) -/

/-- Modelled from the spec: the affinity code `SQLITE_AFF_BLOB` of `sqliteInt.h`, which is
not part of the sources at hand; the affinities BLOB, TEXT, NUMERIC, INTEGER, REAL and
FLEXNUM are consecutive codes in the order of the table `azType`, and INTEGER is
`SQLITE_AFF_INTEGER`. -/
def SQLITE_AFF_BLOB : Nat := 0x41

/-- The table `azType` of `vectorIdxKeyDefsRender`. -/
def azType : List (List Nat) :=
  [bytes " BLOB", bytes " TEXT", bytes " NUMERIC", bytes " INTEGER", bytes " REAL",
   bytes " NUMERIC"]

/-- The conversion `%d` of the C library for a number that is not negative. -/
def decimal (n : Nat) : List Nat := (Nat.toDigits 10 n).map Char.toNat

/-- The string that the `snprintf` call of iteration `i` formats: `"%s %s %s"` for `i == 0`
and `",%s%d %s %s"` otherwise, with the arguments of the call; `pfx` is the parameter
`prefix`. Byte 0x20 is the space and 0x2c the comma. -/
def keyDefFormat (pKey : VectorIdxKey) (pfx : List Nat) (i : Nat) : List Nat :=
  let collation :=
    if sqlite3_strnicmp (pKey.azKeyCollation.getD i []) (bytes "BINARY") 6 = 0 then []
    else pKey.azKeyCollation.getD i []
  let zType := azType.getD (pKey.aKeyAffinity.getD i 0 - SQLITE_AFF_BLOB) []
  if i = 0 then cstr pfx ++ [0x20] ++ cstr zType ++ [0x20] ++ cstr collation
  else [0x2c] ++ cstr pfx ++ decimal i ++ [0x20] ++ cstr zType ++ [0x20] ++ cstr collation

/-- The loop `for(i = 0; i < pKey->nKeyColumns && nBufSize > 0; i++)` of
`vectorIdxKeyDefsRender`, from the column `i`, the string written to the buffer so far and
the remaining `nBufSize`; the first argument bounds the number of iterations. The call
`snprintf(pBuf, nBufSize, ...)` writes at most `nBufSize - 1` bytes of the formatted string
and a NUL, and returns the length of the formatted string, which is not negative. -/
def keyDefsLoop (pKey : VectorIdxKey) (pfx : List Nat) :
    Nat → Nat → List Nat → Int → List Nat × Int
  | 0, _, out, nBufSize => (out, nBufSize)
  | fuel + 1, i, out, nBufSize =>
    if i < pKey.nKeyColumns ∧ nBufSize > 0 then
      keyDefsLoop pKey pfx fuel (i + 1)
        (out ++ (keyDefFormat pKey pfx i).take (nBufSize.toNat - 1))
        (nBufSize - (keyDefFormat pKey pfx i).length)
    else (out, nBufSize)

/-- The function `vectorIdxKeyDefsRender`: the return code and the C string in the buffer. -/
def vectorIdxKeyDefsRender (pKey : VectorIdxKey) (pfx : List Nat) (nBufSize : Int) :
    Int × List Nat :=
  let r := keyDefsLoop pKey pfx pKey.nKeyColumns 0 [] nBufSize
  (if r.2 ≤ 0 then -1 else 0, r.1)

/-! Theorems about the embedded code. -/

/-! ## Theorems: index parameter record -/

theorem and_ff (v : Nat) : v &&& 0xff = v % 256 := by
  have := Nat.and_pow_two_sub_one_eq_mod v 8
  simpa using this

theorem shr8 (v : Nat) : v >>> 8 = v / 256 := by
  simp [Nat.shiftRight_eq_div_pow]

/-- Writing one byte at the end of a buffer prefix. -/
theorem take_set_succ (l : List Nat) (n b : Nat) (h : n < l.length) :
    (l.set n b).take (n + 1) = l.take n ++ [b] := by
  induction l generalizing n with
  | nil => simp at h
  | cons a l ih =>
    cases n with
    | zero => simp
    | succ n =>
      simp only [List.set_cons_succ, List.take_succ_cons, List.cons_append, List.length_cons] at *
      rw [ih n (by omega)]

theorem pushByte_take (p : VectorIdxParams) (b : Nat) (h : p.nBinSize < p.pBinBuf.length) :
    (pushByte p b).pBinBuf.take (pushByte p b).nBinSize = p.pBinBuf.take p.nBinSize ++ [b] := by
  simp [pushByte, take_set_succ _ _ _ h]

theorem pushByte_length (p : VectorIdxParams) (b : Nat) :
    (pushByte p b).pBinBuf.length = p.pBinBuf.length := by
  simp [pushByte]

theorem pushByte_size (p : VectorIdxParams) (b : Nat) :
    (pushByte p b).nBinSize = p.nBinSize + 1 := rfl

theorem put_unfold (p : VectorIdxParams) (tag : Int) (value : Nat)
    (h : p.nBinSize + 9 ≤ VECTOR_INDEX_PARAMS_BUF_SIZE) :
    vectorIdxParamsPutU64 p tag value =
      (0, pushByte (pushByte (pushByte (pushByte (pushByte (pushByte (pushByte (pushByte
        (pushByte p (charToU8 tag)) (value % 256)) (value / 256 % 256))
        (value / 256 ^ 2 % 256)) (value / 256 ^ 3 % 256)) (value / 256 ^ 4 % 256))
        (value / 256 ^ 5 % 256)) (value / 256 ^ 6 % 256)) (value / 256 ^ 7 % 256)) := by
  unfold vectorIdxParamsPutU64
  rw [if_neg (by omega)]
  simp only [List.range, List.range.loop, List.foldl, and_ff, shr8, Nat.div_div_eq_div_mul]
  norm_num

theorem put_ok (p : VectorIdxParams) (tag : Int) (value : Nat)
    (hlen : p.pBinBuf.length = VECTOR_INDEX_PARAMS_BUF_SIZE)
    (h : p.nBinSize + 9 ≤ VECTOR_INDEX_PARAMS_BUF_SIZE) :
    (vectorIdxParamsPutU64 p tag value).1 = 0 ∧
    (vectorIdxParamsPutU64 p tag value).2.nBinSize = p.nBinSize + 9 ∧
    (vectorIdxParamsPutU64 p tag value).2.pBinBuf.length = VECTOR_INDEX_PARAMS_BUF_SIZE ∧
    (vectorIdxParamsPutU64 p tag value).2.pBinBuf.take (p.nBinSize + 9) =
      p.pBinBuf.take p.nBinSize ++ entryBytes tag value := by
  rw [put_unfold p tag value h]
  refine ⟨rfl, rfl, by simp [pushByte_length, hlen], ?_⟩
  have e : ∀ q : VectorIdxParams, q.nBinSize = p.nBinSize + 9 →
      q.pBinBuf.take (p.nBinSize + 9) = q.pBinBuf.take q.nBinSize := by
    intro q hq; rw [hq]
  rw [e _ rfl]
  repeat rw [pushByte_take _ _ (by (try simp only [pushByte_length, pushByte_size]); omega)]
  simp [entryBytes]


theorem or_shiftLeft (a b k : Nat) (ha : a < 2 ^ k) : a ||| (b <<< k) = a + b * 2 ^ k := by
  rw [Nat.shiftLeft_eq, Nat.or_comm, Nat.mul_comm b, ← Nat.mul_add_lt_is_or ha, Nat.add_comm]

theorem readU64_eq (buf : List Nat) (i v : Nat) (hv : v < 2 ^ 64)
    (hb : ∀ o, o < 8 → buf.getD (i + 1 + o) 0 = v / 256 ^ o % 256) : readU64 buf i = v := by
  have step : ∀ k, v % 256 ^ k ||| ((v / 256 ^ k % 256) <<< (8 * k)) = v % 256 ^ (k + 1) := by
    intro k
    have h256 : (256 : Nat) ^ k = 2 ^ (8 * k) := by
      rw [pow_mul]; norm_num
    rw [or_shiftLeft _ _ _ (by rw [← h256]; exact Nat.mod_lt _ (by positivity)), ← h256,
      Nat.mod_pow_succ, Nat.mul_comm]
  unfold readU64
  simp only [List.range, List.range.loop, List.foldl]
  rw [hb 0 (by omega), hb 1 (by omega), hb 2 (by omega), hb 3 (by omega), hb 4 (by omega),
    hb 5 (by omega), hb 6 (by omega), hb 7 (by omega)]
  have s0 := step 0
  have s1 := step 1
  have s2 := step 2
  have s3 := step 3
  have s4 := step 4
  have s5 := step 5
  have s6 := step 6
  have s7 := step 7
  have h0 : v % 256 ^ 0 = 0 := by rw [pow_zero, Nat.mod_one]
  rw [h0] at s0
  rw [s0, s1, s2, s3, s4, s5, s6, s7]
  exact Nat.mod_eq_of_lt (by norm_num; omega)



theorem entryBytes_length (t : Int) (v : Nat) : (entryBytes t v).length = 9 := rfl

theorem getD_of_take (buf : List Nat) (n j : Nat) (pre mid rest : List Nat)
    (h : buf.take n = pre ++ mid ++ rest) (hj : j < mid.length) :
    buf.getD (pre.length + j) 0 = mid.getD j 0 := by
  have hl : (buf.take n).length = pre.length + mid.length + rest.length := by
    rw [h]; simp [Nat.add_assoc]
  have hlt : pre.length + j < n ∧ pre.length + j < buf.length := by
    rw [List.length_take] at hl; omega
  have e1 : buf.getD (pre.length + j) 0 = (buf.take n).getD (pre.length + j) 0 := by
    rw [List.getD_eq_getElem?_getD, List.getD_eq_getElem?_getD, List.getElem?_take_of_lt hlt.1]
  rw [e1, h, List.append_assoc, List.getD_append_right _ _ _ _ (by omega)]
  simp only [Nat.add_sub_cancel_left]
  exact List.getD_append _ _ _ _ hj

theorem getU64Loop_entries (p : VectorIdxParams) (tag : Int) (es : List (Int × Nat)) :
    ∀ (pre : List Nat) (fuel v : Nat),
      p.pBinBuf.take p.nBinSize = pre ++ es.flatMap (fun e => entryBytes e.1 e.2) →
      (∀ e ∈ es, e.2 < 2 ^ 64) → es.length ≤ fuel → p.nBinSize ≤ p.pBinBuf.length →
      getU64Loop p tag fuel pre.length v = scanEntries tag es v := by
  induction es with
  | nil =>
    intro pre fuel v h _ _ hn
    have hl : pre.length = p.nBinSize := by
      have := congrArg List.length h
      simp only [List.length_take, List.flatMap_nil, List.append_nil] at this
      omega
    cases fuel with
    | zero => rfl
    | succ f => simp [getU64Loop, scanEntries, hl]
  | cons e es ih =>
    intro pre fuel v h hv hf hn
    obtain ⟨t, x⟩ := e
    have hx : x < 2 ^ 64 := hv (t, x) (List.mem_cons_self _ _)
    have h2 : p.pBinBuf.take p.nBinSize =
        pre ++ entryBytes t x ++ es.flatMap (fun e => entryBytes e.1 e.2) := by
      rw [h]; simp
    have hl : pre.length + 9 ≤ p.nBinSize := by
      have := congrArg List.length h2
      simp only [List.length_take, List.length_append, entryBytes_length] at this
      omega
    cases fuel with
    | zero => simp at hf
    | succ f =>
      have hrec := ih (pre ++ entryBytes t x) f
      simp only [List.length_append, entryBytes_length] at hrec
      have htag : p.pBinBuf.getD pre.length 0 = charToU8 t := by
        have := getD_of_take p.pBinBuf p.nBinSize 0 pre (entryBytes t x) _ h2 (by simp [entryBytes])
        simpa [entryBytes] using this
      have hread : readU64 p.pBinBuf pre.length = x := by
        apply readU64_eq _ _ _ hx
        intro o ho
        have := getD_of_take p.pBinBuf p.nBinSize (1 + o) pre (entryBytes t x) _ h2
          (by simp [entryBytes]; omega)
        rw [← Nat.add_assoc] at this
        rw [this]
        interval_cases o <;> simp [entryBytes]
      have hes : ∀ e ∈ es, e.2 < 2 ^ 64 := fun e he => hv e (List.mem_cons_of_mem _ he)
      have hf2 : es.length ≤ f := by simp at hf; omega
      unfold getU64Loop
      rw [if_pos hl, htag, hread]
      by_cases hc : (charToU8 t : Int) = tag
      · rw [if_neg (by simpa using hc), hrec x h2 hes hf2 hn]
        simp [scanEntries, hc]
      · rw [if_pos hc, hrec v h2 hes hf2 hn]
        simp [scanEntries, hc]

theorem putAll_ok (ops : List (Int × Nat)) :
    ∀ p : VectorIdxParams, p.pBinBuf.length = VECTOR_INDEX_PARAMS_BUF_SIZE →
      p.nBinSize ≤ VECTOR_INDEX_PARAMS_BUF_SIZE →
      (∀ rc ∈ (putAll p ops).1, rc = 0) →
      (putAll p ops).2.nBinSize = p.nBinSize + 9 * ops.length ∧
      (putAll p ops).2.pBinBuf.length = VECTOR_INDEX_PARAMS_BUF_SIZE ∧
      (putAll p ops).2.nBinSize ≤ VECTOR_INDEX_PARAMS_BUF_SIZE ∧
      (putAll p ops).2.pBinBuf.take (putAll p ops).2.nBinSize =
        p.pBinBuf.take p.nBinSize ++ ops.flatMap (fun e => entryBytes e.1 e.2) := by
  induction ops with
  | nil => intro p hlen hn _; simp [putAll, hlen, hn]
  | cons op ops ih =>
    intro p hlen hn hrc
    obtain ⟨t, x⟩ := op
    simp only [putAll, List.mem_cons, forall_eq_or_imp] at hrc ⊢
    have hfit : p.nBinSize + 9 ≤ VECTOR_INDEX_PARAMS_BUF_SIZE := by
      by_contra hc
      have : (vectorIdxParamsPutU64 p t x).1 = -1 := by
        unfold vectorIdxParamsPutU64; rw [if_pos (by omega)]
      rw [this] at hrc
      exact absurd hrc.1 (by decide)
    obtain ⟨_, hsz, hl, htake⟩ := put_ok p t x hlen hfit
    obtain ⟨i1, i2, i3, i4⟩ := ih _ hl (by omega) hrc.2
    refine ⟨by rw [i1, hsz, List.length_cons]; omega, i2, i3, ?_⟩
    rw [i4, hsz, htake]
    simp


theorem charToU8_cast (c : Int) : (charToU8 c : Int) = c % 256 := by
  unfold charToU8
  exact Int.toNat_of_nonneg (Int.emod_nonneg _ (by decide))

theorem scanEntries_other (tag : Int) (htag : 0 ≤ tag ∧ tag ≤ 127) (post : List (Int × Nat)) :
    ∀ v, (∀ op ∈ post, isChar op.1 ∧ op.1 ≠ tag) → scanEntries tag post v = v := by
  induction post with
  | nil => intro v _; rfl
  | cons op post ih =>
    intro v h
    have h1 := h op (List.mem_cons_self _ _)
    have hne : (charToU8 op.1 : Int) ≠ tag := by
      rw [charToU8_cast]
      unfold isChar at h1
      omega
    have := ih v (fun o ho => h o (List.mem_cons_of_mem _ ho))
    simpa [scanEntries, hne] using this

theorem scanEntries_last (tag : Int) (htag : 0 ≤ tag ∧ tag ≤ 127) (pre post : List (Int × Nat))
    (value v : Nat) (h : ∀ op ∈ post, isChar op.1 ∧ op.1 ≠ tag) :
    scanEntries tag (pre ++ (tag, value) :: post) v = value := by
  have hself : (charToU8 tag : Int) = tag := by
    rw [charToU8_cast]; omega
  have := scanEntries_other tag htag post value h
  unfold scanEntries at this ⊢
  rw [List.foldl_append, List.foldl_cons]
  simpa [hself] using this

theorem putAll_rc (ops : List (Int × Nat)) :
    ∀ (p : VectorIdxParams) (k : Nat), p.pBinBuf.length = VECTOR_INDEX_PARAMS_BUF_SIZE →
      p.nBinSize = 9 * k → ∀ i, i < ops.length →
      (putAll p ops).1.getD i 1 = if k + i < 14 then 0 else -1 := by
  induction ops with
  | nil => intro p k _ _ i hi; simp at hi
  | cons op ops ih =>
    intro p k hlen hk i hi
    obtain ⟨t, x⟩ := op
    by_cases hfit : k < 14
    · have hfit2 : p.nBinSize + 9 ≤ VECTOR_INDEX_PARAMS_BUF_SIZE := by
        unfold VECTOR_INDEX_PARAMS_BUF_SIZE; omega
      obtain ⟨hrc, hsz, hl, _⟩ := put_ok p t x hlen hfit2
      cases i with
      | zero => simp [putAll, hrc, hfit]
      | succ j =>
        have := ih (vectorIdxParamsPutU64 p t x).2 (k + 1) hl (by rw [hsz, hk]; omega) j
          (by simpa using hi)
        simp only [putAll, List.getD_cons_succ, this]
        congr 1
        rw [Nat.add_assoc, Nat.add_comm 1 j]
    · have hput : vectorIdxParamsPutU64 p t x = (-1, p) := by
        unfold vectorIdxParamsPutU64
        rw [if_pos (by unfold VECTOR_INDEX_PARAMS_BUF_SIZE; omega)]
      cases i with
      | zero => simp [putAll, hput, hfit]
      | succ j =>
        have := ih p k hlen hk j (by simpa using hi)
        simp only [putAll, hput, List.getD_cons_succ, this]
        rw [if_neg (by omega), if_neg (by omega)]

/-- C1: starting from an empty record (`vectorIdxParamsInit` with no buffer and size 0), after
any sequence of `vectorIdxParamsPutU64` calls that all return 0, reading a tag in 0..127 that
was put at least once returns the value of the last put made with that tag. -/
theorem C1_last_put_wins (rec0 : VectorIdxParams) (ops pre post : List (Int × Nat))
    (tag : Int) (value : Nat)
    (hlen : rec0.pBinBuf.length = VECTOR_INDEX_PARAMS_BUF_SIZE)
    (hops : ∀ op ∈ ops, isChar op.1 ∧ op.2 < 2 ^ 64)
    (hrc : ∀ rc ∈ (putAll (vectorIdxParamsInit rec0 none 0) ops).1, rc = 0)
    (htag : 0 ≤ tag ∧ tag ≤ 127)
    (hsplit : ops = pre ++ (tag, value) :: post)
    (hlast : ∀ op ∈ post, op.1 ≠ tag) :
    vectorIdxParamsGetU64 (putAll (vectorIdxParamsInit rec0 none 0) ops).2 tag = value := by
  have hinit : (vectorIdxParamsInit rec0 none 0).pBinBuf.length = VECTOR_INDEX_PARAMS_BUF_SIZE :=
    hlen
  obtain ⟨hsz, hl, hle, htake⟩ :=
    putAll_ok ops (vectorIdxParamsInit rec0 none 0) hinit (Nat.zero_le _) hrc
  have htake2 : (putAll (vectorIdxParamsInit rec0 none 0) ops).2.pBinBuf.take
      (putAll (vectorIdxParamsInit rec0 none 0) ops).2.nBinSize =
      [] ++ ops.flatMap (fun e => entryBytes e.1 e.2) := by
    rw [htake]; simp [vectorIdxParamsInit]
  have hfuel : ops.length ≤ (putAll (vectorIdxParamsInit rec0 none 0) ops).2.nBinSize := by
    rw [hsz]; omega
  have hscan := getU64Loop_entries _ tag ops [] _ 0 htake2 (fun e he => (hops e he).2) hfuel
    (by rw [hl]; exact hle)
  unfold vectorIdxParamsGetU64
  rw [List.length_nil] at hscan
  rw [hscan, hsplit]
  apply scanEntries_last tag htag
  intro op hop
  exact ⟨(hops op (by rw [hsplit]; simp [hop])).1, hlast op hop⟩

set_option maxRecDepth 8000 in
/-- Witness for C1: three puts into an empty record, tag 1 written twice. -/
theorem C1_last_put_wins_witness :
    vectorIdxParamsGetU64
      (putAll (vectorIdxParamsInit ⟨List.replicate 128 0, 0⟩ none 0)
        [(1, 300), (2, 5), (1, 77)]).2 1 = 77 :=
  C1_last_put_wins ⟨List.replicate 128 0, 0⟩ [(1, 300), (2, 5), (1, 77)] [(1, 300), (2, 5)] []
    1 77 (List.length_replicate 128 0) (by decide) (by decide) (by decide) (by decide)
    (by decide)

/-- C2: `vectorIdxParamsPutU64` returns -1 exactly when the current size plus 9 exceeds the
128-byte budget and then leaves the record unchanged; otherwise it returns 0, the size grows
by 9 and the record's bytes are the old bytes followed by the tag byte and the 8 bytes of the
value in little-endian order. From an empty record the first 14 puts return 0 and every later
one returns -1. -/
theorem C2_put_append_or_fail (p : VectorIdxParams) (tag : Int) (value : Nat)
    (hlen : p.pBinBuf.length = VECTOR_INDEX_PARAMS_BUF_SIZE) :
    ((vectorIdxParamsPutU64 p tag value).1 = -1 ↔ p.nBinSize + 9 > 128) ∧
    (p.nBinSize + 9 > 128 → vectorIdxParamsPutU64 p tag value = (-1, p)) ∧
    (¬ p.nBinSize + 9 > 128 →
      (vectorIdxParamsPutU64 p tag value).1 = 0 ∧
      (vectorIdxParamsPutU64 p tag value).2.nBinSize = p.nBinSize + 9 ∧
      (vectorIdxParamsPutU64 p tag value).2.pBinBuf.take (p.nBinSize + 9) =
        p.pBinBuf.take p.nBinSize ++
          [charToU8 tag, value % 256, value / 256 % 256, value / 256 ^ 2 % 256,
           value / 256 ^ 3 % 256, value / 256 ^ 4 % 256, value / 256 ^ 5 % 256,
           value / 256 ^ 6 % 256, value / 256 ^ 7 % 256]) ∧
    (∀ (ops : List (Int × Nat)) (i : Nat), i < ops.length →
      (putAll (vectorIdxParamsInit p none 0) ops).1.getD i 1 = if i < 14 then 0 else -1) := by
  have hfail : p.nBinSize + 9 > 128 → vectorIdxParamsPutU64 p tag value = (-1, p) := by
    intro h
    unfold vectorIdxParamsPutU64
    rw [if_pos (by unfold VECTOR_INDEX_PARAMS_BUF_SIZE; exact h)]
  have hok : ¬ p.nBinSize + 9 > 128 → _ := fun h =>
    put_ok p tag value hlen (by unfold VECTOR_INDEX_PARAMS_BUF_SIZE; omega)
  refine ⟨⟨fun h => ?_, fun h => by rw [hfail h]⟩, hfail, fun h => ?_, fun ops i hi => ?_⟩
  · by_contra hc
    rw [(hok hc).1] at h
    exact absurd h (by decide)
  · obtain ⟨h1, h2, _, h4⟩ := hok h
    exact ⟨h1, h2, h4⟩
  · have := putAll_rc ops (vectorIdxParamsInit p none 0) 0 hlen rfl i hi
    simpa using this

set_option maxRecDepth 8000 in
/-- Witness for C2: a put into a record that already holds one entry. -/
theorem C2_put_append_or_fail_witness :
    (vectorIdxParamsPutU64 ⟨[3, 1, 0, 0, 0, 0, 0, 0, 0] ++ List.replicate 119 0, 9⟩ 5 258).2.pBinBuf.take 18
      = [3, 1, 0, 0, 0, 0, 0, 0, 0, 5, 2, 1, 0, 0, 0, 0, 0, 0] :=
  ((C2_put_append_or_fail ⟨[3, 1, 0, 0, 0, 0, 0, 0, 0] ++ List.replicate 119 0, 9⟩ 5 258
    (by simp [VECTOR_INDEX_PARAMS_BUF_SIZE])).2.2.1 (by decide)).2.2

/-! ## Theorems: vector parameters of a blob -/

theorem detectBlobCheckDims_pType (t d : Nat) : (detectBlobCheckDims t d).pType = some t := by
  unfold detectBlobCheckDims; split_ifs <;> rfl

theorem detectBlobCheckDims_pDims (t d : Nat) : (detectBlobCheckDims t d).pDims = some d := by
  unfold detectBlobCheckDims; split_ifs <;> rfl

theorem detectBlobCheckDims_le (t d : Nat) (h : d ≤ MAX_VECTOR_SZ) :
    (detectBlobCheckDims t d).rc = 0 ∧ (detectBlobCheckDims t d).zErrMsg = none := by
  unfold detectBlobCheckDims; rw [if_neg (by omega)]; exact ⟨rfl, rfl⟩

theorem detectBlobCheckDims_gt (t d : Nat) (h : d > MAX_VECTOR_SZ) :
    (detectBlobCheckDims t d).rc = -1 ∧
    (detectBlobCheckDims t d).zErrMsg = some (.blobMaxSizeExceeded d MAX_VECTOR_SZ) := by
  unfold detectBlobCheckDims; rw [if_pos h]; exact ⟨rfl, rfl⟩

/-- C3: `detectBlobVectorParameters` sets the element type to F32 for a blob of even length and
to the blob's last byte for a blob of odd length; an odd-length blob is accepted only if that
byte is 1 (F32) or 2 (F64), and with any other last byte it is rejected with the
`unexpected binary type` diagnostic. -/
theorem C3_blob_type_detection (pBlob : List Nat) :
    (pBlob.length % 2 = 0 →
      (detectBlobVectorParameters pBlob).pType = some VECTOR_TYPE_FLOAT32) ∧
    (pBlob.length % 2 = 1 →
      (detectBlobVectorParameters pBlob).pType = some (pBlob.getD (pBlob.length - 1) 0) ∧
      ((detectBlobVectorParameters pBlob).rc = 0 →
        pBlob.getD (pBlob.length - 1) 0 = 1 ∨ pBlob.getD (pBlob.length - 1) 0 = 2) ∧
      (pBlob.getD (pBlob.length - 1) 0 ≠ 1 → pBlob.getD (pBlob.length - 1) 0 ≠ 2 →
        (detectBlobVectorParameters pBlob).rc = -1 ∧
        (detectBlobVectorParameters pBlob).zErrMsg =
          some (.unexpectedBinaryType (pBlob.getD (pBlob.length - 1) 0) 1 2))) := by
  constructor
  · intro h
    simp only [detectBlobVectorParameters, h, ne_eq, not_true_eq_false, if_false, if_true,
      detectBlobCheckDims]
    split <;> rfl
  · intro h
    have hodd : pBlob.length % 2 ≠ 0 := by omega
    simp only [detectBlobVectorParameters, hodd, ne_eq, not_false_eq_true, if_true,
      detectBlobCheckDims, VECTOR_TYPE_FLOAT32, VECTOR_TYPE_FLOAT64]
    refine ⟨?_, ?_, ?_⟩
    · split_ifs <;> rfl
    · intro hrc
      by_cases h1 : pBlob.getD (pBlob.length - 1) 0 = 1
      · exact Or.inl h1
      · by_cases h2 : pBlob.getD (pBlob.length - 1) 0 = 2
        · exact Or.inr h2
        · rw [if_neg h1, if_neg h2] at hrc
          simp at hrc
    · intro h1 h2
      rw [if_neg h1, if_neg h2]
      exact ⟨rfl, rfl⟩

/-- Witness for C3: a five-byte blob whose last byte is 3. -/
theorem C3_blob_type_detection_witness :
    (detectBlobVectorParameters [0, 0, 128, 63, 3]).rc = -1 ∧
    (detectBlobVectorParameters [0, 0, 128, 63, 3]).zErrMsg =
      some (.unexpectedBinaryType 3 1 2) :=
  ((C3_blob_type_detection [0, 0, 128, 63, 3]).2 (by decide)).2.2 (by decide) (by decide)

/-- C4: when `detectBlobVectorParameters` recognises the element type, the dimension it
computes is the payload length (the blob length, less the trailing type-tag byte when the
length is odd) divided by the element size (4 for F32, 8 for F64); the blob is accepted with
that dimension when it is at most `MAX_VECTOR_SZ` and rejected with `max size exceeded`
when it is larger. -/
theorem C4_blob_dimension (pBlob : List Nat) (pType : Nat)
    (hty : (detectBlobVectorParameters pBlob).pType = some pType)
    (hrec : pType = VECTOR_TYPE_FLOAT32 ∨ pType = VECTOR_TYPE_FLOAT64) :
    (detectBlobVectorParameters pBlob).pDims =
      some ((pBlob.length - (if pBlob.length % 2 = 1 then 1 else 0)) /
        (if pType = VECTOR_TYPE_FLOAT32 then 4 else 8)) ∧
    ((pBlob.length - (if pBlob.length % 2 = 1 then 1 else 0)) /
        (if pType = VECTOR_TYPE_FLOAT32 then 4 else 8) ≤ MAX_VECTOR_SZ →
      (detectBlobVectorParameters pBlob).rc = 0 ∧
      (detectBlobVectorParameters pBlob).zErrMsg = none) ∧
    ((pBlob.length - (if pBlob.length % 2 = 1 then 1 else 0)) /
        (if pType = VECTOR_TYPE_FLOAT32 then 4 else 8) > MAX_VECTOR_SZ →
      (detectBlobVectorParameters pBlob).rc = -1 ∧
      (detectBlobVectorParameters pBlob).zErrMsg =
        some (.blobMaxSizeExceeded
          ((pBlob.length - (if pBlob.length % 2 = 1 then 1 else 0)) /
            (if pType = VECTOR_TYPE_FLOAT32 then 4 else 8)) MAX_VECTOR_SZ)) := by
  have hpay4 : (pBlob.length - (if pBlob.length % 2 = 1 then 1 else 0)) / 4 = pBlob.length / 4 := by
    split_ifs <;> omega
  have hpay8 : (pBlob.length - (if pBlob.length % 2 = 1 then 1 else 0)) / 8 = pBlob.length / 8 := by
    split_ifs <;> omega
  have hne : VECTOR_TYPE_FLOAT64 ≠ VECTOR_TYPE_FLOAT32 := by decide
  unfold detectBlobVectorParameters at hty ⊢
  simp only [] at hty ⊢
  generalize (if pBlob.length % 2 ≠ 0 then pBlob.getD (pBlob.length - 1) 0
      else VECTOR_TYPE_FLOAT32) = ty at hty ⊢
  by_cases h1 : ty = VECTOR_TYPE_FLOAT32
  · rw [if_pos h1] at hty ⊢
    rw [detectBlobCheckDims_pType, Option.some.injEq] at hty
    rw [if_pos (hty.symm.trans h1), hpay4]
    exact ⟨detectBlobCheckDims_pDims _ _, detectBlobCheckDims_le _ _, detectBlobCheckDims_gt _ _⟩
  · rw [if_neg h1] at hty ⊢
    by_cases h2 : ty = VECTOR_TYPE_FLOAT64
    · rw [if_pos h2] at hty ⊢
      rw [detectBlobCheckDims_pType, Option.some.injEq] at hty
      rw [if_neg (fun h => h1 (hty.trans h)), hpay8]
      exact ⟨detectBlobCheckDims_pDims _ _, detectBlobCheckDims_le _ _,
        detectBlobCheckDims_gt _ _⟩
    · rw [if_neg h2] at hty
      simp only [Option.some.injEq] at hty
      rcases hrec with h | h
      · exact absurd (hty.trans h) h1
      · exact absurd (hty.trans h) h2

/-- Witness for C4: a 17-byte blob tagged F64 holds two elements. -/
theorem C4_blob_dimension_witness :
    (detectBlobVectorParameters
      [0, 0, 0, 0, 0, 0, 240, 63, 0, 0, 0, 0, 0, 0, 0, 64, 2]).pDims = some 2 :=
  (C4_blob_dimension [0, 0, 0, 0, 0, 0, 240, 63, 0, 0, 0, 0, 0, 0, 0, 64, 2] 2
    (by decide) (by decide)).1

/-- C5: for a blob of even length, `detectBlobVectorParameters` gives the same outcome (return
code, element type, dimension and diagnostic) for the blob and for the blob followed by the
type-tag byte 1, and the element type is F32 in both cases. -/
theorem C5_legacy_blob_same_as_tagged (pBlob : List Nat) (heven : pBlob.length % 2 = 0) :
    detectBlobVectorParameters (pBlob ++ [1]) = detectBlobVectorParameters pBlob ∧
    (detectBlobVectorParameters pBlob).pType = some VECTOR_TYPE_FLOAT32 ∧
    (detectBlobVectorParameters pBlob).pDims = some (pBlob.length / 4) := by
  have hodd : (pBlob.length + 1) % 2 ≠ 0 := by omega
  have hlast : (pBlob ++ [1]).getD (pBlob.length + 1 - 1) 0 = 1 := by
    rw [Nat.add_sub_cancel, List.getD_append_right _ _ _ _ (le_refl _)]
    simp
  have hdiv : (pBlob.length + 1) / 4 = pBlob.length / 4 := by omega
  have hE : (0 : Nat) ≠ 0 ↔ False := by simp
  refine ⟨?_, ?_, ?_⟩
  · simp only [detectBlobVectorParameters, List.length_append, List.length_singleton, hodd,
      hlast, heven, ne_eq, not_false_eq_true, not_true_eq_false, if_true, if_false,
      VECTOR_TYPE_FLOAT32, hdiv]
  · simp only [detectBlobVectorParameters, heven, ne_eq, not_true_eq_false, if_false, if_true,
      detectBlobCheckDims]
    split_ifs <;> rfl
  · simp only [detectBlobVectorParameters, heven, ne_eq, not_true_eq_false, if_false, if_true,
      detectBlobCheckDims]
    split_ifs <;> rfl

/-- Witness for C5: the four-byte blob of the F32 vector `[1]`. -/
theorem C5_legacy_blob_same_as_tagged_witness :
    detectBlobVectorParameters ([0, 0, 128, 63] ++ [1]) =
      detectBlobVectorParameters [0, 0, 128, 63] :=
  (C5_legacy_blob_same_as_tagged [0, 0, 128, 63] (by decide)).1

/-! ## Theorems: text vectors -/

theorem skipSpace_spaces (w t : List Nat) (hw : IsSpaces w) :
    skipSpace (w ++ t) = skipSpace t := by
  induction w with
  | nil => rfl
  | cons c w ih =>
    have hc : sqlite3Isspace c = true := hw c (List.mem_cons_self _ _)
    simp only [List.cons_append, skipSpace, hc, if_true]
    exact ih (fun d hd => hw d (List.mem_cons_of_mem _ hd))

theorem skipSpace_of_not_space (t : List Nat) (h : sqlite3Isspace (deref t) = false) :
    skipSpace t = t := by
  cases t with
  | nil => rfl
  | cons c t => simp only [deref] at h; simp [skipSpace, h]

theorem deref_skipSpace_not_space (t : List Nat) :
    sqlite3Isspace (deref (skipSpace t)) = false := by
  induction t with
  | nil => rfl
  | cons c t ih =>
    by_cases hc : sqlite3Isspace c = true
    · simp only [skipSpace, hc, if_true]; exact ih
    · simp only [skipSpace, hc]
      simpa [deref] using hc

section Loop

variable {D : Type} (atof : List Nat → Int × D) (toF32 : D → D) (type : Nat)

theorem parseLoop_spaces (w t : List Nat) (st : TextParseState D) (hw : IsSpaces w) :
    parseLoop atof toF32 type (w ++ t) st = parseLoop atof toF32 type t st := by
  induction w with
  | nil => rfl
  | cons c w ih =>
    have hc : sqlite3Isspace c = true := hw c (List.mem_cons_self _ _)
    have h0 : c ≠ 0 := by rintro rfl; exact absurd hc (by decide)
    simp only [List.cons_append, parseLoop, h0, hc, if_true, if_false, List.append_eq]
    exact ih (fun d hd => hw d (List.mem_cons_of_mem _ hd))

theorem parseLoop_literal (l : List Nat) (hl : IsLiteral l) :
    ∀ (t : List Nat) (st : TextParseState D),
      st.valueBuf.length + l.length ≤ MAX_FLOAT_CHAR_SZ + 1 →
      parseLoop atof toF32 type (l ++ t) st =
        parseLoop atof toF32 type t
          { st with valueBuf := st.valueBuf ++ l,
                    bufWrites := st.bufWrites ++ List.range' st.valueBuf.length l.length } := by
  induction l with
  | nil => intro t st _; simp
  | cons c l ih =>
    intro t st hlen
    obtain ⟨h0, hs, hc, hb⟩ := hl c (List.mem_cons_self _ _)
    have hfit : ¬ st.valueBuf.length > MAX_FLOAT_CHAR_SZ := by
      simp only [List.length_cons] at hlen; omega
    simp only [List.cons_append, parseLoop, h0, hs, hc, hb, hfit, if_false, ne_eq,
      not_false_eq_true, and_self, if_true, Bool.false_eq_true, List.append_eq]
    rw [ih (fun d hd => hl d (List.mem_cons_of_mem _ hd)) t _
      (by simp only [List.length_append, List.length_cons, List.length_nil] at hlen ⊢; omega)]
    simp [List.range'_succ, List.append_assoc]

theorem storeElem_valueBuf (st : TextParseState D) (elem : D) :
    (storeElem toF32 type st elem).valueBuf = [] := by
  unfold storeElem; split_ifs <;> rfl

theorem storeElem_iElem (st : TextParseState D) (elem : D)
    (htype : type = VECTOR_TYPE_FLOAT32 ∨ type = VECTOR_TYPE_FLOAT64) :
    (storeElem toF32 type st elem).iElem = st.iElem + 1 := by
  unfold storeElem
  rcases htype with h | h
  · rw [if_pos h]
  · rw [if_neg (by rw [h]; decide), if_pos h]

theorem storeElem_stores (st : TextParseState D) (elem : D)
    (htype : type = VECTOR_TYPE_FLOAT32 ∨ type = VECTOR_TYPE_FLOAT64) :
    (storeElem toF32 type st elem).stores =
      st.stores ++ [(st.iElem, storedValue toF32 type elem)] := by
  unfold storeElem storedValue
  rcases htype with h | h
  · rw [if_pos h, if_pos h]
  · rw [if_neg (by rw [h]; decide), if_pos h, if_neg (by rw [h]; decide)]

theorem storeElem_logs (st : TextParseState D) (elem : D) :
    (storeElem toF32 type st elem).atofArgs = st.atofArgs ∧
    (storeElem toF32 type st elem).bufWrites = st.bufWrites := by
  unfold storeElem; split_ifs <;> exact ⟨rfl, rfl⟩

/-- The loop at a separator byte (comma or closing bracket) when the collected literal is
accepted and there is room for one more element. -/
theorem parseLoop_separator (sep : Nat) (t : List Nat) (st : TextParseState D)
    (hsep : sep = 0x2c ∨ sep = 0x5d)
    (hne : st.valueBuf ≠ [] ∨ st.iElem ≠ 0)
    (hacc : 0 < (atof st.valueBuf).1) (hmax : st.iElem < MAX_VECTOR_SZ) :
    parseLoop atof toF32 type (sep :: t) st =
      if sep = 0x5d then
        .done (sep :: t) (storeElem toF32 type
          { st with atofArgs := st.atofArgs ++ [st.valueBuf] } (atof st.valueBuf).2)
      else
        parseLoop atof toF32 type t (storeElem toF32 type
          { st with atofArgs := st.atofArgs ++ [st.valueBuf] } (atof st.valueBuf).2) := by
  have h0 : sep ≠ 0 := by rcases hsep with h | h <;> rw [h] <;> decide
  have hs : sqlite3Isspace sep = false := by rcases hsep with h | h <;> rw [h] <;> decide
  have hlit : ¬ (sep ≠ 0x2c ∧ sep ≠ 0x5d) := by
    rcases hsep with h | h <;> rw [h] <;> decide
  have hbrk : ¬ (sep = 0x5d ∧ st.iElem = 0 ∧ st.valueBuf.length = 0) := by
    rintro ⟨_, h1, h2⟩
    rcases hne with h | h
    · exact h (List.length_eq_zero.mp h2)
    · exact h h1
  have hacc2 : ¬ (atof st.valueBuf).1 ≤ 0 := by omega
  have hmax2 : ¬ st.iElem ≥ MAX_VECTOR_SZ := by omega
  rw [parseLoop]
  simp only [h0, hs, hbrk, hacc2, hmax2, if_false, Bool.false_eq_true]
  rw [if_neg hlit]

theorem parseLoop_item (a l b t : List Nat) (sep : Nat) (st : TextParseState D)
    (ha : IsSpaces a) (hl : IsLiteral l) (hb : IsSpaces b)
    (hsep : sep = 0x2c ∨ sep = 0x5d)
    (hne : st.valueBuf ++ l ≠ [] ∨ st.iElem ≠ 0)
    (hlen : st.valueBuf.length + l.length ≤ MAX_FLOAT_CHAR_SZ + 1)
    (hacc : 0 < (atof (st.valueBuf ++ l)).1) (hmax : st.iElem < MAX_VECTOR_SZ) :
    parseLoop atof toF32 type (a ++ l ++ b ++ sep :: t) st =
      if sep = 0x5d then .done (sep :: t) (stepItem atof toF32 type st l)
      else parseLoop atof toF32 type t (stepItem atof toF32 type st l) := by
  rw [List.append_assoc, List.append_assoc, parseLoop_spaces atof toF32 type a _ st ha,
    parseLoop_literal atof toF32 type l hl _ st hlen,
    parseLoop_spaces atof toF32 type b _ _ hb,
    parseLoop_separator atof toF32 type sep t
      { st with valueBuf := st.valueBuf ++ l,
                bufWrites := st.bufWrites ++ List.range' st.valueBuf.length l.length }
      hsep hne hacc hmax]
  rfl

theorem stepItem_valueBuf (st : TextParseState D) (l : List Nat) :
    (stepItem atof toF32 type st l).valueBuf = [] :=
  storeElem_valueBuf toF32 type _ _

theorem stepItem_iElem (st : TextParseState D) (l : List Nat)
    (htype : type = VECTOR_TYPE_FLOAT32 ∨ type = VECTOR_TYPE_FLOAT64) :
    (stepItem atof toF32 type st l).iElem = st.iElem + 1 :=
  storeElem_iElem toF32 type _ _ htype

theorem stepItem_stores (st : TextParseState D) (l : List Nat)
    (htype : type = VECTOR_TYPE_FLOAT32 ∨ type = VECTOR_TYPE_FLOAT64) :
    (stepItem atof toF32 type st l).stores =
      st.stores ++ [(st.iElem, storedValue toF32 type (atof (st.valueBuf ++ l)).2)] :=
  storeElem_stores toF32 type _ _ htype

theorem stepItem_logs (st : TextParseState D) (l : List Nat) :
    (stepItem atof toF32 type st l).atofArgs = st.atofArgs ++ [st.valueBuf ++ l] ∧
    (stepItem atof toF32 type st l).bufWrites =
      st.bufWrites ++ List.range' st.valueBuf.length l.length :=
  storeElem_logs toF32 type _ _

/-- The loop over a well-formed list body up to its closing bracket. -/
theorem parseLoop_items (htype : type = VECTOR_TYPE_FLOAT32 ∨ type = VECTOR_TYPE_FLOAT64)
    (items : List (List Nat × List Nat × List Nat)) :
    ∀ (t : List Nat) (st : TextParseState D), items ≠ [] → st.valueBuf = [] →
      (∀ it ∈ items, IsSpaces it.1 ∧ IsLiteral it.2.1 ∧ IsSpaces it.2.2 ∧ it.2.1 ≠ [] ∧
        it.2.1.length ≤ MAX_FLOAT_CHAR_SZ + 1 ∧ 0 < (atof it.2.1).1) →
      st.iElem + items.length ≤ MAX_VECTOR_SZ →
      parseLoop atof toF32 type (renderItems items ++ 0x5d :: t) st =
        .done (0x5d :: t) (items.foldl (fun s it => stepItem atof toF32 type s it.2.1) st) := by
  induction items with
  | nil => intro t st h; exact absurd rfl h
  | cons it rest ih =>
    intro t st _ hvb hit hmax
    obtain ⟨ha, hl, hb, hne, hlen, hacc⟩ := hit it (List.mem_cons_self _ _)
    have hne2 : st.valueBuf ++ it.2.1 ≠ [] ∨ st.iElem ≠ 0 := by
      left; rw [hvb]; simpa using hne
    have hlen2 : st.valueBuf.length + it.2.1.length ≤ MAX_FLOAT_CHAR_SZ + 1 := by
      rw [hvb]; simpa using hlen
    have hacc2 : 0 < (atof (st.valueBuf ++ it.2.1)).1 := by
      rw [hvb]; simpa using hacc
    have hmax2 : st.iElem < MAX_VECTOR_SZ := by
      simp only [List.length_cons] at hmax; omega
    cases rest with
    | nil =>
      simp only [renderItems, List.foldl]
      rw [parseLoop_item atof toF32 type _ _ _ t 0x5d st ha hl hb (Or.inr rfl) hne2 hlen2 hacc2
        hmax2]
      rfl
    | cons it2 rest2 =>
      simp only [renderItems, List.foldl_cons, List.append_assoc, List.cons_append]
      have := parseLoop_item atof toF32 type it.1 it.2.1 it.2.2
        (renderItems (it2 :: rest2) ++ 0x5d :: t) 0x2c st ha hl hb (Or.inl rfl) hne2 hlen2 hacc2
        hmax2
      simp only [List.append_assoc] at this
      rw [this, if_neg (by decide)]
      have hrec := ih t (stepItem atof toF32 type st it.2.1) (by simp)
        (stepItem_valueBuf atof toF32 type st _)
        (fun x hx => hit x (List.mem_cons_of_mem _ hx))
        (by rw [stepItem_iElem atof toF32 type st _ htype]
            simp only [List.length_cons] at hmax ⊢; omega)
      simpa using hrec

theorem foldl_stepItem (htype : type = VECTOR_TYPE_FLOAT32 ∨ type = VECTOR_TYPE_FLOAT64)
    (items : List (List Nat × List Nat × List Nat)) :
    ∀ st : TextParseState D, st.valueBuf = [] →
      (items.foldl (fun s it => stepItem atof toF32 type s it.2.1) st).iElem =
        st.iElem + items.length ∧
      (items.foldl (fun s it => stepItem atof toF32 type s it.2.1) st).stores =
        st.stores ++ List.enumFrom st.iElem
          (items.map (fun it => storedValue toF32 type (atof it.2.1).2)) ∧
      (items.foldl (fun s it => stepItem atof toF32 type s it.2.1) st).atofArgs =
        st.atofArgs ++ items.map (fun it => it.2.1) ∧
      (items.foldl (fun s it => stepItem atof toF32 type s it.2.1) st).bufWrites =
        st.bufWrites ++ items.flatMap (fun it => List.range' 0 it.2.1.length) := by
  induction items with
  | nil => intro st _; simp
  | cons it rest ih =>
    intro st hvb
    obtain ⟨i1, i2, i3, i4⟩ := ih (stepItem atof toF32 type st it.2.1)
      (stepItem_valueBuf atof toF32 type st _)
    simp only [List.foldl_cons, List.length_cons, List.map_cons, List.enumFrom_cons,
      List.flatMap_cons]
    rw [i1, i2, i3, i4, stepItem_iElem atof toF32 type st _ htype,
      stepItem_stores atof toF32 type st _ htype,
      (stepItem_logs atof toF32 type st _).1, (stepItem_logs atof toF32 type st _).2, hvb]
    simp only [List.nil_append, List.append_assoc, List.singleton_append, List.length_nil]
    exact ⟨by omega, trivial, trivial, trivial⟩

/-- The function succeeds when its loop is left at a closing bracket that only whitespace
follows. -/
theorem parse_of_loop_done (w0 t w1 : List Nat) (st : TextParseState D)
    (hw0 : IsSpaces w0) (hw1 : IsSpaces w1)
    (hloop : parseLoop atof toF32 type t ⟨0, [], [], [], []⟩ = .done (0x5d :: w1) st) :
    vectorParseSqliteText atof toF32 type (some (w0 ++ 0x5b :: t)) =
      ⟨0, none, some st.iElem, st.stores, st.atofArgs, st.bufWrites⟩ := by
  have h1 : skipSpace (w0 ++ 0x5b :: t) = 0x5b :: t := by
    rw [skipSpace_spaces _ _ hw0]; rfl
  have h2 : skipSpace (0x5d :: w1) = 0x5d :: w1 := rfl
  have h3 : skipSpace w1 = [] := by
    have := skipSpace_spaces w1 [] hw1
    rwa [List.append_nil] at this
  simp only [vectorParseSqliteText, h1, deref, List.tail_cons, hloop, h2, h3, ne_eq,
    not_true_eq_false, if_false]

end Loop

theorem parse_listText {D : Type} (atof : List Nat → Int × D) (toF32 : D → D) (type : Nat)
    (w0 wmid w1 : List Nat) (items : List (List Nat × List Nat × List Nat))
    (htype : type = VECTOR_TYPE_FLOAT32 ∨ type = VECTOR_TYPE_FLOAT64)
    (hw0 : IsSpaces w0) (hwmid : IsSpaces wmid) (hw1 : IsSpaces w1)
    (hitems : ∀ it ∈ items, IsSpaces it.1 ∧ IsLiteral it.2.1 ∧ IsSpaces it.2.2 ∧ it.2.1 ≠ [] ∧
      it.2.1.length ≤ MAX_FLOAT_CHAR_SZ + 1 ∧ 0 < (atof it.2.1).1)
    (hn : items.length ≤ MAX_VECTOR_SZ) :
    vectorParseSqliteText atof toF32 type (some (listText w0 wmid items w1)) =
      ⟨0, none, some items.length,
        List.enum (items.map (fun it => storedValue toF32 type (atof it.2.1).2)),
        items.map (fun it => it.2.1),
        items.flatMap (fun it => List.range' 0 it.2.1.length)⟩ := by
  have hloop : parseLoop atof toF32 type (wmid ++ renderItems items ++ 0x5d :: w1)
      ⟨0, [], [], [], []⟩ =
      .done (0x5d :: w1)
        (items.foldl (fun s it => stepItem atof toF32 type s it.2.1) ⟨0, [], [], [], []⟩) := by
    rw [List.append_assoc, parseLoop_spaces atof toF32 type wmid _ _ hwmid]
    by_cases hi : items = []
    · subst hi
      have hs : sqlite3Isspace 93 = false := by decide
      simp [renderItems, parseLoop, hs]
    · exact parseLoop_items atof toF32 type htype items w1 _ hi rfl hitems (by simpa using hn)
  obtain ⟨f1, f2, f3, f4⟩ := foldl_stepItem atof toF32 type htype items ⟨0, [], [], [], []⟩ rfl
  unfold listText
  rw [parse_of_loop_done atof toF32 type w0 _ w1 _ hw0 hw1 hloop, f1, f2, f3, f4]
  simp [List.enum]

/-- C6: for a text `ws [ ws lit_1 ws , ... , ws lit_n ws ] ws` with `0 ≤ n ≤ MAX_VECTOR_SZ`,
where each `lit_i` is a string of at most 1024 bytes without whitespace, comma or closing
bracket that the float parser accepts (the float parser rejecting the empty string, as
`sqlite3AtoF` does), `vectorParseSqliteText` returns 0, sets `dims` to `n` and stores the
float parser's value of `lit_i`, narrowed for an F32 vector, at index `i - 1`, in order. In
particular `[]` and `[ ]` give a zero-dimension vector. -/
theorem C6_wellformed_text_parses {D : Type} (atof : List Nat → Int × D) (toF32 : D → D)
    (type : Nat) (w0 wmid w1 : List Nat) (items : List (List Nat × List Nat × List Nat))
    (htype : type = VECTOR_TYPE_FLOAT32 ∨ type = VECTOR_TYPE_FLOAT64)
    (hempty : (atof []).1 ≤ 0)
    (hw0 : IsSpaces w0) (hwmid : IsSpaces wmid) (hw1 : IsSpaces w1)
    (hitems : ∀ it ∈ items, IsSpaces it.1 ∧ IsLiteral it.2.1 ∧ IsSpaces it.2.2 ∧
      it.2.1.length ≤ MAX_FLOAT_CHAR_SZ ∧ 0 < (atof it.2.1).1)
    (hn : items.length ≤ MAX_VECTOR_SZ) :
    (vectorParseSqliteText atof toF32 type (some (listText w0 wmid items w1))).rc = 0 ∧
    (vectorParseSqliteText atof toF32 type (some (listText w0 wmid items w1))).zErrMsg = none ∧
    (vectorParseSqliteText atof toF32 type (some (listText w0 wmid items w1))).dims =
      some items.length ∧
    (vectorParseSqliteText atof toF32 type (some (listText w0 wmid items w1))).stores =
      List.enum (items.map (fun it => storedValue toF32 type (atof it.2.1).2)) ∧
    (vectorParseSqliteText atof toF32 type (some (bytes "[]"))).rc = 0 ∧
    (vectorParseSqliteText atof toF32 type (some (bytes "[]"))).dims = some 0 ∧
    (vectorParseSqliteText atof toF32 type (some (bytes "[ ]"))).rc = 0 ∧
    (vectorParseSqliteText atof toF32 type (some (bytes "[ ]"))).dims = some 0 := by
  have hitems2 : ∀ it ∈ items, IsSpaces it.1 ∧ IsLiteral it.2.1 ∧ IsSpaces it.2.2 ∧
      it.2.1 ≠ [] ∧ it.2.1.length ≤ MAX_FLOAT_CHAR_SZ + 1 ∧ 0 < (atof it.2.1).1 := by
    intro it hit
    obtain ⟨h1, h2, h3, h4, h5⟩ := hitems it hit
    refine ⟨h1, h2, h3, ?_, by omega, h5⟩
    intro hnil
    rw [hnil] at h5
    omega
  have e1 : bytes "[]" = listText [] [] [] [] := by decide
  have e2 : bytes "[ ]" = listText [] [0x20] [] [] := by decide
  have hnil : IsSpaces [] := by decide
  have hsp : IsSpaces [0x20] := by decide
  have hno : ∀ it ∈ ([] : List (List Nat × List Nat × List Nat)), IsSpaces it.1 ∧
      IsLiteral it.2.1 ∧ IsSpaces it.2.2 ∧ it.2.1 ≠ [] ∧
      it.2.1.length ≤ MAX_FLOAT_CHAR_SZ + 1 ∧ 0 < (atof it.2.1).1 := by simp
  rw [parse_listText atof toF32 type w0 wmid w1 items htype hw0 hwmid hw1 hitems2 hn, e1, e2,
    parse_listText atof toF32 type [] [] [] [] htype hnil hnil hnil hno (Nat.zero_le _),
    parse_listText atof toF32 type [] [0x20] [] [] htype hnil hsp hnil hno (Nat.zero_le _)]
  simp

/-- Witness for C6: the text ` [ 1,25 ]` parsed into an F32 vector. -/
theorem C6_wellformed_text_parses_witness :
    (vectorParseSqliteText atofDigits id 1 (some (bytes " [ 1,25 ]"))).dims = some 2 ∧
    (vectorParseSqliteText atofDigits id 1 (some (bytes " [ 1,25 ]"))).stores =
      [(0, 1), (1, 25)] :=
  have h := C6_wellformed_text_parses atofDigits id 1 [0x20] [] []
    [([0x20], bytes "1", []), ([], bytes "25", [0x20])]
    (by decide) (by decide) (by decide) (by decide) (by decide) (by decide) (by decide)
  ⟨h.2.2.1, h.2.2.2.1⟩

section Failure

variable {D : Type} (atof : List Nat → Int × D) (toF32 : D → D) (type : Nat)

theorem parse_fails_of_loopFails (w0 t : List Nat) (hw0 : IsSpaces w0)
    (h : LoopFails (parseLoop atof toF32 type t ⟨0, [], [], [], []⟩)) :
    Fails (vectorParseSqliteText atof toF32 type (some (w0 ++ 0x5b :: t))) := by
  have h1 : skipSpace (w0 ++ 0x5b :: t) = 0x5b :: t := by
    rw [skipSpace_spaces _ _ hw0]; rfl
  have h2 : ¬ deref (0x5b :: t) ≠ 0x5b := by simp [deref]
  unfold vectorParseSqliteText
  simp only [h1]
  rw [if_neg h2, List.tail_cons]
  rcases h with ⟨e, st, he⟩ | ⟨p, st, hp, hd⟩ | ⟨post, st, hp, hd⟩
  · rw [he]; exact ⟨rfl, by simp [parseError]⟩
  · rw [hp]
    have hsk : skipSpace p = p := skipSpace_of_not_space p (by rw [hd]; decide)
    simp only [hsk]
    rw [if_pos (by rw [hd]; decide)]
    exact ⟨rfl, by simp [parseError]⟩
  · rw [hp]
    have hsk : skipSpace (0x5d :: post) = 0x5d :: post := rfl
    simp only [hsk]
    rw [if_neg (by simp [deref]), List.tail_cons, if_pos hd]
    exact ⟨rfl, by simp [parseError]⟩

theorem pending_append (vb a b : List Nat) : pending vb (a ++ b) = pending (pending vb a) b := by
  unfold pending; rw [List.foldl_append]

theorem pending_comma (vb q : List Nat) : pending vb (q ++ [0x2c]) = [] := by
  rw [pending_append]; simp [pending]

theorem pending_segment (seg : List Nat) (h : 0x2c ∉ seg) :
    ∀ vb, pending vb seg = vb ++ stripSpaces seg := by
  induction seg with
  | nil => intro vb; simp [pending, stripSpaces]
  | cons c seg ih =>
    intro vb
    have hc : c ≠ 0x2c := fun e => h (by rw [e]; exact List.mem_cons_self _ _)
    have hrest : 0x2c ∉ seg := fun e => h (List.mem_cons_of_mem _ e)
    have hstep : pending vb (c :: seg) =
        pending (if sqlite3Isspace c then vb else vb ++ [c]) seg := by
      simp [pending, hc]
    rw [hstep, ih hrest]
    by_cases hs : sqlite3Isspace c = true
    · simp [stripSpaces, hs]
    · simp [stripSpaces, hs]

/-- The main loop over a prefix without closing bracket either leaves in a failing way or
arrives behind the prefix with `iElem` advanced by the number of commas and `valueBuf`
holding what is pending. -/
theorem parseLoop_prefix (htype : type = VECTOR_TYPE_FLOAT32 ∨ type = VECTOR_TYPE_FLOAT64)
    (pre : List Nat) :
    ∀ (t : List Nat) (st : TextParseState D), 0x5d ∉ pre →
      LoopFails (parseLoop atof toF32 type (pre ++ t) st) ∨
      ∃ st' : TextParseState D,
        parseLoop atof toF32 type (pre ++ t) st = parseLoop atof toF32 type t st' ∧
        st'.iElem = st.iElem + pre.count 0x2c ∧ st'.valueBuf = pending st.valueBuf pre := by
  induction pre with
  | nil => intro t st _; exact Or.inr ⟨st, rfl, by simp, rfl⟩
  | cons c pre ih =>
    intro t st hb
    have hcb : c ≠ 0x5d := fun e => hb (by rw [e]; exact List.mem_cons_self _ _)
    have hrest : 0x5d ∉ pre := fun e => hb (List.mem_cons_of_mem _ e)
    rw [List.cons_append, parseLoop]
    by_cases h0 : c = 0
    · rw [if_pos h0]
      exact Or.inl (Or.inr (Or.inl ⟨_, _, rfl, by simp [deref, h0]⟩))
    rw [if_neg h0]
    by_cases hs : sqlite3Isspace c = true
    · rw [if_pos hs]
      have hcc : c ≠ 0x2c := by rintro rfl; exact absurd hs (by decide)
      rcases ih t st hrest with hf | ⟨st', h1, h2, h3⟩
      · exact Or.inl hf
      · refine Or.inr ⟨st', h1, ?_, ?_⟩
        · rw [h2, List.count_cons_of_ne hcc.symm]
        · rw [h3]; simp [pending, hcc, hs]
    rw [if_neg hs]
    by_cases hcc : c = 0x2c
    · have hlit : ¬ (c ≠ 0x2c ∧ c ≠ 0x5d) := fun h => h.1 hcc
      have hbrk : ¬ (c = 0x5d ∧ st.iElem = 0 ∧ st.valueBuf.length = 0) := fun h => hcb h.1
      rw [if_neg hlit, if_neg hbrk]
      simp only []
      by_cases hacc : (atof st.valueBuf).1 ≤ 0
      · rw [if_pos hacc]; exact Or.inl (Or.inl ⟨_, _, rfl⟩)
      rw [if_neg hacc]
      by_cases hmax : st.iElem ≥ MAX_VECTOR_SZ
      · rw [if_pos hmax]; exact Or.inl (Or.inl ⟨_, _, rfl⟩)
      rw [if_neg hmax, if_neg hcb]
      rcases ih t (storeElem toF32 type { st with atofArgs := st.atofArgs ++ [st.valueBuf] }
        (atof st.valueBuf).2) hrest with hf | ⟨st', h1, h2, h3⟩
      · exact Or.inl hf
      · refine Or.inr ⟨st', h1, ?_, ?_⟩
        · rw [h2, storeElem_iElem toF32 type _ _ htype, hcc, List.count_cons_self]
          dsimp only
          omega
        · rw [h3, storeElem_valueBuf, hcc]
          simp [pending]
    · have hlit : c ≠ 0x2c ∧ c ≠ 0x5d := ⟨hcc, hcb⟩
      rw [if_pos hlit]
      by_cases hlong : st.valueBuf.length > MAX_FLOAT_CHAR_SZ
      · rw [if_pos hlong]; exact Or.inl (Or.inl ⟨_, _, rfl⟩)
      rw [if_neg hlong]
      rcases ih t { st with valueBuf := st.valueBuf ++ [c],
                            bufWrites := st.bufWrites ++ [st.valueBuf.length] } hrest
        with hf | ⟨st', h1, h2, h3⟩
      · exact Or.inl hf
      · refine Or.inr ⟨st', h1, ?_, ?_⟩
        · rw [h2, List.count_cons_of_ne (Ne.symm hcc)]
        · rw [h3]; simp [pending, hcc, hs]

/-- Once `MAX_VECTOR_SZ` elements are stored the main loop can only fail. -/
theorem parseLoop_full (t : List Nat) :
    ∀ st : TextParseState D, st.iElem ≥ MAX_VECTOR_SZ →
      LoopFails (parseLoop atof toF32 type t st) := by
  induction t with
  | nil => intro st _; exact Or.inr (Or.inl ⟨_, _, rfl, rfl⟩)
  | cons c t ih =>
    intro st hfull
    have hpos : st.iElem ≠ 0 := by unfold MAX_VECTOR_SZ at hfull; omega
    rw [parseLoop]
    by_cases h0 : c = 0
    · rw [if_pos h0]
      exact Or.inr (Or.inl ⟨_, _, rfl, by simp [deref, h0]⟩)
    rw [if_neg h0]
    by_cases hs : sqlite3Isspace c = true
    · rw [if_pos hs]; exact ih st hfull
    rw [if_neg hs]
    by_cases hlit : c ≠ 0x2c ∧ c ≠ 0x5d
    · rw [if_pos hlit]
      by_cases hlong : st.valueBuf.length > MAX_FLOAT_CHAR_SZ
      · rw [if_pos hlong]; exact Or.inl ⟨_, _, rfl⟩
      · rw [if_neg hlong]; exact ih _ hfull
    · rw [if_neg hlit, if_neg (fun h => hpos h.2.1)]
      simp only []
      by_cases hacc : (atof st.valueBuf).1 ≤ 0
      · rw [if_pos hacc]; exact Or.inl ⟨_, _, rfl⟩
      · rw [if_neg hacc, if_pos hfull]; exact Or.inl ⟨_, _, rfl⟩

end Failure

section FailureCases

variable {D : Type} (atof : List Nat → Int × D) (toF32 : D → D) (type : Nat)

theorem parseLoop_bracket (post : List Nat) (st : TextParseState D) :
    (∃ e st', parseLoop atof toF32 type (0x5d :: post) st = .error e st') ∨
    ∃ st', parseLoop atof toF32 type (0x5d :: post) st = .done (0x5d :: post) st' := by
  have hs : sqlite3Isspace 0x5d = false := by decide
  rw [parseLoop]
  simp only [hs, if_false, Bool.false_eq_true, ne_eq, not_true_eq_false, and_false,
    true_and, OfNat.ofNat_ne_zero, if_true]
  split_ifs
  · exact Or.inr ⟨_, rfl⟩
  · exact Or.inl ⟨_, _, rfl⟩
  · exact Or.inl ⟨_, _, rfl⟩
  · exact Or.inr ⟨_, rfl⟩

theorem fails_bad_start (w0 rest : List Nat) (hw0 : IsSpaces w0)
    (hns : sqlite3Isspace (deref rest) = false) (hb : deref rest ≠ 0x5b) :
    Fails (vectorParseSqliteText atof toF32 type (some (w0 ++ rest))) := by
  have h1 : skipSpace (w0 ++ rest) = rest := by
    rw [skipSpace_spaces _ _ hw0, skipSpace_of_not_space _ hns]
  unfold vectorParseSqliteText
  simp only [h1]
  rw [if_pos hb]
  exact ⟨rfl, by simp [parseError]⟩

theorem fails_bad_literal (htype : type = VECTOR_TYPE_FLOAT32 ∨ type = VECTOR_TYPE_FLOAT64)
    (w0 pre seg post : List Nat) (sep : Nat) (hw0 : IsSpaces w0)
    (hpre : pre = [] ∨ ∃ q, pre = q ++ [0x2c]) (hpreb : 0x5d ∉ pre)
    (hseg : 0x2c ∉ seg ∧ 0x5d ∉ seg) (hsep : sep = 0x2c ∨ sep = 0x5d)
    (hrej : (atof (stripSpaces seg)).1 ≤ 0)
    (hnb : ¬ (pre = [] ∧ sep = 0x5d ∧ stripSpaces seg = [])) :
    Fails (vectorParseSqliteText atof toF32 type
      (some (w0 ++ 0x5b :: (pre ++ seg ++ sep :: post)))) := by
  apply parse_fails_of_loopFails atof toF32 type w0 _ hw0
  have hnb2 : 0x5d ∉ pre ++ seg := by
    intro h
    rcases List.mem_append.mp h with h | h
    · exact hpreb h
    · exact hseg.2 h
  rcases parseLoop_prefix atof toF32 type htype (pre ++ seg) (sep :: post) ⟨0, [], [], [], []⟩
    hnb2 with hf | ⟨st', h1, h2, h3⟩
  · exact hf
  · rw [h1]
    have hvb : st'.valueBuf = stripSpaces seg := by
      rw [h3, pending_append]
      have hp0 : pending [] pre = [] := by
        rcases hpre with h | ⟨q, h⟩
        · rw [h]; rfl
        · rw [h, pending_comma]
      rw [hp0, pending_segment seg hseg.1]
      rfl
    have h0 : sep ≠ 0 := by rcases hsep with h | h <;> rw [h] <;> decide
    have hs : sqlite3Isspace sep = false := by rcases hsep with h | h <;> rw [h] <;> decide
    have hlit : ¬ (sep ≠ 0x2c ∧ sep ≠ 0x5d) := by
      rcases hsep with h | h <;> rw [h] <;> decide
    have hbrk : ¬ (sep = 0x5d ∧ st'.iElem = 0 ∧ st'.valueBuf.length = 0) := by
      rintro ⟨hb1, hb2, hb3⟩
      rcases hpre with h | ⟨q, h⟩
      · apply hnb
        refine ⟨h, hb1, ?_⟩
        rw [← hvb]
        exact List.length_eq_zero.mp hb3
      · rw [h2, h] at hb2
        simp at hb2
    rw [parseLoop, if_neg h0, if_neg (by simp [hs]), if_neg hlit, if_neg hbrk]
    simp only []
    rw [hvb, if_pos hrej]
    exact Or.inl ⟨_, _, rfl⟩

theorem fails_unclosed (htype : type = VECTOR_TYPE_FLOAT32 ∨ type = VECTOR_TYPE_FLOAT64)
    (w0 body : List Nat) (hw0 : IsSpaces w0) (hb : 0x5d ∉ body) :
    Fails (vectorParseSqliteText atof toF32 type (some (w0 ++ 0x5b :: body))) := by
  apply parse_fails_of_loopFails atof toF32 type w0 _ hw0
  rcases parseLoop_prefix atof toF32 type htype body [] ⟨0, [], [], [], []⟩ hb
    with hf | ⟨st', h1, _, _⟩
  · rwa [List.append_nil] at hf
  · rw [List.append_nil] at h1
    rw [h1]
    exact Or.inr (Or.inl ⟨[], st', rfl, rfl⟩)

theorem fails_trailing (htype : type = VECTOR_TYPE_FLOAT32 ∨ type = VECTOR_TYPE_FLOAT64)
    (w0 body w1 rest : List Nat) (c : Nat) (hw0 : IsSpaces w0) (hb : 0x5d ∉ body)
    (hw1 : IsSpaces w1) (hc0 : c ≠ 0) (hcs : sqlite3Isspace c = false) :
    Fails (vectorParseSqliteText atof toF32 type
      (some (w0 ++ 0x5b :: (body ++ 0x5d :: (w1 ++ c :: rest))))) := by
  apply parse_fails_of_loopFails atof toF32 type w0 _ hw0
  have hpost : deref (skipSpace (w1 ++ c :: rest)) ≠ 0 := by
    rw [skipSpace_spaces _ _ hw1, skipSpace_of_not_space _ (by simpa [deref] using hcs)]
    simpa [deref] using hc0
  rcases parseLoop_prefix atof toF32 type htype body (0x5d :: (w1 ++ c :: rest))
    ⟨0, [], [], [], []⟩ hb with hf | ⟨st', h1, _, _⟩
  · exact hf
  · rw [h1]
    rcases parseLoop_bracket atof toF32 type (w1 ++ c :: rest) st' with ⟨e, s, h⟩ | ⟨s, h⟩
    · rw [h]; exact Or.inl ⟨_, _, rfl⟩
    · rw [h]; exact Or.inr (Or.inr ⟨_, _, rfl, hpost⟩)

theorem fails_too_many (htype : type = VECTOR_TYPE_FLOAT32 ∨ type = VECTOR_TYPE_FLOAT64)
    (w0 pre rest : List Nat) (hw0 : IsSpaces w0) (hb : 0x5d ∉ pre)
    (hcount : pre.count 0x2c ≥ MAX_VECTOR_SZ) :
    Fails (vectorParseSqliteText atof toF32 type (some (w0 ++ 0x5b :: (pre ++ rest)))) := by
  apply parse_fails_of_loopFails atof toF32 type w0 _ hw0
  rcases parseLoop_prefix atof toF32 type htype pre rest ⟨0, [], [], [], []⟩ hb
    with hf | ⟨st', h1, h2, _⟩
  · exact hf
  · rw [h1]
    exact parseLoop_full atof toF32 type rest st' (by rw [h2]; simpa using hcount)

end FailureCases

/-- C7: `vectorParseSqliteText` fails (returns -1 and sets a diagnostic) for every text in
which (1) the first non-whitespace byte is not the opening bracket; or (2) a literal that is
terminated by a comma or a closing bracket (the non-whitespace bytes since the opening bracket
or the previous comma) is not accepted by the float parser, the empty brackets of the empty
vector apart; or (3) no closing bracket follows the opening one; or (4) a byte that is not
whitespace follows the closing bracket; or (5) more than `MAX_VECTOR_SZ` literals are given,
that is at least `MAX_VECTOR_SZ` commas stand before the closing bracket. -/
theorem C7_malformed_text_fails {D : Type} (atof : List Nat → Int × D) (toF32 : D → D)
    (type : Nat) (htype : type = VECTOR_TYPE_FLOAT32 ∨ type = VECTOR_TYPE_FLOAT64) :
    (∀ w0 rest : List Nat, IsSpaces w0 → sqlite3Isspace (deref rest) = false →
      deref rest ≠ 0x5b →
      Fails (vectorParseSqliteText atof toF32 type (some (w0 ++ rest)))) ∧
    (∀ (w0 pre seg post : List Nat) (sep : Nat), IsSpaces w0 →
      (pre = [] ∨ ∃ q, pre = q ++ [0x2c]) → 0x5d ∉ pre → 0x2c ∉ seg ∧ 0x5d ∉ seg →
      sep = 0x2c ∨ sep = 0x5d → (atof (stripSpaces seg)).1 ≤ 0 →
      ¬ (pre = [] ∧ sep = 0x5d ∧ stripSpaces seg = []) →
      Fails (vectorParseSqliteText atof toF32 type
        (some (w0 ++ 0x5b :: (pre ++ seg ++ sep :: post))))) ∧
    (∀ w0 body : List Nat, IsSpaces w0 → 0x5d ∉ body →
      Fails (vectorParseSqliteText atof toF32 type (some (w0 ++ 0x5b :: body)))) ∧
    (∀ (w0 body w1 rest : List Nat) (c : Nat), IsSpaces w0 → 0x5d ∉ body → IsSpaces w1 →
      c ≠ 0 → sqlite3Isspace c = false →
      Fails (vectorParseSqliteText atof toF32 type
        (some (w0 ++ 0x5b :: (body ++ 0x5d :: (w1 ++ c :: rest)))))) ∧
    (∀ w0 pre rest : List Nat, IsSpaces w0 → 0x5d ∉ pre → pre.count 0x2c ≥ MAX_VECTOR_SZ →
      Fails (vectorParseSqliteText atof toF32 type (some (w0 ++ 0x5b :: (pre ++ rest))))) :=
  ⟨fun w0 rest h1 h2 h3 => fails_bad_start atof toF32 type w0 rest h1 h2 h3,
   fun w0 pre seg post sep h1 h2 h3 h4 h5 h6 h7 =>
     fails_bad_literal atof toF32 type htype w0 pre seg post sep h1 h2 h3 h4 h5 h6 h7,
   fun w0 body h1 h2 => fails_unclosed atof toF32 type htype w0 body h1 h2,
   fun w0 body w1 rest c h1 h2 h3 h4 h5 =>
     fails_trailing atof toF32 type htype w0 body w1 rest c h1 h2 h3 h4 h5,
   fun w0 pre rest h1 h2 h3 => fails_too_many atof toF32 type htype w0 pre rest h1 h2 h3⟩

/-- Witness for C7: the texts `x[1]`, `[1,]`, `[,]`, `[1,2`, `[1] x` and an opening bracket
followed by `MAX_VECTOR_SZ` commas and `1]` all fail. -/
theorem C7_malformed_text_fails_witness :
    Fails (vectorParseSqliteText atofDigits id 1 (some ([] ++ bytes "x[1]"))) ∧
    Fails (vectorParseSqliteText atofDigits id 1
      (some ([] ++ 0x5b :: (bytes "1," ++ [] ++ 0x5d :: [])))) ∧
    Fails (vectorParseSqliteText atofDigits id 1
      (some ([] ++ 0x5b :: ([] ++ [] ++ 0x2c :: bytes "]")))) ∧
    Fails (vectorParseSqliteText atofDigits id 1 (some ([] ++ 0x5b :: bytes "1,2"))) ∧
    Fails (vectorParseSqliteText atofDigits id 1
      (some ([] ++ 0x5b :: (bytes "1" ++ 0x5d :: ([0x20] ++ 0x78 :: []))))) ∧
    Fails (vectorParseSqliteText atofDigits id 1
      (some ([] ++ 0x5b :: (List.replicate MAX_VECTOR_SZ 0x2c ++ bytes "1]")))) :=
  have h := C7_malformed_text_fails atofDigits id 1 (Or.inl rfl)
  ⟨h.1 [] (bytes "x[1]") (by decide) (by decide) (by decide),
   h.2.1 [] (bytes "1,") [] [] 0x5d (by decide) (Or.inr ⟨bytes "1", by decide⟩) (by decide)
     (by decide) (by decide) (by decide) (by decide),
   h.2.1 [] [] [] (bytes "]") 0x2c (by decide) (Or.inl rfl) (by decide)
     (by decide) (by decide) (by decide) (by decide),
   h.2.2.1 [] (bytes "1,2") (by decide) (by decide),
   h.2.2.2.1 [] (bytes "1") [0x20] [] 0x78 (by decide) (by decide) (by decide) (by decide)
     (by decide),
   h.2.2.2.2 [] (List.replicate MAX_VECTOR_SZ 0x2c) (bytes "1]") (by decide)
     (by simp [List.mem_replicate]) (by simp [List.count_replicate])⟩

theorem skipSpace_decomp (text : List Nat) :
    ∃ w, IsSpaces w ∧ text = w ++ skipSpace text := by
  induction text with
  | nil => exact ⟨[], by simp [IsSpaces], rfl⟩
  | cons c text ih =>
    by_cases hc : sqlite3Isspace c = true
    · obtain ⟨w, hw, he⟩ := ih
      refine ⟨c :: w, ?_, ?_⟩
      · intro d hd
        rcases List.mem_cons.mp hd with h | h
        · rw [h]; exact hc
        · exact hw d h
      · simp only [skipSpace, hc, if_true, List.cons_append]
        rw [← he]
    · exact ⟨[], by simp [IsSpaces], by simp [skipSpace, hc]⟩

theorem spaces_of_skipSpace_end (post : List Nat) (h0 : 0 ∉ post)
    (h : deref (skipSpace post) = 0) : IsSpaces post := by
  obtain ⟨w, hw, he⟩ := skipSpace_decomp post
  cases hsk : skipSpace post with
  | nil => rw [hsk, List.append_nil] at he; rw [he]; exact hw
  | cons c rest =>
    rw [hsk] at h he
    simp only [deref] at h
    exact absurd (by rw [he, h]; simp) h0

theorem joinComma_cons (l : List Nat) (ls : List (List Nat)) (h : ls ≠ []) :
    joinComma (l :: ls) = l ++ 0x2c :: joinComma ls := by
  cases ls with
  | nil => exact absurd rfl h
  | cons l2 rest => rfl

theorem stripSpaces_cons_space (c : Nat) (t : List Nat) (h : sqlite3Isspace c = true) :
    stripSpaces (c :: t) = stripSpaces t := by
  simp [stripSpaces, h]

theorem stripSpaces_cons_other (c : Nat) (t : List Nat) (h : ¬ sqlite3Isspace c = true) :
    stripSpaces (c :: t) = c :: stripSpaces t := by
  simp [stripSpaces, h]

/-- Inversion of the main loop: when it is left at a closing bracket, the bytes it has
consumed are, whitespace apart, a comma-separated list of accepted literals. -/
theorem parseLoop_done_inv {D : Type} (atof : List Nat → Int × D) (toF32 : D → D) (type : Nat)
    (htype : type = VECTOR_TYPE_FLOAT32 ∨ type = VECTOR_TYPE_FLOAT64) (t : List Nat) :
    ∀ (st st' : TextParseState D) (p : List Nat), IsLiteral st.valueBuf → 0 ∉ t →
      parseLoop atof toF32 type t st = .done p st' → deref p = 0x5d →
      ∃ (body : List Nat) (lits : List (List Nat)),
        t = body ++ p ∧ st.valueBuf ++ stripSpaces body = joinComma lits ∧
        (∀ l ∈ lits, IsLiteral l ∧ 0 < (atof l).1) ∧
        st'.iElem = st.iElem + lits.length ∧ (lits = [] → st.iElem = 0) := by
  induction t with
  | nil =>
    intro st st' p _ _ h hp
    simp only [parseLoop, LoopExit.done.injEq] at h
    rw [← h.1] at hp
    exact absurd hp (by decide)
  | cons c t ih =>
    intro st st' p hvb h0 h hp
    have hc0 : c ≠ 0 := fun e => h0 (by rw [e]; exact List.mem_cons_self _ _)
    have h0t : 0 ∉ t := fun e => h0 (List.mem_cons_of_mem _ e)
    rw [parseLoop, if_neg hc0] at h
    by_cases hs : sqlite3Isspace c = true
    · rw [if_pos hs] at h
      obtain ⟨body, lits, e1, e2, e3, e4, e5⟩ := ih st st' p hvb h0t h hp
      exact ⟨c :: body, lits, by rw [e1]; rfl, by rw [stripSpaces_cons_space c body hs, e2],
        e3, e4, e5⟩
    rw [if_neg hs] at h
    by_cases hlit : c ≠ 0x2c ∧ c ≠ 0x5d
    · rw [if_pos hlit] at h
      by_cases hlong : st.valueBuf.length > MAX_FLOAT_CHAR_SZ
      · rw [if_pos hlong] at h; exact LoopExit.noConfusion h
      rw [if_neg hlong] at h
      have hvb2 : IsLiteral (st.valueBuf ++ [c]) := by
        intro d hd
        rcases List.mem_append.mp hd with hd | hd
        · exact hvb d hd
        · rw [List.mem_singleton.mp hd]
          exact ⟨hc0, by simpa using hs, hlit.1, hlit.2⟩
      obtain ⟨body, lits, e1, e2, e3, e4, e5⟩ := ih _ st' p hvb2 h0t h hp
      refine ⟨c :: body, lits, by rw [e1]; rfl, ?_, e3, e4, e5⟩
      rw [stripSpaces_cons_other c body hs, ← e2]
      simp
    rw [if_neg hlit] at h
    by_cases hbrk : c = 0x5d ∧ st.iElem = 0 ∧ st.valueBuf.length = 0
    · rw [if_pos hbrk] at h
      simp only [LoopExit.done.injEq] at h
      refine ⟨[], [], by rw [← h.1]; rfl, ?_, by simp, by rw [← h.2]; rfl, fun _ => hbrk.2.1⟩
      rw [List.length_eq_zero.mp hbrk.2.2]
      rfl
    rw [if_neg hbrk] at h
    simp only [] at h
    by_cases hacc : (atof st.valueBuf).1 ≤ 0
    · rw [if_pos hacc] at h; exact LoopExit.noConfusion h
    rw [if_neg hacc] at h
    by_cases hmax : st.iElem ≥ MAX_VECTOR_SZ
    · rw [if_pos hmax] at h; exact LoopExit.noConfusion h
    rw [if_neg hmax] at h
    have hself : IsLiteral st.valueBuf ∧ 0 < (atof st.valueBuf).1 := ⟨hvb, by omega⟩
    by_cases hcb : c = 0x5d
    · rw [if_pos hcb] at h
      simp only [LoopExit.done.injEq] at h
      refine ⟨[], [st.valueBuf], by rw [← h.1]; rfl, by simp [stripSpaces, joinComma], ?_, ?_,
        by simp⟩
      · intro l hl
        rw [List.mem_singleton.mp hl]; exact hself
      · rw [← h.2, storeElem_iElem toF32 type _ _ htype]
        rfl
    · rw [if_neg hcb] at h
      have hcc : c = 0x2c := by
        by_contra hne
        exact hlit ⟨hne, hcb⟩
      obtain ⟨body, lits, e1, e2, e3, e4, e5⟩ := ih _ st' p
        (by rw [storeElem_valueBuf]; intro d hd; simp at hd) h0t h hp
      rw [storeElem_valueBuf, List.nil_append] at e2
      rw [storeElem_iElem toF32 type _ _ htype] at e4 e5
      have hne : lits ≠ [] := fun e => by
        have := e5 e
        omega
      refine ⟨c :: body, st.valueBuf :: lits, by rw [e1]; rfl, ?_, ?_, ?_, by simp⟩
      · rw [stripSpaces_cons_other c body hs, e2, joinComma_cons _ _ hne, hcc]
      · intro l hl
        rcases List.mem_cons.mp hl with hl | hl
        · rw [hl]; exact hself
        · exact e3 l hl
      · rw [e4, List.length_cons]
        dsimp only
        omega

theorem parseLoop_done_deref {D : Type} (atof : List Nat → Int × D) (toF32 : D → D)
    (type : Nat) (t : List Nat) :
    ∀ (st st' : TextParseState D) (p : List Nat),
      parseLoop atof toF32 type t st = .done p st' → deref p = 0 ∨ deref p = 0x5d := by
  induction t with
  | nil =>
    intro st st' p h
    simp only [parseLoop, LoopExit.done.injEq] at h
    rw [← h.1]; exact Or.inl rfl
  | cons c t ih =>
    intro st st' p h
    rw [parseLoop] at h
    split_ifs at h with h1 h2 h3 h4 h5 h6 h7 h8
    · simp only [LoopExit.done.injEq] at h
      rw [← h.1]; exact Or.inl h1
    · exact ih _ _ _ h
    · exact ih _ _ _ h
    · simp only [LoopExit.done.injEq] at h
      rw [← h.1]; exact Or.inr h5.1
    · simp only [LoopExit.done.injEq] at h
      rw [← h.1]; exact Or.inr h8
    · exact ih _ _ _ h

/-- Inversion of a successful call: the text is whitespace, an opening bracket, and a rest
on which the main loop stops at a closing bracket that only whitespace follows. -/
theorem parse_ok_inv {D : Type} (atof : List Nat → Int × D) (toF32 : D → D) (type : Nat)
    (text : List Nat) (hok : (vectorParseSqliteText atof toF32 type (some text)).rc = 0) :
    ∃ (w0 t post : List Nat) (st : TextParseState D),
      IsSpaces w0 ∧ text = w0 ++ 0x5b :: t ∧
      parseLoop atof toF32 type t ⟨0, [], [], [], []⟩ = .done (0x5d :: post) st ∧
      deref (skipSpace post) = 0 ∧
      vectorParseSqliteText atof toF32 type (some text) =
        ⟨0, none, some st.iElem, st.stores, st.atofArgs, st.bufWrites⟩ := by
  obtain ⟨w0, hw0, he⟩ := skipSpace_decomp text
  unfold vectorParseSqliteText at hok ⊢
  simp only [] at hok ⊢
  by_cases hb : deref (skipSpace text) ≠ 0x5b
  · rw [if_pos hb] at hok
    exact absurd hok (by simp [parseError])
  rw [if_neg hb] at hok ⊢
  have hb2 : deref (skipSpace text) = 0x5b := by simpa using hb
  obtain ⟨c, t, hsk⟩ : ∃ c t, skipSpace text = c :: t := by
    cases h : skipSpace text with
    | nil => rw [h] at hb2; exact absurd hb2 (by decide)
    | cons c t => exact ⟨c, t, rfl⟩
  rw [hsk] at hb2 hok he ⊢
  simp only [deref] at hb2
  simp only [List.tail_cons] at hok ⊢
  generalize hl : parseLoop atof toF32 type t ⟨0, [], [], [], []⟩ = out at hok ⊢
  cases out with
  | error e st => exact absurd hok (by simp [parseError])
  | done p st =>
    simp only [] at hok ⊢
    have hsp : skipSpace p = p := by
      apply skipSpace_of_not_space
      rcases parseLoop_done_deref atof toF32 type t _ _ _ hl with h | h <;> rw [h] <;> decide
    rw [hsp] at hok ⊢
    by_cases hcl : deref p ≠ 0x5d
    · rw [if_pos hcl] at hok
      exact absurd hok (by simp [parseError])
    rw [if_neg hcl] at hok ⊢
    have hcl2 : deref p = 0x5d := by simpa using hcl
    obtain ⟨d, post, hp⟩ : ∃ d post, p = d :: post := by
      cases p with
      | nil => exact absurd hcl2 (by decide)
      | cons d post => exact ⟨d, post, rfl⟩
    rw [hp] at hcl2 hok hl ⊢
    simp only [deref] at hcl2
    simp only [List.tail_cons] at hok ⊢
    by_cases hend : deref (skipSpace post) ≠ 0
    · rw [if_pos hend] at hok
      exact absurd hok (by simp [parseError])
    rw [if_neg hend]
    exact ⟨w0, t, post, st, hw0, by rw [he, hb2], by rw [hl, hcl2], by simpa using hend, rfl⟩

/-- A successful call on a text without NUL byte: the text is whitespace, an opening
bracket, a body, a closing bracket and whitespace, where the body with all its whitespace
removed is empty or a comma-separated list of literals that the float parser accepts;
`dims` is then the number of these literals. -/
theorem parse_ok_stripped_format {D : Type} (atof : List Nat → Int × D)
    (toF32 : D → D) (type : Nat) (text : List Nat)
    (htype : type = VECTOR_TYPE_FLOAT32 ∨ type = VECTOR_TYPE_FLOAT64)
    (h0 : 0 ∉ text)
    (hok : (vectorParseSqliteText atof toF32 type (some text)).rc = 0) :
    ∃ (w0 body w1 : List Nat) (lits : List (List Nat)),
      IsSpaces w0 ∧ IsSpaces w1 ∧ text = w0 ++ 0x5b :: (body ++ 0x5d :: w1) ∧
      stripSpaces body = joinComma lits ∧
      (∀ l ∈ lits, IsLiteral l ∧ 0 < (atof l).1) ∧
      (vectorParseSqliteText atof toF32 type (some text)).dims = some lits.length := by
  obtain ⟨w0, t, post, st, hw0, he, hloop, hend, hres⟩ := parse_ok_inv atof toF32 type text hok
  have h0t : 0 ∉ t := fun h => h0 (by rw [he]; simp [h])
  obtain ⟨body, lits, e1, e2, e3, e4, _⟩ :=
    parseLoop_done_inv atof toF32 type htype t _ st _ (by intro d hd; simp at hd) h0t hloop rfl
  have h0p : 0 ∉ post := fun h => h0t (by rw [e1]; simp [h])
  refine ⟨w0, body, post, lits, hw0, spaces_of_skipSpace_end post h0p hend, by rw [he, e1],
    by simpa using e2, e3, ?_⟩
  rw [hres]
  simp only [Option.some.injEq]
  rw [e4]
  simp

/-- The loop `while( sqlite3Isspace(*pzText) ) pzText++;` stops at a NUL byte at the
latest. -/
theorem skipSpace_append_nul (p r : List Nat) :
    skipSpace (p ++ 0 :: r) = skipSpace p ++ 0 :: r := by
  induction p with
  | nil => simp [skipSpace, sqlite3Isspace]
  | cons c p ih =>
    by_cases hc : sqlite3Isspace c = true
    · simp only [List.cons_append, skipSpace, hc, if_true]
      exact ih
    · simp only [List.cons_append, skipSpace, hc, if_false, Bool.false_eq_true]
      rfl

/-- The byte at a pointer does not change when a NUL byte and more bytes follow the end of
the string. -/
theorem deref_append_nul (p r : List Nat) : deref (p ++ 0 :: r) = deref p := by
  cases p <;> rfl

/-- The main loop does not read behind a NUL byte: on a text without NUL byte followed by a
NUL byte and more bytes it ends as on the text alone, with the same state and the pointer
at the same place. -/
theorem parseLoop_append_nul {D : Type} (atof : List Nat → Int × D) (toF32 : D → D)
    (type : Nat) (r : List Nat) (t : List Nat) :
    ∀ st : TextParseState D, 0 ∉ t →
      (∀ e s, parseLoop atof toF32 type t st = .error e s →
        parseLoop atof toF32 type (t ++ 0 :: r) st = .error e s) ∧
      (∀ p s, parseLoop atof toF32 type t st = .done p s →
        parseLoop atof toF32 type (t ++ 0 :: r) st = .done (p ++ 0 :: r) s) := by
  induction t with
  | nil =>
    intro st _
    constructor
    · intro e s h
      simp [parseLoop] at h
    · intro p s h
      simp only [parseLoop, LoopExit.done.injEq] at h
      rw [← h.1, ← h.2]
      simp [parseLoop]
  | cons c t ih =>
    intro st h0
    have hc0 : c ≠ 0 := fun e => h0 (by rw [e]; exact List.mem_cons_self _ _)
    have h0t : 0 ∉ t := fun e => h0 (List.mem_cons_of_mem _ e)
    simp only [List.cons_append, parseLoop, if_neg hc0]
    by_cases h1 : sqlite3Isspace c = true
    · simp only [h1, if_true]
      exact ih st h0t
    · simp only [h1, Bool.false_eq_true, if_false]
      by_cases h2 : c ≠ 0x2c ∧ c ≠ 0x5d
      · simp only [if_pos h2]
        by_cases h3 : st.valueBuf.length > MAX_FLOAT_CHAR_SZ
        · simp only [if_pos h3]
          exact ⟨fun e s h => h, fun p s h => by simp at h⟩
        · simp only [if_neg h3]
          exact ih _ h0t
      · simp only [if_neg h2]
        by_cases h4 : c = 0x5d ∧ st.iElem = 0 ∧ st.valueBuf.length = 0
        · simp only [if_pos h4]
          refine ⟨fun e s h => by simp at h, fun p s h => ?_⟩
          simp only [LoopExit.done.injEq] at h
          rw [← h.1, ← h.2]
          rfl
        · simp only [if_neg h4]
          by_cases h5 : (atof st.valueBuf).1 ≤ 0
          · simp only [if_pos h5]
            exact ⟨fun e s h => h, fun p s h => by simp at h⟩
          · simp only [if_neg h5]
            by_cases h6 : st.iElem ≥ MAX_VECTOR_SZ
            · simp only [if_pos h6]
              exact ⟨fun e s h => h, fun p s h => by simp at h⟩
            · simp only [if_neg h6]
              by_cases h7 : c = 0x5d
              · simp only [if_pos h7]
                refine ⟨fun e s h => by simp at h, fun p s h => ?_⟩
                simp only [LoopExit.done.injEq] at h
                rw [← h.1, ← h.2]
                rfl
              · simp only [if_neg h7]
                exact ih _ h0t

/-- The function `vectorParseSqliteText` reads a text as a C string: bytes from the first
NUL byte on have no influence on what it returns. -/
theorem parse_append_nul {D : Type} (atof : List Nat → Int × D) (toF32 : D → D) (type : Nat)
    (pre r : List Nat) (h0 : 0 ∉ pre) :
    vectorParseSqliteText atof toF32 type (some (pre ++ 0 :: r)) =
      vectorParseSqliteText atof toF32 type (some pre) := by
  obtain ⟨w, _, hw⟩ := skipSpace_decomp pre
  have h0s : 0 ∉ skipSpace pre := fun h => h0 (by rw [hw]; simp [h])
  unfold vectorParseSqliteText
  simp only [skipSpace_append_nul, deref_append_nul]
  by_cases hb : deref (skipSpace pre) ≠ 0x5b
  · rw [if_pos hb, if_pos hb]
  rw [if_neg hb, if_neg hb]
  cases hsk : skipSpace pre with
  | nil =>
    rw [hsk] at hb
    exact absurd (show deref ([] : List Nat) ≠ 0x5b by decide) hb
  | cons c t =>
    rw [hsk] at h0s
    have h0t : 0 ∉ t := fun h => h0s (List.mem_cons_of_mem _ h)
    simp only [List.cons_append, List.tail_cons]
    obtain ⟨herr, hdone⟩ := parseLoop_append_nul atof toF32 type r t ⟨0, [], [], [], []⟩ h0t
    cases hl : parseLoop atof toF32 type t ⟨0, [], [], [], []⟩ with
    | error e st => rw [herr e st hl]
    | done p st =>
      rw [hdone p st hl]
      simp only [skipSpace_append_nul, deref_append_nul]
      by_cases hcl : deref (skipSpace p) ≠ 0x5d
      · rw [if_pos hcl, if_pos hcl]
      rw [if_neg hcl, if_neg hcl]
      cases hp : skipSpace p with
      | nil =>
        rw [hp] at hcl
        exact absurd (show deref ([] : List Nat) ≠ 0x5d by decide) hcl
      | cons d q =>
        simp only [List.cons_append, List.tail_cons, skipSpace_append_nul, deref_append_nul]

/-- A text is its bytes before the first NUL byte, which hold no NUL byte, followed by
nothing or by a NUL byte and more bytes. -/
theorem cstr_decomp (text : List Nat) :
    0 ∉ cstr text ∧ (text = cstr text ∨ ∃ r, text = cstr text ++ 0 :: r) := by
  induction text with
  | nil => exact ⟨by simp [cstr], Or.inl rfl⟩
  | cons c text ih =>
    by_cases hc : c = 0
    · subst hc
      exact ⟨by simp [cstr], Or.inr ⟨text, by simp [cstr]⟩⟩
    · have hcs : cstr (c :: text) = c :: cstr text := by simp [cstr, hc]
      rw [hcs]
      refine ⟨?_, ?_⟩
      · intro h
        rcases List.mem_cons.mp h with h | h
        · exact hc h.symm
        · exact ih.1 h
      · rcases ih.2 with h | ⟨r, h⟩
        · exact Or.inl (by rw [← h])
        · exact Or.inr ⟨r, by rw [List.cons_append, ← h]⟩

/-- The function `vectorParseSqliteText` returns on a text what it returns on the bytes of
the text before its first NUL byte. -/
theorem parse_cstr {D : Type} (atof : List Nat → Int × D) (toF32 : D → D) (type : Nat)
    (text : List Nat) :
    vectorParseSqliteText atof toF32 type (some text) =
      vectorParseSqliteText atof toF32 type (some (cstr text)) := by
  obtain ⟨h0, h | ⟨r, h⟩⟩ := cstr_decomp text
  · rw [← h]
  · have h2 := parse_append_nul atof toF32 type (cstr text) r h0
    rw [← h] at h2
    exact h2

/-- C8 (as amended): `vectorParseSqliteText`, for a vector of type F32 or F64, succeeds on a
text only if the bytes of the text before its first NUL byte (the whole text when it holds
none) are whitespace, an opening bracket, a body, a closing bracket and whitespace, where
the body with all its whitespace removed is empty or a comma-separated list of literals that
the float parser accepts; `dims` is then the number of these literals. Whitespace anywhere
between the brackets is skipped, also inside a literal. -/
theorem C8_success_only_on_stripped_format {D : Type} (atof : List Nat → Int × D)
    (toF32 : D → D) (type : Nat) (text : List Nat)
    (htype : type = VECTOR_TYPE_FLOAT32 ∨ type = VECTOR_TYPE_FLOAT64)
    (hok : (vectorParseSqliteText atof toF32 type (some text)).rc = 0) :
    ∃ (w0 body w1 : List Nat) (lits : List (List Nat)),
      IsSpaces w0 ∧ IsSpaces w1 ∧ cstr text = w0 ++ 0x5b :: (body ++ 0x5d :: w1) ∧
      stripSpaces body = joinComma lits ∧
      (∀ l ∈ lits, IsLiteral l ∧ 0 < (atof l).1) ∧
      (vectorParseSqliteText atof toF32 type (some text)).dims = some lits.length := by
  have hc := parse_cstr atof toF32 type text
  rw [hc] at hok ⊢
  exact parse_ok_stripped_format atof toF32 type (cstr text) htype (cstr_decomp text).1 hok

/-- Witness for C8 (as amended): the text `[1 2]` is accepted, and so is the text made of
`[1]`, a NUL byte and a comma, whose bytes before the NUL byte are `[1]`. -/
theorem C8_success_only_on_stripped_format_witness :
    (∃ (w0 body w1 : List Nat) (lits : List (List Nat)),
      IsSpaces w0 ∧ IsSpaces w1 ∧
      cstr (bytes "[1 2]") = w0 ++ 0x5b :: (body ++ 0x5d :: w1) ∧
      stripSpaces body = joinComma lits ∧
      (∀ l ∈ lits, IsLiteral l ∧ 0 < (atofDigits l).1) ∧
      (vectorParseSqliteText atofDigits id 1 (some (bytes "[1 2]"))).dims =
        some lits.length) ∧
    (∃ (w0 body w1 : List Nat) (lits : List (List Nat)),
      IsSpaces w0 ∧ IsSpaces w1 ∧
      cstr (bytes "[1]" ++ [0, 0x2c]) = w0 ++ 0x5b :: (body ++ 0x5d :: w1) ∧
      stripSpaces body = joinComma lits ∧
      (∀ l ∈ lits, IsLiteral l ∧ 0 < (atofDigits l).1) ∧
      (vectorParseSqliteText atofDigits id 1 (some (bytes "[1]" ++ [0, 0x2c]))).dims =
        some lits.length) :=
  ⟨C8_success_only_on_stripped_format atofDigits id 1 (bytes "[1 2]") (Or.inl rfl)
      (by decide),
    C8_success_only_on_stripped_format atofDigits id 1 (bytes "[1]" ++ [0, 0x2c])
      (Or.inl rfl) (by decide)⟩

theorem renderItems_length (items : List (List Nat × List Nat × List Nat)) :
    items.length ≤ (renderItems items).length + 1 ∧
    ∀ it ∈ items, it.2.1.length ≤ (renderItems items).length := by
  induction items with
  | nil => simp
  | cons it rest ih =>
    cases rest with
    | nil =>
      simp only [renderItems, List.length_cons, List.length_append, List.length_nil,
        List.mem_singleton, forall_eq]
      omega
    | cons it2 rest2 =>
      obtain ⟨i1, i2⟩ := ih
      simp only [renderItems, List.length_cons, List.length_append] at i1 ⊢
      refine ⟨by omega, ?_⟩
      intro x hx
      rcases List.mem_cons.mp hx with h | h
      · rw [h]; omega
      · have := i2 x h
        simp only [renderItems, List.length_cons, List.length_append] at this
        omega

/-- Counterexample to C8 as stated: with a float parser that accepts `12`, the text `[1 2]`,
whose literal is interrupted by whitespace and which therefore does not match the text wire
format, is not rejected: `vectorParseSqliteText` returns 0 and stores the value of `12` as
the only element. -/
theorem C8_counterexample :
    (vectorParseSqliteText atofDigits id 1 (some (bytes "[1 2]"))).rc = 0 ∧
    (vectorParseSqliteText atofDigits id 1 (some (bytes "[1 2]"))).dims = some 1 ∧
    (vectorParseSqliteText atofDigits id 1 (some (bytes "[1 2]"))).stores = [(0, 12)] ∧
    ¬ TextWireFormat (fun l => 0 < (atofDigits l).1) (bytes "[1 2]") := by
  refine ⟨by decide, by decide, by decide, ?_⟩
  rintro ⟨w0, wmid, w1, items, hw0, hwmid, hw1, hitems, htext⟩
  have hlen5 : (listText w0 wmid items w1).length = 5 := by rw [← htext]; rfl
  simp only [listText, List.length_append, List.length_cons] at hlen5
  obtain ⟨hl1, hl2⟩ := renderItems_length items
  have hitems2 : ∀ it ∈ items, IsSpaces it.1 ∧ IsLiteral it.2.1 ∧ IsSpaces it.2.2 ∧
      it.2.1 ≠ [] ∧ it.2.1.length ≤ MAX_FLOAT_CHAR_SZ + 1 ∧ 0 < (atofDigits it.2.1).1 := by
    intro it hit
    obtain ⟨h1, h2, h3, h4⟩ := hitems it hit
    have := hl2 it hit
    refine ⟨h1, h2, h3, ?_, by unfold MAX_FLOAT_CHAR_SZ; omega, h4⟩
    intro hnil
    rw [hnil] at h4
    exact absurd h4 (by decide)
  have hres := parse_listText atofDigits id 1 w0 wmid w1 items (Or.inl rfl) hw0 hwmid hw1
    hitems2 (by unfold MAX_VECTOR_SZ; omega)
  rw [← htext] at hres
  have hargs : (vectorParseSqliteText atofDigits id 1 (some (bytes "[1 2]"))).atofArgs =
      [[49, 50]] := by decide
  rw [hres] at hargs
  simp only at hargs
  obtain ⟨it, hit⟩ : ∃ it, items = [it] := by
    cases items with
    | nil => simp at hargs
    | cons it rest =>
      cases rest with
      | nil => exact ⟨it, rfl⟩
      | cons it2 rest2 => simp at hargs
  rw [hit] at hargs htext
  simp only [List.map_cons, List.map_nil, List.cons.injEq, and_true] at hargs
  have hinfix : [49, 50] <:+: bytes "[1 2]" := by
    refine ⟨w0 ++ 0x5b :: (wmid ++ it.1), it.2.2 ++ 0x5d :: w1, ?_⟩
    rw [htext]
    simp [listText, renderItems, hargs]
  exact absurd hinfix (by decide)

/-- The text made of an opening bracket, `n` digits `1` and a closing bracket, for
`1 ≤ n ≤ MAX_FLOAT_CHAR_SZ + 1`. -/
theorem parse_ones (n : Nat) (h1 : 1 ≤ n) (hle : n ≤ MAX_FLOAT_CHAR_SZ + 1) :
    vectorParseSqliteText atofDigits id 1 (some (0x5b :: (List.replicate n 0x31 ++ [0x5d]))) =
      ⟨0, none, some 1, [(0, (atofDigits (List.replicate n 0x31)).2)],
        [List.replicate n 0x31], List.range' 0 n⟩ := by
  have htext : 0x5b :: (List.replicate n 0x31 ++ [0x5d]) =
      listText [] [] [([], List.replicate n 0x31, [])] [] := by
    simp [listText, renderItems]
  have hsp : IsSpaces [] := by decide
  have hne : List.replicate n 0x31 ≠ [] := by
    intro h
    have := congrArg List.length h
    simp at this
    omega
  have hdig : (List.replicate n 0x31).all sqlite3Isdigit = true := by
    rw [List.all_eq_true]
    intro c hc
    rw [List.eq_of_mem_replicate hc]
    decide
  have hacc : 0 < (atofDigits (List.replicate n 0x31)).1 := by
    unfold atofDigits
    rw [if_pos ⟨hne, hdig⟩]
    exact Int.one_pos
  have hitems : ∀ it ∈ [(([] : List Nat), List.replicate n 0x31, ([] : List Nat))],
      IsSpaces it.1 ∧ IsLiteral it.2.1 ∧ IsSpaces it.2.2 ∧ it.2.1 ≠ [] ∧
      it.2.1.length ≤ MAX_FLOAT_CHAR_SZ + 1 ∧ 0 < (atofDigits it.2.1).1 := by
    intro it hit
    rw [List.mem_singleton.mp hit]
    refine ⟨hsp, ?_, hsp, hne, by simpa using hle, hacc⟩
    intro c hc
    rw [List.eq_of_mem_replicate hc]
    decide
  rw [htext, parse_listText atofDigits id 1 [] [] [] _ (Or.inl rfl) hsp hsp hsp hitems
    (by simp [MAX_VECTOR_SZ])]
  simp [List.enum, storedValue]

/-- C9 (behaviour of the code at a literal of 1025 bytes): for the text made of an opening
bracket, 1025 digits `1` and a closing bracket, `vectorParseSqliteText` does not report
`float string length exceeded 1024 characters`; it writes `valueBuf` at all indices 0..1024,
hands the literal of 1025 bytes to the float parser and, the float parser accepting it,
returns 0 with one element stored. -/
theorem C9_literal_of_1025_bytes_accepted :
    (vectorParseSqliteText atofDigits id 1
      (some (0x5b :: (List.replicate 1025 0x31 ++ [0x5d])))).rc = 0 ∧
    (vectorParseSqliteText atofDigits id 1
      (some (0x5b :: (List.replicate 1025 0x31 ++ [0x5d])))).zErrMsg = none ∧
    (vectorParseSqliteText atofDigits id 1
      (some (0x5b :: (List.replicate 1025 0x31 ++ [0x5d])))).dims = some 1 ∧
    (vectorParseSqliteText atofDigits id 1
      (some (0x5b :: (List.replicate 1025 0x31 ++ [0x5d])))).atofArgs =
        [List.replicate 1025 0x31] ∧
    (vectorParseSqliteText atofDigits id 1
      (some (0x5b :: (List.replicate 1025 0x31 ++ [0x5d])))).bufWrites =
        List.range' 0 1025 := by
  rw [parse_ones 1025 (by decide) (by decide)]
  exact ⟨rfl, rfl, rfl, rfl, rfl⟩

/-! ## Theorems: column type strings -/

theorem skipSpaces_eq (t : List Nat) : skipSpaces t = skipSpace t := by
  induction t with
  | nil => rfl
  | cons c t ih =>
    by_cases hs : sqlite3Isspace c = true
    · have h0 : c ≠ 0 := by rintro rfl; exact absurd hs (by decide)
      simp only [skipSpaces, skipSpace, hs, h0, ne_eq, not_false_eq_true, and_self, if_true]
      exact ih
    · simp [skipSpaces, skipSpace, hs]

theorem lower_eq_zero (c : Nat) : sqlite3UpperToLower c = 0 ↔ c = 0 := by
  unfold sqlite3UpperToLower
  by_cases h : 0x41 ≤ c ∧ c ≤ 0x5a
  · rw [if_pos h]
    obtain ⟨h1, _⟩ := h
    constructor
    · intro h2; omega
    · intro h2; omega
  · rw [if_neg h]

theorem strnicmp_match (a : List Nat) :
    ∀ (b rest : List Nat), EqIgnoreCase a b → 0 ∉ b →
      sqlite3_strnicmp (a ++ rest) b b.length = 0 := by
  induction a with
  | nil =>
    intro b rest h _
    cases b with
    | nil => rfl
    | cons d b => simp [EqIgnoreCase] at h
  | cons c a ih =>
    intro b rest h h0
    cases b with
    | nil => simp [EqIgnoreCase] at h
    | cons d b =>
      simp only [EqIgnoreCase, List.map_cons, List.cons.injEq] at h
      have hd0 : d ≠ 0 := fun e => h0 (by rw [e]; exact List.mem_cons_self _ _)
      have hc0 : c ≠ 0 := by
        intro e
        rw [e] at h
        exact hd0 ((lower_eq_zero d).mp h.1.symm)
      simp only [List.cons_append, List.length_cons, sqlite3_strnicmp, deref, List.tail_cons]
      rw [if_pos ⟨hc0, h.1⟩]
      exact ih b rest h.2 (fun e => h0 (List.mem_cons_of_mem _ e))

theorem strnicmp_inv (b : List Nat) :
    ∀ z : List Nat, 0 ∉ b → sqlite3_strnicmp z b b.length = 0 →
      ∃ a rest, z = a ++ rest ∧ EqIgnoreCase a b := by
  induction b with
  | nil => intro z _ _; exact ⟨[], z, rfl, rfl⟩
  | cons d b ih =>
    intro z h0 h
    have hd0 : d ≠ 0 := fun e => h0 (by rw [e]; exact List.mem_cons_self _ _)
    have hdd : deref (d :: b) = d := rfl
    rw [List.length_cons, sqlite3_strnicmp, hdd, List.tail_cons] at h
    by_cases hc : deref z ≠ 0 ∧ sqlite3UpperToLower (deref z) = sqlite3UpperToLower d
    · rw [if_pos hc] at h
      cases z with
      | nil => exact absurd rfl hc.1
      | cons c z =>
        simp only [deref, List.tail_cons] at hc h
        obtain ⟨a, rest, e1, e2⟩ := ih z (fun e => h0 (List.mem_cons_of_mem _ e)) h
        refine ⟨c :: a, rest, by rw [e1]; rfl, ?_⟩
        simp only [EqIgnoreCase, List.map_cons, List.cons.injEq]
        exact ⟨hc.2, e2⟩
    · rw [if_neg hc] at h
      have heq : sqlite3UpperToLower (deref z) = sqlite3UpperToLower d := by omega
      have hz : deref z = 0 := by
        by_contra hne
        exact hc ⟨hne, heq⟩
      rw [hz] at heq
      exact absurd ((lower_eq_zero d).mp heq.symm) hd0

theorem eqIgnoreCase_length (a b : List Nat) (h : EqIgnoreCase a b) : a.length = b.length := by
  have := congrArg List.length h
  simpa using this

/-- A string that starts with a name equal, up to case, to `zName` does not match an entry
`other` of the table that is no longer than `zName` and differs from its start. -/
theorem strnicmp_other (name rest zName other : List Nat) (h : EqIgnoreCase name zName)
    (h0 : 0 ∉ other) (hlen : other.length ≤ zName.length)
    (hdiff : (zName.take other.length).map sqlite3UpperToLower ≠
      other.map sqlite3UpperToLower) :
    sqlite3_strnicmp (name ++ rest) other other.length ≠ 0 := by
  intro hz
  obtain ⟨a, r, e1, e2⟩ := strnicmp_inv other (name ++ rest) h0 hz
  have hla := eqIgnoreCase_length a other e2
  have hln := eqIgnoreCase_length name zName h
  have hta : a = name.take other.length := by
    have h1 := congrArg (List.take other.length) e1
    rw [List.take_append_of_le_length (by omega), List.take_append_of_le_length (by omega),
      List.take_of_length_le (l := a) (by omega)] at h1
    exact h1.symm
  apply hdiff
  unfold EqIgnoreCase at h e2
  rw [← e2, hta, List.map_take, List.map_take, h]

theorem digits_foldl_mono (ds : List Nat) :
    ∀ acc : Nat, acc ≤ ds.foldl (fun v c => v * 10 + (c - 0x30)) acc := by
  induction ds with
  | nil => intro acc; exact le_refl _
  | cons c ds ih =>
    intro acc
    have := ih (acc * 10 + (c - 0x30))
    simp only [List.foldl_cons]
    omega

theorem digit_props (c : Nat) (h : sqlite3Isdigit c = true) :
    c ≠ 0 ∧ c ≠ 0x29 ∧ ¬ sqlite3Isspace c = true := by
  simp only [sqlite3Isdigit, Bool.and_eq_true, decide_eq_true_eq] at h
  refine ⟨by omega, by omega, ?_⟩
  simp only [sqlite3Isspace, Bool.or_eq_true, beq_iff_eq, Bool.and_eq_true, decide_eq_true_eq]
  omega

theorem parseDimensions_stop (t : List Nat) (acc : Nat)
    (ht : ¬ (deref t ≠ 0 ∧ deref t ≠ 0x29 ∧ ¬ sqlite3Isspace (deref t) = true)) :
    parseDimensions t acc = .ok (t, acc) := by
  cases t with
  | nil => rfl
  | cons c rest =>
    simp only [deref] at ht
    rw [parseDimensions, if_neg ht]

theorem parseDimensions_digits (ds : List Nat) :
    ∀ (t : List Nat) (acc : Nat), (∀ c ∈ ds, sqlite3Isdigit c = true) →
      ¬ (deref t ≠ 0 ∧ deref t ≠ 0x29 ∧ ¬ sqlite3Isspace (deref t) = true) →
      ds.foldl (fun v c => v * 10 + (c - 0x30)) acc ≤ MAX_VECTOR_SZ →
      parseDimensions (ds ++ t) acc = .ok (t, ds.foldl (fun v c => v * 10 + (c - 0x30)) acc) := by
  induction ds with
  | nil => intro t acc _ ht _; exact parseDimensions_stop t acc ht
  | cons c ds ih =>
    intro t acc hd ht hmax
    have hc := hd c (List.mem_cons_self _ _)
    have hp := digit_props c hc
    have hstep : ¬ acc * 10 + (c - 0x30) > MAX_VECTOR_SZ := by
      have := digits_foldl_mono ds (acc * 10 + (c - 0x30))
      simp only [List.foldl_cons] at hmax
      omega
    rw [List.cons_append, parseDimensions, if_pos hp, if_neg (by simp [hc]), if_neg hstep]
    exact ih t _ (fun d hd' => hd d (List.mem_cons_of_mem _ hd')) ht hmax

theorem parseDimensions_inv (p : List Nat) :
    ∀ (acc : Nat) (p' : List Nat) (dims : Nat), acc ≤ MAX_VECTOR_SZ →
      parseDimensions p acc = .ok (p', dims) →
      ∃ ds, p = ds ++ p' ∧ (∀ c ∈ ds, sqlite3Isdigit c = true) ∧
        dims = ds.foldl (fun v c => v * 10 + (c - 0x30)) acc ∧ dims ≤ MAX_VECTOR_SZ ∧
        ¬ (deref p' ≠ 0 ∧ deref p' ≠ 0x29 ∧ ¬ sqlite3Isspace (deref p') = true) := by
  induction p with
  | nil =>
    intro acc p' dims hacc h
    simp only [parseDimensions, Except.ok.injEq, Prod.mk.injEq] at h
    refine ⟨[], by rw [← h.1]; rfl, by simp, by rw [← h.2]; rfl, by rw [← h.2]; exact hacc, ?_⟩
    rw [← h.1]; simp [deref]
  | cons c rest ih =>
    intro acc p' dims hacc h
    rw [parseDimensions] at h
    by_cases hcond : c ≠ 0 ∧ c ≠ 0x29 ∧ ¬ sqlite3Isspace c = true
    · rw [if_pos hcond] at h
      by_cases hdig : ¬ sqlite3Isdigit c = true
      · rw [if_pos hdig] at h; exact Except.noConfusion h
      rw [if_neg hdig] at h
      by_cases hbig : acc * 10 + (c - 0x30) > MAX_VECTOR_SZ
      · rw [if_pos hbig] at h; exact Except.noConfusion h
      rw [if_neg hbig] at h
      obtain ⟨ds, e1, e2, e3, e4, e5⟩ := ih _ p' dims (by omega) h
      refine ⟨c :: ds, by rw [e1]; rfl, ?_, by rw [e3]; rfl, e4, e5⟩
      intro d hd
      rcases List.mem_cons.mp hd with hd | hd
      · rw [hd]; simpa using hdig
      · exact e2 d hd
    · rw [if_neg hcond] at h
      simp only [Except.ok.injEq, Prod.mk.injEq] at h
      refine ⟨[], by rw [← h.1]; rfl, by simp, by rw [← h.2]; rfl, by rw [← h.2]; exact hacc, ?_⟩
      rw [← h.1]
      simpa [deref] using hcond

theorem skipSpaces_spaces (w t : List Nat) (hw : IsSpaces w) :
    skipSpaces (w ++ t) = skipSpaces t := by
  rw [skipSpaces_eq, skipSpaces_eq, skipSpace_spaces w t hw]

theorem skipSpaces_of_not_space (t : List Nat) (h : sqlite3Isspace (deref t) = false) :
    skipSpaces t = t := by
  rw [skipSpaces_eq, skipSpace_of_not_space t h]

theorem columnTypeBody_ok (nBits : Nat) (w1 w2 ds w3 w4 : List Nat)
    (hw1 : IsSpaces w1) (hw2 : IsSpaces w2) (hw3 : IsSpaces w3) (hw4 : IsSpaces w4)
    (hds : ∀ c ∈ ds, sqlite3Isdigit c = true) (hne : ds ≠ [])
    (h1 : 1 ≤ digitsValue ds) (hmax : digitsValue ds ≤ MAX_VECTOR_SZ)
    (hbits : nBits = 32 ∨ nBits = 64) :
    columnTypeBody nBits (w1 ++ 0x28 :: (w2 ++ ds ++ w3 ++ 0x29 :: w4)) =
      ⟨0, some (if nBits = 32 then VECTOR_TYPE_FLOAT32 else VECTOR_TYPE_FLOAT64),
        some (digitsValue ds), none⟩ := by
  have e1 : skipSpaces (w1 ++ 0x28 :: (w2 ++ ds ++ w3 ++ 0x29 :: w4)) =
      0x28 :: (w2 ++ ds ++ w3 ++ 0x29 :: w4) := by
    rw [skipSpaces_spaces _ _ hw1]; rfl
  have hdsp : sqlite3Isspace (deref (ds ++ (w3 ++ 0x29 :: w4))) = false := by
    cases ds with
    | nil => exact absurd rfl hne
    | cons c ds =>
      have := (digit_props c (hds c (List.mem_cons_self _ _))).2.2
      simpa [deref] using this
  have e2 : skipSpaces (w2 ++ ds ++ w3 ++ 0x29 :: w4) = ds ++ (w3 ++ 0x29 :: w4) := by
    rw [List.append_assoc, List.append_assoc, skipSpaces_spaces _ _ hw2,
      skipSpaces_of_not_space _ hdsp]
  have hstop : ¬ (deref (w3 ++ 0x29 :: w4) ≠ 0 ∧ deref (w3 ++ 0x29 :: w4) ≠ 0x29 ∧
      ¬ sqlite3Isspace (deref (w3 ++ 0x29 :: w4)) = true) := by
    cases w3 with
    | nil => simp [deref]
    | cons c w3 =>
      have := hw3 c (List.mem_cons_self _ _)
      simp [deref, this]
  have e3 : parseDimensions (ds ++ (w3 ++ 0x29 :: w4)) 0 =
      .ok (w3 ++ 0x29 :: w4, digitsValue ds) :=
    parseDimensions_digits ds _ 0 hds hstop hmax
  have e4 : skipSpaces (w3 ++ 0x29 :: w4) = 0x29 :: w4 := by
    rw [skipSpaces_spaces _ _ hw3]; rfl
  have e5 : skipSpaces w4 = [] := by
    have := skipSpaces_spaces w4 [] hw4
    rwa [List.append_nil] at this
  have hpos : ¬ digitsValue ds ≤ 0 := by omega
  unfold columnTypeBody
  simp only [e1, deref, List.tail_cons, e2, e3, e4, e5, ne_eq, not_true_eq_false, if_false,
    hpos]
  rcases hbits with h | h
  · rw [if_pos h, if_pos h]
  · rw [if_neg (by omega), if_pos h, if_neg (by omega)]

theorem columnTypeBody_rc (nBits : Nat) (p : List Nat) :
    (columnTypeBody nBits p).rc = 0 ∨ (columnTypeBody nBits p).rc = -1 := by
  unfold columnTypeBody
  simp only []
  by_cases hb : deref (skipSpaces p) ≠ 0x28
  · rw [if_pos hb]; exact Or.inr rfl
  rw [if_neg hb]
  generalize parseDimensions (skipSpaces (skipSpaces p).tail) 0 = out
  cases out with
  | error msg => exact Or.inr rfl
  | ok res =>
    obtain ⟨p3, dims⟩ := res
    simp only []
    split_ifs <;> first | exact Or.inr rfl | exact Or.inl rfl

theorem columnTypeBody_inv (nBits : Nat) (p : List Nat) (h0 : 0 ∉ p)
    (hok : (columnTypeBody nBits p).rc = 0) :
    ∃ w1 w2 ds w3 w4 : List Nat,
      IsSpaces w1 ∧ IsSpaces w2 ∧ IsSpaces w3 ∧ IsSpaces w4 ∧
      (∀ c ∈ ds, sqlite3Isdigit c = true) ∧ ds ≠ [] ∧
      1 ≤ digitsValue ds ∧ digitsValue ds ≤ MAX_VECTOR_SZ ∧ (nBits = 32 ∨ nBits = 64) ∧
      p = w1 ++ 0x28 :: (w2 ++ ds ++ w3 ++ 0x29 :: w4) := by
  obtain ⟨w1, hw1, he1⟩ := skipSpace_decomp p
  unfold columnTypeBody at hok
  simp only [skipSpaces_eq] at hok
  by_cases hb : deref (skipSpace p) ≠ 0x28
  · rw [if_pos hb] at hok; exact absurd hok (by decide)
  rw [if_neg hb] at hok
  have hb2 : deref (skipSpace p) = 0x28 := by simpa using hb
  obtain ⟨c, p1, hsk⟩ : ∃ c t, skipSpace p = c :: t := by
    cases h : skipSpace p with
    | nil => rw [h] at hb2; exact absurd hb2 (by decide)
    | cons c t => exact ⟨c, t, rfl⟩
  rw [hsk] at hb2 hok he1
  simp only [deref] at hb2
  simp only [List.tail_cons] at hok
  obtain ⟨w2, hw2, he2⟩ := skipSpace_decomp p1
  generalize hpd : parseDimensions (skipSpace p1) 0 = out at hok
  cases out with
  | error msg => simp at hok
  | ok res =>
    obtain ⟨p3, dims⟩ := res
    simp only [] at hok
    obtain ⟨ds, e1, e2, e3, e4, _⟩ :=
      parseDimensions_inv (skipSpace p1) 0 p3 dims (Nat.zero_le _) hpd
    obtain ⟨w3, hw3, he3⟩ := skipSpace_decomp p3
    by_cases hcl : deref (skipSpace p3) ≠ 0x29
    · rw [if_pos hcl] at hok; exact absurd hok (by decide)
    rw [if_neg hcl] at hok
    have hcl2 : deref (skipSpace p3) = 0x29 := by simpa using hcl
    obtain ⟨d, p4, hsk3⟩ : ∃ c t, skipSpace p3 = c :: t := by
      cases h : skipSpace p3 with
      | nil => rw [h] at hcl2; exact absurd hcl2 (by decide)
      | cons c t => exact ⟨c, t, rfl⟩
    rw [hsk3] at hcl2 hok he3
    simp only [deref] at hcl2
    simp only [List.tail_cons] at hok
    by_cases hend : deref (skipSpace p4) ≠ 0
    · rw [if_pos hend] at hok; exact absurd hok (by decide)
    rw [if_neg hend] at hok
    by_cases hzero : dims ≤ 0
    · rw [if_pos hzero] at hok; exact absurd hok (by decide)
    rw [if_neg hzero] at hok
    have hbits : nBits = 32 ∨ nBits = 64 := by
      by_cases h32 : nBits = 32
      · exact Or.inl h32
      · rw [if_neg h32] at hok
        by_cases h64 : nBits = 64
        · exact Or.inr h64
        · rw [if_neg h64] at hok; simp at hok
    have hp : p = w1 ++ 0x28 :: (w2 ++ ds ++ w3 ++ 0x29 :: p4) := by
      rw [he1, hb2, he2, e1, he3, hcl2]
      simp
    have h0p4 : 0 ∉ p4 := fun h => h0 (by rw [hp]; simp [h])
    have hdv : digitsValue ds = dims := by rw [e3]; rfl
    refine ⟨w1, w2, ds, w3, p4, hw1, hw2, hw3,
      spaces_of_skipSpace_end p4 h0p4 (by simpa using hend), e2, ?_, by omega, by omega,
      hbits, hp⟩
    intro hnil
    rw [hnil] at hdv
    have : digitsValue [] = 0 := rfl
    omega

theorem drop_name (name rest zName : List Nat) (h : EqIgnoreCase name zName) :
    (name ++ rest).drop zName.length = rest := by
  rw [← eqIgnoreCase_length name zName h]
  simp

theorem columnTypeLoop_ok (name rest zName : List Nat) (nBits : Nat)
    (hmem : (zName, nBits) ∈ VECTOR_COLUMN_TYPES) (heq : EqIgnoreCase name zName) :
    columnTypeLoop (name ++ rest) VECTOR_COLUMN_TYPES = columnTypeBody nBits rest := by
  have m1 := strnicmp_match name zName rest heq
  have o1 := strnicmp_other name rest zName (bytes "FLOAT32") heq (by decide)
  have o2 := strnicmp_other name rest zName (bytes "FLOAT64") heq (by decide)
  have o3 := strnicmp_other name rest zName (bytes "F32_BLOB") heq (by decide)
  have hd := drop_name name rest zName heq
  simp only [VECTOR_COLUMN_TYPES, List.mem_cons, Prod.mk.injEq, List.mem_singleton,
    List.not_mem_nil, or_false] at hmem
  rcases hmem with ⟨hn, hb⟩ | ⟨hn, hb⟩ | ⟨hn, hb⟩ | ⟨hn, hb⟩
  · subst hn hb
    have hm := m1 (by decide)
    simp only [VECTOR_COLUMN_TYPES, columnTypeLoop, hm, ne_eq, not_true_eq_false, if_false, hd]
  · subst hn hb
    have hm := m1 (by decide)
    have h1 := o1 (by decide) (by decide)
    simp only [VECTOR_COLUMN_TYPES, columnTypeLoop, hm, h1, ne_eq, not_true_eq_false,
      not_false_eq_true, if_false, if_true, hd]
  · subst hn hb
    have hm := m1 (by decide)
    have h1 := o1 (by decide) (by decide)
    have h2 := o2 (by decide) (by decide)
    simp only [VECTOR_COLUMN_TYPES, columnTypeLoop, hm, h1, h2, ne_eq, not_true_eq_false,
      not_false_eq_true, if_false, if_true, hd]
  · subst hn hb
    have hm := m1 (by decide)
    have h1 := o1 (by decide) (by decide)
    have h2 := o2 (by decide) (by decide)
    have h3 := o3 (by decide) (by decide)
    simp only [VECTOR_COLUMN_TYPES, columnTypeLoop, hm, h1, h2, h3, ne_eq, not_true_eq_false,
      not_false_eq_true, if_false, if_true, hd]

theorem columnTypeLoop_inv (z : List Nat) (types : List (List Nat × Nat)) :
    (columnTypeLoop z types).rc = 0 →
      ∃ zName nBits, (zName, nBits) ∈ types ∧ sqlite3_strnicmp z zName zName.length = 0 ∧
        columnTypeLoop z types = columnTypeBody nBits (z.drop zName.length) := by
  induction types with
  | nil => intro h; simp [columnTypeLoop] at h
  | cons ty types ih =>
    intro h
    obtain ⟨zName, nBits⟩ := ty
    rw [columnTypeLoop] at h ⊢
    by_cases hm : sqlite3_strnicmp z zName zName.length ≠ 0
    · rw [if_pos hm] at h ⊢
      obtain ⟨n, b, h1, h2, h3⟩ := ih h
      exact ⟨n, b, List.mem_cons_of_mem _ h1, h2, h3⟩
    · rw [if_neg hm]
      exact ⟨zName, nBits, List.mem_cons_self _ _, by simpa using hm, rfl⟩

theorem columnTypeLoop_rc (z : List Nat) (types : List (List Nat × Nat)) :
    (columnTypeLoop z types).rc = 0 ∨ (columnTypeLoop z types).rc = -1 := by
  induction types with
  | nil => exact Or.inr rfl
  | cons ty types ih =>
    obtain ⟨zName, nBits⟩ := ty
    rw [columnTypeLoop]
    split_ifs
    · exact ih
    · exact columnTypeBody_rc _ _

theorem table_props (zName : List Nat) (nBits : Nat)
    (hmem : (zName, nBits) ∈ VECTOR_COLUMN_TYPES) :
    0 ∉ zName ∧ (nBits = 32 ∨ nBits = 64) ∧
    ∃ rest, zName.map sqlite3UpperToLower = 0x66 :: rest := by
  simp only [VECTOR_COLUMN_TYPES, List.mem_cons, Prod.mk.injEq, List.mem_singleton,
    List.not_mem_nil, or_false] at hmem
  rcases hmem with ⟨hn, hb⟩ | ⟨hn, hb⟩ | ⟨hn, hb⟩ | ⟨hn, hb⟩ <;> subst hn hb <;>
    exact ⟨by decide, by decide, _, rfl⟩

theorem name_not_space (name rest zName : List Nat) (nBits : Nat)
    (hmem : (zName, nBits) ∈ VECTOR_COLUMN_TYPES) (heq : EqIgnoreCase name zName) :
    sqlite3Isspace (deref (name ++ rest)) = false := by
  obtain ⟨_, _, r, hr⟩ := table_props zName nBits hmem
  unfold EqIgnoreCase at heq
  rw [hr] at heq
  cases name with
  | nil => simp at heq
  | cons c name =>
    simp only [List.map_cons, List.cons.injEq] at heq
    have hc : c = 0x46 ∨ c = 0x66 := by
      have := heq.1
      unfold sqlite3UpperToLower at this
      split_ifs at this <;> omega
    rcases hc with h | h <;> rw [h] <;> rfl

theorem parseColumnType_of_grammar (zType : List Nat) (nBits dims : Nat)
    (h : ColumnTypeSyntax zType nBits dims) :
    vectorIdxParseColumnType zType =
      ⟨0, some (if nBits = 32 then VECTOR_TYPE_FLOAT32 else VECTOR_TYPE_FLOAT64), some dims,
        none⟩ := by
  obtain ⟨w0, name, w1, w2, ds, w3, w4, zName, hw0, hw1, hw2, hw3, hw4, hmem, heq, hne, hds,
    hval, h1, hmax, hz⟩ := h
  have hsk : skipSpaces zType = name ++ (w1 ++ 0x28 :: (w2 ++ ds ++ w3 ++ 0x29 :: w4)) := by
    rw [hz, List.append_assoc, List.append_assoc, skipSpaces_spaces _ _ hw0,
      skipSpaces_of_not_space _ (name_not_space name _ zName nBits hmem heq)]
  unfold vectorIdxParseColumnType
  rw [hsk, columnTypeLoop_ok name _ zName nBits hmem heq,
    columnTypeBody_ok nBits w1 w2 ds w3 w4 hw1 hw2 hw3 hw4 hds hne (by omega) (by omega)
      (table_props zName nBits hmem).2.1, hval]

theorem grammar_of_parseColumnType (zType : List Nat) (h0 : 0 ∉ zType)
    (hok : (vectorIdxParseColumnType zType).rc = 0) :
    ∃ nBits dims, ColumnTypeSyntax zType nBits dims := by
  unfold vectorIdxParseColumnType at hok
  obtain ⟨w0, hw0, he0⟩ := skipSpace_decomp zType
  rw [← skipSpaces_eq] at he0
  obtain ⟨zName, nBits, hmem, hcmp, hbody⟩ := columnTypeLoop_inv _ _ hok
  obtain ⟨hz0, _, _⟩ := table_props zName nBits hmem
  obtain ⟨name, rest, hsplit, heq⟩ := strnicmp_inv zName _ hz0 hcmp
  rw [hbody, hsplit, drop_name name rest zName heq] at hok
  have h0r : 0 ∉ rest := fun h => h0 (by rw [he0, hsplit]; simp [h])
  obtain ⟨w1, w2, ds, w3, w4, hw1, hw2, hw3, hw4, hds, hne, h1, hmax, _, hrest⟩ :=
    columnTypeBody_inv nBits rest h0r hok
  refine ⟨nBits, digitsValue ds, w0, name, w1, w2, ds, w3, w4, zName, hw0, hw1, hw2, hw3, hw4,
    hmem, heq, hne, hds, rfl, h1, hmax, ?_⟩
  rw [he0, hsplit, hrest]
  simp

/-- C10: `vectorIdxParseColumnType` succeeds exactly on the strings
`ws NAME ws ( ws digits ws ) ws` where `NAME` is `FLOAT32`, `FLOAT64`, `F32_BLOB` or
`F64_BLOB` in any letter case and `digits` is a non-empty decimal numeral with value `n`,
`1 ≤ n ≤ MAX_VECTOR_SZ`; it then returns 0 with `*pDims = n` and `*pType` F32 for the names
of width 32 and F64 for the names of width 64. Every other string (without NUL byte, as a C
string is) is rejected with -1. -/
theorem C10_column_type_grammar (zType : List Nat) :
    (∀ nBits dims, ColumnTypeSyntax zType nBits dims →
      vectorIdxParseColumnType zType =
        ⟨0, some (if nBits = 32 then VECTOR_TYPE_FLOAT32 else VECTOR_TYPE_FLOAT64), some dims,
          none⟩) ∧
    (0 ∉ zType → (vectorIdxParseColumnType zType).rc = 0 →
      ∃ nBits dims, ColumnTypeSyntax zType nBits dims) ∧
    (0 ∉ zType → (¬ ∃ nBits dims, ColumnTypeSyntax zType nBits dims) →
      (vectorIdxParseColumnType zType).rc = -1) ∧
    VECTOR_COLUMN_TYPES =
      [(bytes "FLOAT32", 32), (bytes "FLOAT64", 64), (bytes "F32_BLOB", 32),
       (bytes "F64_BLOB", 64)] := by
  refine ⟨fun nBits dims h => parseColumnType_of_grammar zType nBits dims h,
    fun h0 hok => grammar_of_parseColumnType zType h0 hok, fun h0 hno => ?_, rfl⟩
  rcases columnTypeLoop_rc (skipSpaces zType) VECTOR_COLUMN_TYPES with h | h
  · exact absurd (grammar_of_parseColumnType zType h0 h) hno
  · exact h

/-- Witness for C10: ` float64 ( 0012 ) ` is accepted as F64 with 12 dimensions, and
`FLOAT32(0)` is rejected. -/
theorem C10_column_type_grammar_witness :
    vectorIdxParseColumnType (bytes " float64 ( 0012 ) ") = ⟨0, some 2, some 12, none⟩ ∧
    (vectorIdxParseColumnType (bytes "FLOAT32(0)")).rc = -1 :=
  ⟨(C10_column_type_grammar (bytes " float64 ( 0012 ) ")).1 64 12
      ⟨bytes " ", bytes "float64", bytes " ", bytes " ", bytes "0012", bytes " ", bytes " ",
        bytes "FLOAT64", by decide, by decide, by decide, by decide, by decide, by decide,
        by decide, by decide, by decide, by decide, by decide, by decide, by decide⟩,
   (C10_column_type_grammar (bytes "FLOAT32(0)")).2.2.1 (by decide)
      (fun ⟨nBits, dims, h⟩ =>
        absurd (show (vectorIdxParseColumnType (bytes "FLOAT32(0)")).rc = 0 from
          congrArg ColumnTypeResult.rc
            ((C10_column_type_grammar (bytes "FLOAT32(0)")).1 nBits dims h)) (by decide))⟩

/-! ## Theorems: index parameters from `key=value` strings -/

theorem putParam_ok (p : VectorIdxParams) (tag : Int) (value : Nat) (msg : String)
    (hlen : p.pBinBuf.length = VECTOR_INDEX_PARAMS_BUF_SIZE)
    (hfit : p.nBinSize + 9 ≤ VECTOR_INDEX_PARAMS_BUF_SIZE) :
    (putParam p tag value msg).rc = 0 ∧
    (putParam p tag value msg).params = (vectorIdxParamsPutU64 p tag value).2 ∧
    (putParam p tag value msg).params.nBinSize = p.nBinSize + 9 ∧
    (putParam p tag value msg).params.pBinBuf.take (p.nBinSize + 9) =
      p.pBinBuf.take p.nBinSize ++ entryBytes tag value := by
  obtain ⟨h1, h2, _, h4⟩ := put_ok p tag value hlen hfit
  unfold putParam
  rw [if_neg (by rw [h1]; decide)]
  exact ⟨rfl, rfl, h2, h4⟩

theorem putParam_unchanged_or_appended (p : VectorIdxParams) (tag : Int) (value : Nat)
    (msg : String) (hlen : p.pBinBuf.length = VECTOR_INDEX_PARAMS_BUF_SIZE) :
    ((putParam p tag value msg).rc = -1 ∧ (putParam p tag value msg).params = p) ∨
    ((putParam p tag value msg).rc = 0 ∧
      p.nBinSize + 9 ≤ VECTOR_INDEX_PARAMS_BUF_SIZE ∧
      (putParam p tag value msg).params = (vectorIdxParamsPutU64 p tag value).2) := by
  by_cases hfit : p.nBinSize + 9 ≤ VECTOR_INDEX_PARAMS_BUF_SIZE
  · obtain ⟨h1, h2, _, _⟩ := putParam_ok p tag value msg hlen hfit
    exact Or.inr ⟨h1, hfit, h2⟩
  · have hput : vectorIdxParamsPutU64 p tag value = (-1, p) := by
      unfold vectorIdxParamsPutU64
      rw [if_pos (by omega)]
    left
    unfold putParam
    rw [hput, if_pos (by simp)]
    exact ⟨rfl, rfl⟩

/-- The record with no entries in a zeroed buffer. -/
theorem emptyRecord_fits :
    (⟨List.replicate 128 0, 0⟩ : VectorIdxParams).pBinBuf.length =
      VECTOR_INDEX_PARAMS_BUF_SIZE ∧
    (⟨List.replicate 128 0, 0⟩ : VectorIdxParams).nBinSize + 9 ≤
      VECTOR_INDEX_PARAMS_BUF_SIZE :=
  ⟨List.length_replicate 128 0, by decide⟩

theorem parse_empty_key {D : Type} (ids : VectorParamIds) (ext : ParamExterns D)
    (p : VectorIdxParams) :
    parseVectorIdxParam ids ext (bytes "=diskann") p =
      putParam p ids.VECTOR_INDEX_TYPE_PARAM_ID (ids.VECTOR_INDEX_TYPE_DISKANN % 2 ^ 64)
        "unable to serialize vector index parameter" := by
  have h1 : findDelimiter (bytes "=diskann") = 0 := by decide
  have h2 : ¬ deref ((bytes "=diskann").drop 0) ≠ 0x3d := by decide
  have h3 : sqlite3_strnicmp (bytes "type") (bytes "=diskann") 0 = 0 := by decide
  have h4 : sqlite3_strnicmp (bytes "diskann") ((bytes "=diskann").drop (0 + 1))
      (sqlite3Strlen30 ((bytes "=diskann").drop (0 + 1))) = 0 := by decide
  have n1 : ¬ (0 : Nat) = 1 := by decide
  have n2 : ¬ (0 : Nat) = 2 := by decide
  unfold parseVectorIdxParam
  simp only [h1, if_neg h2, h3, h4, n1, n2, VECTOR_PARAM_NAMES, paramLoop, ne_eq,
    not_true_eq_false, not_false_eq_true, if_false, if_true]

theorem parse_key_t {D : Type} (ids : VectorParamIds) (ext : ParamExterns D)
    (p : VectorIdxParams) :
    parseVectorIdxParam ids ext (bytes "t=diskann") p =
      putParam p ids.VECTOR_INDEX_TYPE_PARAM_ID (ids.VECTOR_INDEX_TYPE_DISKANN % 2 ^ 64)
        "unable to serialize vector index parameter" := by
  have h1 : findDelimiter (bytes "t=diskann") = 1 := by decide
  have h2 : ¬ deref ((bytes "t=diskann").drop 1) ≠ 0x3d := by decide
  have h3 : sqlite3_strnicmp (bytes "type") (bytes "t=diskann") 1 = 0 := by decide
  have h4 : sqlite3_strnicmp (bytes "diskann") ((bytes "t=diskann").drop (1 + 1))
      (sqlite3Strlen30 ((bytes "t=diskann").drop (1 + 1))) = 0 := by decide
  have n1 : ¬ (0 : Nat) = 1 := by decide
  have n2 : ¬ (0 : Nat) = 2 := by decide
  unfold parseVectorIdxParam
  simp only [h1, if_neg h2, h3, h4, n1, n2, VECTOR_PARAM_NAMES, paramLoop, ne_eq,
    not_true_eq_false, not_false_eq_true, if_false, if_true]

theorem parse_key_m {D : Type} (ids : VectorParamIds) (ext : ParamExterns D)
    (p : VectorIdxParams) :
    parseVectorIdxParam ids ext (bytes "m=l2") p =
      putParam p ids.VECTOR_METRIC_TYPE_PARAM_ID (ids.VECTOR_METRIC_TYPE_L2 % 2 ^ 64)
        "unable to serialize vector index parameter" := by
  have h1 : findDelimiter (bytes "m=l2") = 1 := by decide
  have h2 : ¬ deref ((bytes "m=l2").drop 1) ≠ 0x3d := by decide
  have k1 : sqlite3_strnicmp (bytes "type") (bytes "m=l2") 1 ≠ 0 := by decide
  have k2 : sqlite3_strnicmp (bytes "metric") (bytes "m=l2") 1 = 0 := by decide
  have v2 : sqlite3_strnicmp (bytes "cosine") ((bytes "m=l2").drop (1 + 1))
      (sqlite3Strlen30 ((bytes "m=l2").drop (1 + 1))) ≠ 0 := by decide
  have h3 : sqlite3_strnicmp (bytes "metric") (bytes "m=l2") 1 = 0 := by decide
  have h4 : sqlite3_strnicmp (bytes "l2") ((bytes "m=l2").drop (1 + 1))
      (sqlite3Strlen30 ((bytes "m=l2").drop (1 + 1))) = 0 := by decide
  have n1 : ¬ (0 : Nat) = 1 := by decide
  have n2 : ¬ (0 : Nat) = 2 := by decide
  unfold parseVectorIdxParam
  simp only [h1, if_neg h2, k1, k2, v2, h3, h4, n1, n2, VECTOR_PARAM_NAMES, paramLoop, ne_eq,
    not_true_eq_false, not_false_eq_true, if_false, if_true]

theorem parse_metric_co {D : Type} (ids : VectorParamIds) (ext : ParamExterns D)
    (p : VectorIdxParams) :
    parseVectorIdxParam ids ext (bytes "metric=co") p =
      putParam p ids.VECTOR_METRIC_TYPE_PARAM_ID (ids.VECTOR_METRIC_TYPE_COS % 2 ^ 64)
        "unable to serialize vector index parameter" := by
  have h1 : findDelimiter (bytes "metric=co") = 6 := by decide
  have h2 : ¬ deref ((bytes "metric=co").drop 6) ≠ 0x3d := by decide
  have k1 : sqlite3_strnicmp (bytes "type") (bytes "metric=co") 6 ≠ 0 := by decide
  have h3 : sqlite3_strnicmp (bytes "metric") (bytes "metric=co") 6 = 0 := by decide
  have h4 : sqlite3_strnicmp (bytes "cosine") ((bytes "metric=co").drop (6 + 1))
      (sqlite3Strlen30 ((bytes "metric=co").drop (6 + 1))) = 0 := by decide
  have n1 : ¬ (0 : Nat) = 1 := by decide
  have n2 : ¬ (0 : Nat) = 2 := by decide
  unfold parseVectorIdxParam
  simp only [h1, if_neg h2, k1, h3, h4, n1, n2, VECTOR_PARAM_NAMES, paramLoop, ne_eq,
    not_true_eq_false, not_false_eq_true, if_false, if_true]

theorem parse_metric_empty {D : Type} (ids : VectorParamIds) (ext : ParamExterns D)
    (p : VectorIdxParams) :
    parseVectorIdxParam ids ext (bytes "metric=") p =
      putParam p ids.VECTOR_METRIC_TYPE_PARAM_ID (ids.VECTOR_METRIC_TYPE_COS % 2 ^ 64)
        "unable to serialize vector index parameter" := by
  have h1 : findDelimiter (bytes "metric=") = 6 := by decide
  have h2 : ¬ deref ((bytes "metric=").drop 6) ≠ 0x3d := by decide
  have k1 : sqlite3_strnicmp (bytes "type") (bytes "metric=") 6 ≠ 0 := by decide
  have h3 : sqlite3_strnicmp (bytes "metric") (bytes "metric=") 6 = 0 := by decide
  have h4 : sqlite3_strnicmp (bytes "cosine") ((bytes "metric=").drop (6 + 1))
      (sqlite3Strlen30 ((bytes "metric=").drop (6 + 1))) = 0 := by decide
  have n1 : ¬ (0 : Nat) = 1 := by decide
  have n2 : ¬ (0 : Nat) = 2 := by decide
  unfold parseVectorIdxParam
  simp only [h1, if_neg h2, k1, h3, h4, n1, n2, VECTOR_PARAM_NAMES, paramLoop, ne_eq,
    not_true_eq_false, not_false_eq_true, if_false, if_true]

theorem parse_type_d {D : Type} (ids : VectorParamIds) (ext : ParamExterns D)
    (p : VectorIdxParams) :
    parseVectorIdxParam ids ext (bytes "type=d") p =
      putParam p ids.VECTOR_INDEX_TYPE_PARAM_ID (ids.VECTOR_INDEX_TYPE_DISKANN % 2 ^ 64)
        "unable to serialize vector index parameter" := by
  have h1 : findDelimiter (bytes "type=d") = 4 := by decide
  have h2 : ¬ deref ((bytes "type=d").drop 4) ≠ 0x3d := by decide
  have h3 : sqlite3_strnicmp (bytes "type") (bytes "type=d") 4 = 0 := by decide
  have h4 : sqlite3_strnicmp (bytes "diskann") ((bytes "type=d").drop (4 + 1))
      (sqlite3Strlen30 ((bytes "type=d").drop (4 + 1))) = 0 := by decide
  have n1 : ¬ (0 : Nat) = 1 := by decide
  have n2 : ¬ (0 : Nat) = 2 := by decide
  unfold parseVectorIdxParam
  simp only [h1, if_neg h2, h3, h4, n1, n2, VECTOR_PARAM_NAMES, paramLoop, ne_eq,
    not_true_eq_false, not_false_eq_true, if_false, if_true]

theorem parse_metric_l2 {D : Type} (ids : VectorParamIds) (ext : ParamExterns D)
    (p : VectorIdxParams) :
    parseVectorIdxParam ids ext (bytes "metric=l2") p =
      putParam p ids.VECTOR_METRIC_TYPE_PARAM_ID (ids.VECTOR_METRIC_TYPE_L2 % 2 ^ 64)
        "unable to serialize vector index parameter" := by
  have h1 : findDelimiter (bytes "metric=l2") = 6 := by decide
  have h2 : ¬ deref ((bytes "metric=l2").drop 6) ≠ 0x3d := by decide
  have k1 : sqlite3_strnicmp (bytes "type") (bytes "metric=l2") 6 ≠ 0 := by decide
  have k2 : sqlite3_strnicmp (bytes "metric") (bytes "metric=l2") 6 = 0 := by decide
  have v2 : sqlite3_strnicmp (bytes "cosine") ((bytes "metric=l2").drop (6 + 1))
      (sqlite3Strlen30 ((bytes "metric=l2").drop (6 + 1))) ≠ 0 := by decide
  have h3 : sqlite3_strnicmp (bytes "metric") (bytes "metric=l2") 6 = 0 := by decide
  have h4 : sqlite3_strnicmp (bytes "l2") ((bytes "metric=l2").drop (6 + 1))
      (sqlite3Strlen30 ((bytes "metric=l2").drop (6 + 1))) = 0 := by decide
  have n1 : ¬ (0 : Nat) = 1 := by decide
  have n2 : ¬ (0 : Nat) = 2 := by decide
  unfold parseVectorIdxParam
  simp only [h1, if_neg h2, k1, k2, v2, h3, h4, n1, n2, VECTOR_PARAM_NAMES, paramLoop, ne_eq,
    not_true_eq_false, not_false_eq_true, if_false, if_true]

theorem parse_search_l_minus5 {D : Type} (ids : VectorParamIds)
    (atof : List Nat → Int × D) (bits : D → Nat) (p : VectorIdxParams) :
    parseVectorIdxParam ids ⟨atoiDecimal, atof, bits⟩ (bytes "search_l=-5") p =
      putParam p ids.VECTOR_SEARCH_L_PARAM_ID (2 ^ 64 - 5)
        "unable to serialize integer vector index parameter" := by
  have h1 : findDelimiter (bytes "search_l=-5") = 8 := by decide
  have h2 : ¬ deref ((bytes "search_l=-5").drop 8) ≠ 0x3d := by decide
  have k1 : sqlite3_strnicmp (bytes "type") (bytes "search_l=-5") 8 ≠ 0 := by decide
  have k2 : sqlite3_strnicmp (bytes "metric") (bytes "search_l=-5") 8 ≠ 0 := by decide
  have k3 : sqlite3_strnicmp (bytes "alpha") (bytes "search_l=-5") 8 ≠ 0 := by decide
  have k4 : sqlite3_strnicmp (bytes "search_l") (bytes "search_l=-5") 8 = 0 := by decide
  have hv : (atoiDecimal ((bytes "search_l=-5").drop (8 + 1)) % 2 ^ 64).toNat = 2 ^ 64 - 5 := by
    decide
  have hnz : ¬ (2 ^ 64 - 5 : Nat) = 0 := by decide
  unfold parseVectorIdxParam
  simp only [h1, if_neg h2, k1, k2, k3, k4, hv, hnz, VECTOR_PARAM_NAMES, paramLoop, ne_eq,
    not_true_eq_false, not_false_eq_true, if_false, if_true]

/-- C11 (behaviour of the code at keys that are not parameter names): for the parameter
strings `=diskann` (empty key), `t=diskann` and `m=l2` (proper prefixes of `type` and
`metric`) `parseVectorIdxParam` does not fail: on an empty record it returns 0 and appends
the entry of the `type`, respectively `metric`, parameter. -/
theorem C11_prefix_keys_accepted {D : Type} (ids : VectorParamIds) (ext : ParamExterns D) :
    ((parseVectorIdxParam ids ext (bytes "=diskann") ⟨List.replicate 128 0, 0⟩).rc = 0 ∧
      (parseVectorIdxParam ids ext (bytes "=diskann") ⟨List.replicate 128 0, 0⟩).params.nBinSize
        = 9 ∧
      (parseVectorIdxParam ids ext (bytes "=diskann")
          ⟨List.replicate 128 0, 0⟩).params.pBinBuf.take 9 =
        entryBytes ids.VECTOR_INDEX_TYPE_PARAM_ID (ids.VECTOR_INDEX_TYPE_DISKANN % 2 ^ 64)) ∧
    ((parseVectorIdxParam ids ext (bytes "t=diskann") ⟨List.replicate 128 0, 0⟩).rc = 0 ∧
      (parseVectorIdxParam ids ext (bytes "t=diskann")
          ⟨List.replicate 128 0, 0⟩).params.pBinBuf.take 9 =
        entryBytes ids.VECTOR_INDEX_TYPE_PARAM_ID (ids.VECTOR_INDEX_TYPE_DISKANN % 2 ^ 64)) ∧
    ((parseVectorIdxParam ids ext (bytes "m=l2") ⟨List.replicate 128 0, 0⟩).rc = 0 ∧
      (parseVectorIdxParam ids ext (bytes "m=l2")
          ⟨List.replicate 128 0, 0⟩).params.pBinBuf.take 9 =
        entryBytes ids.VECTOR_METRIC_TYPE_PARAM_ID (ids.VECTOR_METRIC_TYPE_L2 % 2 ^ 64)) := by
  rw [parse_empty_key, parse_key_t, parse_key_m]
  have h := fun tag value msg =>
    putParam_ok ⟨List.replicate 128 0, 0⟩ tag value msg emptyRecord_fits.1 emptyRecord_fits.2
  simp only [Nat.zero_add, List.take_zero, List.nil_append] at h
  exact ⟨⟨(h _ _ _).1, (h _ _ _).2.2.1, (h _ _ _).2.2.2⟩, ⟨(h _ _ _).1, (h _ _ _).2.2.2⟩,
    ⟨(h _ _ _).1, (h _ _ _).2.2.2⟩⟩

/-- C12 (behaviour of the code at values that are not enum members): for the parameter
strings `metric=co` and `type=d` (proper prefixes of the members `cosine` and `diskann`) and
`metric=` (empty value) `parseVectorIdxParam` does not fail: on an empty record it returns 0
and records the code of `cosine`, respectively `diskann`, under the key's tag. -/
theorem C12_prefix_values_accepted {D : Type} (ids : VectorParamIds) (ext : ParamExterns D) :
    ((parseVectorIdxParam ids ext (bytes "metric=co") ⟨List.replicate 128 0, 0⟩).rc = 0 ∧
      (parseVectorIdxParam ids ext (bytes "metric=co")
          ⟨List.replicate 128 0, 0⟩).params.pBinBuf.take 9 =
        entryBytes ids.VECTOR_METRIC_TYPE_PARAM_ID (ids.VECTOR_METRIC_TYPE_COS % 2 ^ 64)) ∧
    ((parseVectorIdxParam ids ext (bytes "type=d") ⟨List.replicate 128 0, 0⟩).rc = 0 ∧
      (parseVectorIdxParam ids ext (bytes "type=d")
          ⟨List.replicate 128 0, 0⟩).params.pBinBuf.take 9 =
        entryBytes ids.VECTOR_INDEX_TYPE_PARAM_ID (ids.VECTOR_INDEX_TYPE_DISKANN % 2 ^ 64)) ∧
    ((parseVectorIdxParam ids ext (bytes "metric=") ⟨List.replicate 128 0, 0⟩).rc = 0 ∧
      (parseVectorIdxParam ids ext (bytes "metric=")
          ⟨List.replicate 128 0, 0⟩).params.pBinBuf.take 9 =
        entryBytes ids.VECTOR_METRIC_TYPE_PARAM_ID (ids.VECTOR_METRIC_TYPE_COS % 2 ^ 64)) := by
  rw [parse_metric_co, parse_type_d, parse_metric_empty]
  have h := fun tag value msg =>
    putParam_ok ⟨List.replicate 128 0, 0⟩ tag value msg emptyRecord_fits.1 emptyRecord_fits.2
  simp only [Nat.zero_add, List.take_zero, List.nil_append] at h
  exact ⟨⟨(h _ _ _).1, (h _ _ _).2.2.2⟩, ⟨(h _ _ _).1, (h _ _ _).2.2.2⟩,
    ⟨(h _ _ _).1, (h _ _ _).2.2.2⟩⟩

/-- C13 (behaviour of the code at a negative integer): with an integer parser that maps `-5`
to the `int` -5, `parseVectorIdxParam` does not reject `search_l=-5`: on an empty record it
returns 0 and appends the entry of the SEARCH_L tag with the value `2^64 - 5`, the
conversion of -5 to `u64`. -/
theorem C13_negative_search_l_accepted {D : Type} (ids : VectorParamIds)
    (atof : List Nat → Int × D) (bits : D → Nat) :
    (parseVectorIdxParam ids ⟨atoiDecimal, atof, bits⟩ (bytes "search_l=-5")
      ⟨List.replicate 128 0, 0⟩).rc = 0 ∧
    (parseVectorIdxParam ids ⟨atoiDecimal, atof, bits⟩ (bytes "search_l=-5")
      ⟨List.replicate 128 0, 0⟩).params.nBinSize = 9 ∧
    (parseVectorIdxParam ids ⟨atoiDecimal, atof, bits⟩ (bytes "search_l=-5")
      ⟨List.replicate 128 0, 0⟩).params.pBinBuf.take 9 =
        entryBytes ids.VECTOR_SEARCH_L_PARAM_ID 18446744073709551611 := by
  rw [parse_search_l_minus5]
  have h := fun tag value msg =>
    putParam_ok ⟨List.replicate 128 0, 0⟩ tag value msg emptyRecord_fits.1 emptyRecord_fits.2
  simp only [Nat.zero_add, List.take_zero, List.nil_append] at h
  exact ⟨(h _ _ _).1, (h _ _ _).2.2.1, (h _ _ _).2.2.2⟩

/-- A record whose first `nBinSize` bytes are the entries `es`, in order. -/
theorem paramLoop_appends {D : Type} (ids : VectorParamIds) (ext : ParamExterns D)
    (zParam : List Nat) (iDelimiter : Nat) (zValue : List Nat) (nValueLen : Nat)
    (p : VectorIdxParams) (hlen : p.pBinBuf.length = VECTOR_INDEX_PARAMS_BUF_SIZE)
    (entries : List VectorParamName) (htags : ∀ e ∈ entries, e.tag ∈ userTags ids) :
    (paramLoop ext zParam iDelimiter zValue nValueLen p entries).rc = 0 →
      ∃ tag value, tag ∈ userTags ids ∧ value < 2 ^ 64 ∧
        p.nBinSize + 9 ≤ VECTOR_INDEX_PARAMS_BUF_SIZE ∧
        (paramLoop ext zParam iDelimiter zValue nValueLen p entries).params =
          (vectorIdxParamsPutU64 p tag value).2 := by
  induction entries with
  | nil => intro h; simp [paramLoop] at h
  | cons e rest ih =>
    intro h
    have hrest : ∀ x ∈ rest, x.tag ∈ userTags ids := fun x hx => htags x (List.mem_cons_of_mem _ hx)
    have he : e.tag ∈ userTags ids := htags e (List.mem_cons_self _ _)
    have hput : ∀ (value : Nat) (msg : String), value < 2 ^ 64 →
        (putParam p e.tag value msg).rc = 0 →
        ∃ tag v, tag ∈ userTags ids ∧ v < 2 ^ 64 ∧
          p.nBinSize + 9 ≤ VECTOR_INDEX_PARAMS_BUF_SIZE ∧
          (putParam p e.tag value msg).params = (vectorIdxParamsPutU64 p tag v).2 := by
      intro value msg hv hrc
      rcases putParam_unchanged_or_appended p e.tag value msg hlen with ⟨h1, _⟩ | ⟨_, h2, h3⟩
      · rw [h1] at hrc; exact absurd hrc (by decide)
      · exact ⟨e.tag, value, he, hv, h2, h3⟩
    rw [paramLoop] at h ⊢
    split_ifs at h ⊢ with c1 c2 c3 c4 c5 c6 c7
    · exact ih hrest h
    · simp at h
    · refine hput _ _ ?_ h
      have := Int.emod_lt_of_pos (ext.sqlite3Atoi zValue) (show (0 : Int) < 2 ^ 64 by decide)
      have h0 := Int.emod_nonneg (ext.sqlite3Atoi zValue) (show (2 ^ 64 : Int) ≠ 0 by decide)
      omega
    · simp at h
    · exact hput _ _ (Nat.mod_lt _ (by decide)) h
    · exact hput _ _ (Nat.mod_lt _ (by decide)) h
    · exact ih hrest h
    · simp at h

theorem table_tags (ids : VectorParamIds) :
    ∀ e ∈ VECTOR_PARAM_NAMES ids, e.tag ∈ userTags ids := by
  intro e he
  simp only [VECTOR_PARAM_NAMES, List.mem_cons, List.mem_singleton, List.not_mem_nil,
    or_false] at he
  rcases he with h | h | h | h | h | h <;> rw [h] <;> simp [userTags]

theorem parseVectorIdxParam_appends {D : Type} (ids : VectorParamIds) (ext : ParamExterns D)
    (zParam : List Nat) (p : VectorIdxParams)
    (hlen : p.pBinBuf.length = VECTOR_INDEX_PARAMS_BUF_SIZE)
    (hok : (parseVectorIdxParam ids ext zParam p).rc = 0) :
    ∃ tag value, tag ∈ userTags ids ∧ value < 2 ^ 64 ∧
      p.nBinSize + 9 ≤ VECTOR_INDEX_PARAMS_BUF_SIZE ∧
      (parseVectorIdxParam ids ext zParam p).params = (vectorIdxParamsPutU64 p tag value).2 := by
  unfold parseVectorIdxParam at hok ⊢
  simp only [] at hok ⊢
  split_ifs at hok ⊢ with c
  · simp at hok
  · exact paramLoop_appends ids ext _ _ _ _ p hlen _ (table_tags ids) hok

/-- The arguments loop of `parseVectorIdxParams` appends one entry per argument. -/
theorem paramsArgLoop_appends {D : Type} (ids : VectorParamIds) (ext : ParamExterns D)
    (args : List Expr) :
    ∀ p : VectorIdxParams, p.pBinBuf.length = VECTOR_INDEX_PARAMS_BUF_SIZE →
      p.nBinSize ≤ VECTOR_INDEX_PARAMS_BUF_SIZE →
      (paramsArgLoop ids ext p args).rc = SQLITE_OK →
      ∃ ops : List (Int × Nat), (∀ op ∈ ops, op.1 ∈ userTags ids ∧ op.2 < 2 ^ 64) ∧
        (paramsArgLoop ids ext p args).params.pBinBuf.length = VECTOR_INDEX_PARAMS_BUF_SIZE ∧
        (paramsArgLoop ids ext p args).params.nBinSize ≤ VECTOR_INDEX_PARAMS_BUF_SIZE ∧
        (paramsArgLoop ids ext p args).params.nBinSize = p.nBinSize + 9 * ops.length ∧
        (paramsArgLoop ids ext p args).params.pBinBuf.take
            (paramsArgLoop ids ext p args).params.nBinSize =
          p.pBinBuf.take p.nBinSize ++ ops.flatMap (fun e => entryBytes e.1 e.2) := by
  induction args with
  | nil =>
    intro p hlen hn _
    exact ⟨[], by simp, hlen, hn, by simp [paramsArgLoop], by simp [paramsArgLoop]⟩
  | cons a rest ih =>
    intro p hlen hn hok
    rw [paramsArgLoop] at hok ⊢
    by_cases c1 : ¬ a.opIs .TK_STRING = true
    · rw [if_pos c1] at hok
      exact absurd (show SQLITE_ERROR = SQLITE_OK from hok) (by decide)
    rw [if_neg c1] at hok ⊢
    by_cases c2 : (parseVectorIdxParam ids ext a.zToken p).rc ≠ 0
    · rw [if_pos c2] at hok
      exact absurd (show SQLITE_ERROR = SQLITE_OK from hok) (by decide)
    rw [if_neg c2] at hok ⊢
    have hrc : (parseVectorIdxParam ids ext a.zToken p).rc = 0 := by simpa using c2
    obtain ⟨tag, value, ht, hv, hfit, hp⟩ := parseVectorIdxParam_appends ids ext _ p hlen hrc
    obtain ⟨_, hsz, hl, htake⟩ := put_ok p tag value hlen hfit
    rw [hp] at hok ⊢
    obtain ⟨ops, o1, o2, o3, o4, o5⟩ := ih _ hl (by rw [hsz]; exact hfit) hok
    refine ⟨(tag, value) :: ops, ?_, o2, o3, ?_, ?_⟩
    · intro op hop
      rcases List.mem_cons.mp hop with h | h
      · rw [h]; exact ⟨ht, hv⟩
      · exact o1 op h
    · rw [o4, hsz, List.length_cons]; omega
    · rw [o5, hsz, htake]; simp

theorem getU64_of_entries (p : VectorIdxParams) (tag : Int) (es : List (Int × Nat))
    (htake : p.pBinBuf.take p.nBinSize = es.flatMap (fun e => entryBytes e.1 e.2))
    (hv : ∀ e ∈ es, e.2 < 2 ^ 64) (hsz : p.nBinSize = 9 * es.length)
    (hn : p.nBinSize ≤ p.pBinBuf.length) :
    vectorIdxParamsGetU64 p tag = scanEntries tag es 0 := by
  have := getU64Loop_entries p tag es [] p.nBinSize 0 (by simpa using htake) hv (by omega) hn
  simpa [vectorIdxParamsGetU64] using this

theorem int_to_u64 (x : Int) (h0 : 0 ≤ x) (h1 : x < 2 ^ 31) :
    (x % 2 ^ 64).toNat = x.toNat ∧ x.toNat < 2 ^ 64 := by
  have : x % 2 ^ 64 = x := Int.emod_eq_of_lt h0 (by omega)
  rw [this]
  exact ⟨rfl, by omega⟩

/-- The record after a successful `parseVectorIdxParams` on an empty record: the three
seeded entries followed by entries that carry tags of `key=value` parameters. -/
theorem parseVectorIdxParams_entries {D : Type} (ids : VectorParamIds) (ext : ParamExterns D)
    (rec0 : VectorIdxParams) (type dims : Int) (args : List Expr)
    (hlen : rec0.pBinBuf.length = VECTOR_INDEX_PARAMS_BUF_SIZE)
    (hok : (parseVectorIdxParams ids ext (vectorIdxParamsInit rec0 none 0) type dims args).rc
      = SQLITE_OK) :
    ∃ ops : List (Int × Nat), (∀ op ∈ ops, op.1 ∈ userTags ids ∧ op.2 < 2 ^ 64) ∧
      (parseVectorIdxParams ids ext (vectorIdxParamsInit rec0 none 0) type dims
        args).params.pBinBuf.length = VECTOR_INDEX_PARAMS_BUF_SIZE ∧
      (parseVectorIdxParams ids ext (vectorIdxParamsInit rec0 none 0) type dims
        args).params.nBinSize ≤ VECTOR_INDEX_PARAMS_BUF_SIZE ∧
      (parseVectorIdxParams ids ext (vectorIdxParamsInit rec0 none 0) type dims
        args).params.nBinSize = 9 * (ops.length + 3) ∧
      (parseVectorIdxParams ids ext (vectorIdxParamsInit rec0 none 0) type dims
          args).params.pBinBuf.take
        (parseVectorIdxParams ids ext (vectorIdxParamsInit rec0 none 0) type dims
          args).params.nBinSize =
        ((ids.VECTOR_FORMAT_PARAM_ID, VECTOR_FORMAT_DEFAULT) ::
          (ids.VECTOR_TYPE_PARAM_ID, (type % 2 ^ 64).toNat) ::
          (ids.VECTOR_DIM_PARAM_ID, (dims % 2 ^ 64).toNat) :: ops).flatMap
            (fun e => entryBytes e.1 e.2) := by
  have h0 : (vectorIdxParamsInit rec0 none 0).nBinSize = 0 := rfl
  have hl0 : (vectorIdxParamsInit rec0 none 0).pBinBuf.length = VECTOR_INDEX_PARAMS_BUF_SIZE :=
    hlen
  obtain ⟨a1, a2, a3, a4⟩ := put_ok (vectorIdxParamsInit rec0 none 0)
    ids.VECTOR_FORMAT_PARAM_ID VECTOR_FORMAT_DEFAULT hl0 (by rw [h0]; decide)
  obtain ⟨b1, b2, b3, b4⟩ := put_ok _ ids.VECTOR_TYPE_PARAM_ID (type % 2 ^ 64).toNat a3
    (by rw [a2, h0]; decide)
  obtain ⟨c1, c2, c3, c4⟩ := put_ok _ ids.VECTOR_DIM_PARAM_ID (dims % 2 ^ 64).toNat b3
    (by rw [b2, a2, h0]; decide)
  unfold parseVectorIdxParams at hok ⊢
  simp only [] at hok ⊢
  rw [if_neg (by rw [a1]; decide), if_neg (by rw [b1]; decide),
    if_neg (by rw [c1]; decide)] at hok ⊢
  obtain ⟨ops, o1, o2, o3, o4, o5⟩ := paramsArgLoop_appends ids ext args _ c3
    (by rw [c2, b2, a2, h0]; decide) hok
  refine ⟨ops, o1, o2, o3, by rw [o4, c2, b2, a2, h0]; omega, ?_⟩
  rw [o5]
  rw [← c2] at c4
  rw [c4]
  rw [← b2] at b4
  rw [b4]
  rw [← a2] at a4
  rw [a4, h0]
  simp

/-- C14: whenever `parseVectorIdxParams` succeeds on an empty record with column element type
`type` and dimension `dims` (non-negative `int` values), the record reads back format = 1,
element type = `type` and dim = `dims`, whatever `key=value` arguments followed, the tag ids
being distinct tags: no user argument overwrites the three seeded tags. -/
theorem C14_seeded_tags_kept {D : Type} (ids : VectorParamIds) (ext : ParamExterns D)
    (rec0 : VectorIdxParams) (type dims : Int) (args : List Expr)
    (hids : SeedTagsDistinct ids)
    (hlen : rec0.pBinBuf.length = VECTOR_INDEX_PARAMS_BUF_SIZE)
    (htype : 0 ≤ type ∧ type < 2 ^ 31) (hdims : 0 ≤ dims ∧ dims < 2 ^ 31)
    (hok : (parseVectorIdxParams ids ext (vectorIdxParamsInit rec0 none 0) type dims args).rc
      = SQLITE_OK) :
    vectorIdxParamsGetU64
      (parseVectorIdxParams ids ext (vectorIdxParamsInit rec0 none 0) type dims args).params
      ids.VECTOR_FORMAT_PARAM_ID = 1 ∧
    vectorIdxParamsGetU64
      (parseVectorIdxParams ids ext (vectorIdxParamsInit rec0 none 0) type dims args).params
      ids.VECTOR_TYPE_PARAM_ID = type.toNat ∧
    vectorIdxParamsGetU64
      (parseVectorIdxParams ids ext (vectorIdxParamsInit rec0 none 0) type dims args).params
      ids.VECTOR_DIM_PARAM_ID = dims.toNat := by
  obtain ⟨hF, hT, hD, hFT, hFD, hTD, hU⟩ := hids
  obtain ⟨ops, o1, o2, o3, o4, o5⟩ :=
    parseVectorIdxParams_entries ids ext rec0 type dims args hlen hok
  obtain ⟨t1, t2⟩ := int_to_u64 type htype.1 htype.2
  obtain ⟨d1, d2⟩ := int_to_u64 dims hdims.1 hdims.2
  rw [t1, d1] at o5
  have hvals : ∀ e ∈ ((ids.VECTOR_FORMAT_PARAM_ID, VECTOR_FORMAT_DEFAULT) ::
      (ids.VECTOR_TYPE_PARAM_ID, type.toNat) :: (ids.VECTOR_DIM_PARAM_ID, dims.toNat) :: ops),
      e.2 < 2 ^ 64 := by
    intro e he
    simp only [List.mem_cons] at he
    rcases he with h | h | h | h
    · rw [h]; exact (by decide : VECTOR_FORMAT_DEFAULT < 2 ^ 64)
    · rw [h]; exact t2
    · rw [h]; exact d2
    · exact (o1 e h).2
  have hget := fun tag => getU64_of_entries _ tag _ o5 hvals (by rw [o4]; simp) (by rw [o2]; exact o3)
  have hops : ∀ (x : Int), (x = ids.VECTOR_FORMAT_PARAM_ID ∨ x = ids.VECTOR_TYPE_PARAM_ID ∨
      x = ids.VECTOR_DIM_PARAM_ID) → ∀ op ∈ ops, isChar op.1 ∧ op.1 ≠ x := by
    intro x hx op hop
    obtain ⟨u1, u2, u3, u4⟩ := hU op.1 (o1 op hop).1
    rcases hx with h | h | h <;> rw [h]
    · exact ⟨u1, u2⟩
    · exact ⟨u1, u3⟩
    · exact ⟨u1, u4⟩
  have cF : isChar ids.VECTOR_FORMAT_PARAM_ID := by unfold isChar; omega
  have cT : isChar ids.VECTOR_TYPE_PARAM_ID := by unfold isChar; omega
  have cD : isChar ids.VECTOR_DIM_PARAM_ID := by unfold isChar; omega
  refine ⟨?_, ?_, ?_⟩
  · rw [hget]
    apply scanEntries_last _ hF [] _ _ 0
    intro op hop
    simp only [List.mem_cons] at hop
    rcases hop with h | h | h
    · rw [h]; exact ⟨cT, fun e => hFT e.symm⟩
    · rw [h]; exact ⟨cD, fun e => hFD e.symm⟩
    · exact hops _ (Or.inl rfl) op h
  · rw [hget]
    apply scanEntries_last _ hT [(ids.VECTOR_FORMAT_PARAM_ID, VECTOR_FORMAT_DEFAULT)] _ _ 0
    intro op hop
    simp only [List.mem_cons] at hop
    rcases hop with h | h
    · rw [h]; exact ⟨cD, fun e => hTD e.symm⟩
    · exact hops _ (Or.inr (Or.inl rfl)) op h
  · rw [hget]
    apply scanEntries_last _ hD [(ids.VECTOR_FORMAT_PARAM_ID, VECTOR_FORMAT_DEFAULT),
      (ids.VECTOR_TYPE_PARAM_ID, type.toNat)] _ _ 0
    intro op hop
    exact hops _ (Or.inr (Or.inr rfl)) op hop

set_option maxRecDepth 8000 in
/-- Witness for C14: an F32 column of dimension 3 with the argument `metric=l2`. -/
theorem C14_seeded_tags_kept_witness :
    vectorIdxParamsGetU64
      (parseVectorIdxParams sampleIds sampleExterns
        (vectorIdxParamsInit ⟨List.replicate 128 0, 0⟩ none 0) 1 3
        [.node .TK_STRING (bytes "metric=l2") none 0]).params 4 = 3 :=
  (C14_seeded_tags_kept sampleIds sampleExterns ⟨List.replicate 128 0, 0⟩ 1 3
    [.node .TK_STRING (bytes "metric=l2") none 0] (by decide)
    (List.length_replicate 128 0) (by decide) (by decide) (by decide)).2.2


/-! ### Index creation -/

/-- The comparison `sqlite3StrICmp` against a name without NUL bytes gives 0 exactly for the
C strings that equal the name up to letter case. -/
theorem strICmp_eq_zero (z : List Nat) :
    ∀ m : List Nat, 0 ∉ m → (sqlite3StrICmp z m = 0 ↔ EqIgnoreCase (cstr z) m) := by
  induction z with
  | nil =>
    intro m h0
    cases m with
    | nil => simp [sqlite3StrICmp, deref, cstr, EqIgnoreCase]
    | cons d m =>
      have hd : d ≠ 0 := fun e => h0 (by rw [e]; exact List.mem_cons_self _ _)
      have hl : sqlite3UpperToLower d ≠ 0 := fun e => hd ((lower_eq_zero d).mp e)
      have h00 : sqlite3UpperToLower 0 = 0 := by decide
      simp only [sqlite3StrICmp, deref, List.headD_cons, h00, cstr, List.takeWhile_nil,
        EqIgnoreCase, List.map_nil, List.map_cons]
      constructor
      · intro h; exfalso; omega
      · intro h; simp at h
  | cons c z ih =>
    intro m h0
    cases m with
    | nil =>
      have hd : deref ([] : List Nat) = 0 := rfl
      by_cases hc : c = 0
      · subst hc
        simp [sqlite3StrICmp, hd, cstr, EqIgnoreCase]
      · have hl : sqlite3UpperToLower c ≠ 0 := fun e => hc ((lower_eq_zero c).mp e)
        have h00 : sqlite3UpperToLower 0 = 0 := by decide
        have hcs : cstr (c :: z) = c :: cstr z := by simp [cstr, hc]
        rw [hcs]
        simp only [sqlite3StrICmp, hd, if_neg hc, h00, EqIgnoreCase, List.map_nil,
          List.map_cons]
        constructor
        · intro h; split_ifs at h <;> omega
        · intro h; simp at h
    | cons d m =>
      have hd0 : d ≠ 0 := fun e => h0 (by rw [e]; exact List.mem_cons_self _ _)
      have hm0 : 0 ∉ m := fun e => h0 (List.mem_cons_of_mem _ e)
      have hd : deref (d :: m) = d := rfl
      have ht : (d :: m).tail = m := rfl
      by_cases hcd : c = d
      · subst hcd
        have hcs : cstr (c :: z) = c :: cstr z := by simp [cstr, hd0]
        rw [hcs]
        simp only [sqlite3StrICmp, hd, ht, if_true, if_neg hd0]
        rw [ih m hm0]
        simp [EqIgnoreCase]
      · by_cases hl : sqlite3UpperToLower c = sqlite3UpperToLower d
        · have hc0 : c ≠ 0 := by
            intro e
            rw [e] at hl
            have h00 : sqlite3UpperToLower 0 = 0 := by decide
            rw [h00] at hl
            exact hd0 ((lower_eq_zero d).mp hl.symm)
          have hcs : cstr (c :: z) = c :: cstr z := by simp [cstr, hc0]
          rw [hcs]
          have hz : ¬ ((sqlite3UpperToLower c : Int) - (sqlite3UpperToLower d : Int) ≠ 0) := by
            rw [hl]; simp
          simp only [sqlite3StrICmp, hd, ht, if_neg hcd, if_neg hz]
          rw [ih m hm0]
          simp [EqIgnoreCase, hl]
        · have hz : (sqlite3UpperToLower c : Int) - (sqlite3UpperToLower d : Int) ≠ 0 := by
            intro e
            apply hl
            omega
          simp only [sqlite3StrICmp, hd, if_neg hcd, if_pos hz]
          constructor
          · intro h; exact absurd h hz
          · intro h
            exfalso
            by_cases hc0 : c = 0
            · subst hc0
              simp [cstr, EqIgnoreCase] at h
            · have hcs : cstr (c :: z) = c :: cstr z := by simp [cstr, hc0]
              rw [hcs] at h
              simp only [EqIgnoreCase, List.map_cons, List.cons.injEq] at h
              exact hl h.1

/-- The test of the loop body of `vectorIndexCreate`, made on the expression that the loop
over `COLLATE` operators ends at, holds exactly for a top-level marker call. -/
theorem marker_test : (e : Expr) →
    (((stripCollate e).1.opIs .TK_FUNCTION = true ∧
      sqlite3StrICmp (stripCollate e).1.zToken VECTOR_INDEX_MARKER_FUNCTION = 0) ↔
    IsMarkerCall e)
  | .collate p => by
    have h := marker_test p
    simp only [stripCollate, IsMarkerCall]
    exact h
  | .node op z l i => by
    cases op <;>
      simp [stripCollate, IsMarkerCall, Expr.opIs, Expr.zToken,
        strICmp_eq_zero z VECTOR_INDEX_MARKER_FUNCTION (by decide)]

theorem scanColExprs_fst (l : List Expr) :
    ∀ s : Bool × Bool, (scanColExprs l s).1 = true ↔ (s.1 = true ∨ HasMarker l) := by
  induction l with
  | nil => intro s; simp [scanColExprs, HasMarker]
  | cons e l ih =>
    intro s
    rw [scanColExprs, ih]
    simp only [HasMarker, List.mem_cons, exists_eq_or_imp]
    rw [← marker_test e]
    by_cases hm : (stripCollate e).1.opIs .TK_FUNCTION = true ∧
        sqlite3StrICmp (stripCollate e).1.zToken VECTOR_INDEX_MARKER_FUNCTION = 0
    · simp [hm]
    · rw [if_neg hm]
      simp only [hm, false_or]

theorem scanColExprs_snd (l : List Expr) :
    ∀ s : Bool × Bool, (scanColExprs l s).2 = true ↔
      (s.2 = true ∨ ∃ e ∈ l, (stripCollate e).2 = true) := by
  induction l with
  | nil => intro s; simp [scanColExprs]
  | cons e l ih =>
    intro s
    rw [scanColExprs, ih]
    simp only [List.mem_cons, exists_eq_or_imp]
    by_cases hc : (stripCollate e).2 = true
    · simp [hc]
    · simp [hc]

theorem stripCollate_snd (e : Expr) : (stripCollate e).2 = e.isCollate := by
  cases e <;> rfl

/-- The loop over the indexed expressions sets `hasLibsqlVectorIdxFn` exactly when one of
them is a top-level marker call. -/
theorem scan_marker (l : List Expr) :
    (scanColExprs l (false, false)).1 = true ↔ HasMarker l := by
  rw [scanColExprs_fst]
  simp

/-- The loop over the indexed expressions sets `hasCollation` exactly when one of them is a
`COLLATE` operator. -/
theorem scan_collate (l : List Expr) :
    (scanColExprs l (false, false)).2 = true ↔ ∃ e ∈ l, e.isCollate = true := by
  rw [scanColExprs_snd]
  simp [stripCollate_snd]

/-- Outside VACUUM, in normal parse mode and without a USING clause, `vectorIndexCreate` on
an index with expression columns is the chain of tests of lines 833-851 followed by
`createArgs` on the argument list of the first indexed expression. -/
theorem vectorIndexCreate_chain {D E : Type} (V : Nat) (ids : VectorParamIds)
    (ext : ParamExterns E) (host : Host) (pParse : Parse) (pIdx : Index) (zDbSName : List Nat)
    (l : List Expr) (hv : pParse.db.isVacuum = false) (hm : pParse.eParseMode = 0)
    (hcol : pIdx.aColExpr = some l) :
    (vectorIndexCreate V ids ext host pParse pIdx zDbSName none : Option (CreateResult D)) =
      if ¬ HasMarker l then some (createReturn V pIdx .ignore [] [])
      else if ∃ e ∈ l, e.isCollate = true then
        some (createReturn V pIdx .fail [.cantHaveCollation] [])
      else if l.length ≠ 1 then some (createReturn V pIdx .fail [.exactlyOneColumn] [])
      else if pIdx.pPartIdxWhere.isSome = true then
        some (createReturn V pIdx .fail [.partialNotSupported] [])
      else
        createArgs V ids ext host pParse pIdx zDbSName
          (vectorIdxParamsInit ⟨host.idxParamsStack, 0⟩ none 0) (l.head?.bind Expr.pList) := by
  have hnu1 : ¬ (pParse.db.initBusy = 0 ∧ (none : Option (List (List Nat))).isSome = true) := by
    simp
  have hnu2 : ¬ (pParse.db.initBusy = 1 ∧ (none : Option (List (List Nat))).isSome = true) := by
    simp
  have hm2 : ¬ (pParse.eParseMode ≠ 0) := by simp [hm]
  unfold vectorIndexCreate
  simp only [hv, Bool.false_eq_true, if_false, if_neg hm2, if_neg hnu1, if_neg hnu2, hcol]
  by_cases h1 : HasMarker l
  · have g1 : ¬ ¬ (scanColExprs l (false, false)).1 = true := by
      rw [scan_marker]; exact fun h => h h1
    have g1b : ¬ ¬ HasMarker l := fun h => h h1
    rw [if_neg g1, if_neg g1b]
    by_cases h2 : ∃ e ∈ l, e.isCollate = true
    · rw [if_pos ((scan_collate l).mpr h2), if_pos h2]
    · have g2 : ¬ (scanColExprs l (false, false)).2 = true := fun h => h2 ((scan_collate l).mp h)
      rw [if_neg g2, if_neg h2]
  · have g1 : ¬ (scanColExprs l (false, false)).1 = true := fun h => h1 ((scan_marker l).mp h)
    rw [if_pos g1, if_pos h1]

/-- Outside VACUUM, in normal parse mode and without a USING clause, an index without a
top-level marker call is ignored: `vectorIndexCreate` returns 0, leaves the index type
unchanged, reports nothing and makes no call. -/
theorem vectorIndexCreate_ignores {D E : Type} (V : Nat) (ids : VectorParamIds)
    (ext : ParamExterns E) (host : Host) (pParse : Parse) (pIdx : Index) (zDbSName : List Nat)
    (hv : pParse.db.isVacuum = false) (hm : pParse.eParseMode = 0)
    (hno : ∀ l, pIdx.aColExpr = some l → ¬ HasMarker l) :
    (vectorIndexCreate V ids ext host pParse pIdx zDbSName none : Option (CreateResult D)) =
      some ⟨0, pIdx.idxType, [], []⟩ := by
  cases hcol : pIdx.aColExpr with
  | none =>
    have hnu1 : ¬ (pParse.db.initBusy = 0 ∧
        (none : Option (List (List Nat))).isSome = true) := by simp
    have hnu2 : ¬ (pParse.db.initBusy = 1 ∧
        (none : Option (List (List Nat))).isSome = true) := by simp
    have hm2 : ¬ (pParse.eParseMode ≠ 0) := by simp [hm]
    unfold vectorIndexCreate
    simp only [hv, Bool.false_eq_true, if_false, if_neg hm2, if_neg hnu1, if_neg hnu2, hcol]
    rfl
  | some l =>
    rw [vectorIndexCreate_chain V ids ext host pParse pIdx zDbSName l hv hm hcol,
      if_pos (hno l hcol)]
    rfl

/-- Leaving through a label other than `ignore` fails without marking the index, or marks
it and returns 0 or 1. -/
theorem createReturn_claims {D : Type} (V : Nat) (pIdx : Index) (label : CreateExit)
    (errMsgs : List IdxErr) (trace : List (Effect D)) (h : label ≠ .ignore) :
    ((createReturn V pIdx label errMsgs trace).rc = -1 ∧
      (createReturn V pIdx label errMsgs trace).idxType = pIdx.idxType) ∨
    ((createReturn V pIdx label errMsgs trace).idxType = V ∧
      ((createReturn V pIdx label errMsgs trace).rc = 0 ∨
        (createReturn V pIdx label errMsgs trace).rc = 1)) := by
  cases label
  · right; exact ⟨rfl, Or.inl rfl⟩
  · exact absurd rfl h
  · right; exact ⟨rfl, Or.inr rfl⟩
  · left; exact ⟨rfl, rfl⟩

theorem createStore_claims {D : Type} (V : Nat) (host : Host) (pIdx : Index)
    (zDbSName : List Nat) (idxKey : VectorIdxKey) (idxParams : VectorIdxParams)
    (errMsgs : List IdxErr) (trace : List (Effect D)) :
    ((createStore V host pIdx zDbSName idxKey idxParams errMsgs trace).rc = -1 ∧
      (createStore V host pIdx zDbSName idxKey idxParams errMsgs trace).idxType =
        pIdx.idxType) ∨
    ((createStore V host pIdx zDbSName idxKey idxParams errMsgs trace).idxType = V ∧
      ((createStore V host pIdx zDbSName idxKey idxParams errMsgs trace).rc = 0 ∨
        (createStore V host pIdx zDbSName idxKey idxParams errMsgs trace).rc = 1)) := by
  unfold createStore
  simp only
  split_ifs <;> exact createReturn_claims _ _ _ _ _ (by decide)

theorem createPersist_claims {D E : Type} (V : Nat) (ids : VectorParamIds)
    (ext : ParamExterns E) (host : Host) (pIdx : Index) (zDbSName : List Nat)
    (idxParams : VectorIdxParams) (type dims : Int) (pArgs : List Expr) :
    ((createPersist V ids ext host pIdx zDbSName idxParams type dims pArgs :
        CreateResult D).rc = -1 ∧
      (createPersist V ids ext host pIdx zDbSName idxParams type dims pArgs :
        CreateResult D).idxType = pIdx.idxType) ∨
    ((createPersist V ids ext host pIdx zDbSName idxParams type dims pArgs :
        CreateResult D).idxType = V ∧
      ((createPersist V ids ext host pIdx zDbSName idxParams type dims pArgs :
        CreateResult D).rc = 0 ∨
       (createPersist V ids ext host pIdx zDbSName idxParams type dims pArgs :
        CreateResult D).rc = 1)) := by
  unfold createPersist
  simp only
  split_ifs
  · exact createReturn_claims _ _ _ _ _ (by decide)
  · exact createReturn_claims _ _ _ _ _ (by decide)
  · split
    · exact createReturn_claims _ _ _ _ _ (by decide)
    · split_ifs
      · exact createReturn_claims _ _ _ _ _ (by decide)
      · exact createStore_claims _ _ _ _ _ _ _ _

/-- The exits of `createArgs`: on the `NULL` argument list it does not return, and every
result it returns is a failure that leaves the index type unchanged or a success that
marks the index. -/
theorem createArgs_claims {D E : Type} (V : Nat) (ids : VectorParamIds)
    (ext : ParamExterns E) (host : Host) (pParse : Parse) (pIdx : Index) (zDbSName : List Nat)
    (idxParams : VectorIdxParams) (pArgsList : Option (List Expr)) (r : CreateResult D)
    (h : createArgs V ids ext host pParse pIdx zDbSName idxParams pArgsList = some r) :
    pArgsList ≠ none ∧
    ((r.rc = -1 ∧ r.idxType = pIdx.idxType) ∨ (r.idxType = V ∧ (r.rc = 0 ∨ r.rc = 1))) := by
  unfold createArgs at h
  split at h
  · exact absurd h (by simp)
  · refine ⟨by simp, ?_⟩
    rw [← Option.some.inj h]
    exact createReturn_claims _ _ _ _ _ (by decide)
  · refine ⟨by simp, ?_⟩
    simp only at h
    split_ifs at h <;> rw [← Option.some.inj h] <;>
      first
        | exact createReturn_claims _ _ _ _ _ (by decide)
        | exact createPersist_claims _ _ _ _ _ _ _ _ _ _

/-- Outside VACUUM, in normal parse mode and without a USING clause, every result that
`vectorIndexCreate` returns for an index with a top-level marker call is a failure (-1) that
leaves the index type unchanged or a success (0 or 1) that marks the index as a vector
index. -/
theorem vectorIndexCreate_claims {D E : Type} (V : Nat) (ids : VectorParamIds)
    (ext : ParamExterns E) (host : Host) (pParse : Parse) (pIdx : Index) (zDbSName : List Nat)
    (l : List Expr) (r : CreateResult D)
    (hv : pParse.db.isVacuum = false) (hm : pParse.eParseMode = 0)
    (hcol : pIdx.aColExpr = some l) (hmark : HasMarker l)
    (h : vectorIndexCreate V ids ext host pParse pIdx zDbSName none = some r) :
    (r.rc = -1 ∧ r.idxType = pIdx.idxType) ∨ (r.idxType = V ∧ (r.rc = 0 ∨ r.rc = 1)) := by
  rw [vectorIndexCreate_chain V ids ext host pParse pIdx zDbSName l hv hm hcol,
    if_neg (fun hn => hn hmark)] at h
  split_ifs at h
  · rw [← Option.some.inj h]; exact createReturn_claims _ _ _ _ _ (by decide)
  · rw [← Option.some.inj h]; exact createReturn_claims _ _ _ _ _ (by decide)
  · rw [← Option.some.inj h]; exact createReturn_claims _ _ _ _ _ (by decide)
  · exact (createArgs_claims _ _ _ _ _ _ _ _ _ r h).2

/-- C15: a call of the marker without arguments, as in `CREATE INDEX idx ON t
(libsql_vector_idx())`, is a top-level marker call, so the index is to be claimed: marked as
a vector index or refused with an error. Outside VACUUM, in normal parse mode, without a
USING clause and without a partial-index `WHERE` clause, `vectorIndexCreate` does neither:
it comes to the test `pArgsList->nExpr < 1` with `pArgsList` the `NULL` argument list of
the call and does not return. -/
theorem C15_marker_without_arguments_not_handled {D E : Type} (V : Nat)
    (ids : VectorParamIds) (ext : ParamExterns E) (host : Host) (pParse : Parse) (pIdx : Index)
    (zDbSName z : List Nat) (i : Int)
    (hv : pParse.db.isVacuum = false) (hm : pParse.eParseMode = 0)
    (hcol : pIdx.aColExpr = some [.node .TK_FUNCTION z none i])
    (hname : EqIgnoreCase (cstr z) VECTOR_INDEX_MARKER_FUNCTION)
    (hpart : pIdx.pPartIdxWhere = none) :
    HasMarker [.node .TK_FUNCTION z none i] ∧
    (vectorIndexCreate V ids ext host pParse pIdx zDbSName none : Option (CreateResult D)) =
      none := by
  have hmark : HasMarker [.node .TK_FUNCTION z none i] :=
    ⟨_, List.mem_singleton.mpr rfl, by unfold IsMarkerCall; exact ⟨rfl, hname⟩⟩
  refine ⟨hmark, ?_⟩
  have h2 : ¬ ∃ e ∈ [Expr.node .TK_FUNCTION z none i], e.isCollate = true := by
    rintro ⟨e, he, hc⟩
    rw [List.mem_singleton.mp he] at hc
    exact absurd (show false = true from hc) (by decide)
  have h3 : ¬ ([Expr.node .TK_FUNCTION z none i].length ≠ 1) := by simp
  have h4 : ¬ (pIdx.pPartIdxWhere.isSome = true) := by rw [hpart]; simp
  rw [vectorIndexCreate_chain V ids ext host pParse pIdx zDbSName _ hv hm hcol,
    if_neg (fun hn => hn hmark), if_neg h2, if_neg h3, if_neg h4]
  rfl

/-- Instance of C15: on the index `libsql_vector_idx()` over the sample table, a fresh
create does not return. -/
theorem C15_marker_without_arguments_not_handled_witness :
    HasMarker [.node .TK_FUNCTION (bytes "libsql_vector_idx") none 0] ∧
    (vectorIndexCreate 4 sampleIds sampleExterns sampleHost (sampleParse 0)
      (sampleIndex [.node .TK_FUNCTION (bytes "libsql_vector_idx") none 0] none)
      (bytes "main") none : Option (CreateResult Nat)) = none :=
  C15_marker_without_arguments_not_handled 4 sampleIds sampleExterns sampleHost
    (sampleParse 0) (sampleIndex [.node .TK_FUNCTION (bytes "libsql_vector_idx") none 0] none)
    (bytes "main") (bytes "libsql_vector_idx") 0 rfl rfl rfl (by decide) rfl

theorem createReturn_errMsgs {D : Type} (V : Nat) (pIdx : Index) (label : CreateExit)
    (errMsgs : List IdxErr) (trace : List (Effect D)) :
    (createReturn V pIdx label errMsgs trace).errMsgs = errMsgs := by
  cases label <;> rfl

theorem paramsArgLoop_no_collation {E : Type} (ids : VectorParamIds) (ext : ParamExterns E)
    (l : List Expr) :
    ∀ p : VectorIdxParams, IdxErr.cantHaveCollation ∉ (paramsArgLoop ids ext p l).errMsgs := by
  induction l with
  | nil => intro p; simp [paramsArgLoop]
  | cons a l ih =>
    intro p
    rw [paramsArgLoop]
    by_cases c1 : ¬ a.opIs .TK_STRING = true
    · rw [if_pos c1]; simp
    · rw [if_neg c1]
      by_cases c2 : (parseVectorIdxParam ids ext a.zToken p).rc ≠ 0
      · rw [if_pos c2]; simp
      · rw [if_neg c2]; exact ih _

theorem parseVectorIdxParams_no_collation {E : Type} (ids : VectorParamIds)
    (ext : ParamExterns E) (p : VectorIdxParams) (type dims : Int) (l : List Expr) :
    IdxErr.cantHaveCollation ∉ (parseVectorIdxParams ids ext p type dims l).errMsgs := by
  unfold parseVectorIdxParams
  simp only
  split_ifs
  · simp
  · simp
  · simp
  · exact paramsArgLoop_no_collation ids ext l _

theorem createStore_no_collation {D : Type} (V : Nat) (host : Host) (pIdx : Index)
    (zDbSName : List Nat) (idxKey : VectorIdxKey) (idxParams : VectorIdxParams)
    (errMsgs : List IdxErr) (trace : List (Effect D))
    (h : IdxErr.cantHaveCollation ∉ errMsgs) :
    IdxErr.cantHaveCollation ∉
      (createStore V host pIdx zDbSName idxKey idxParams errMsgs trace).errMsgs := by
  unfold createStore
  simp only
  split_ifs <;> rw [createReturn_errMsgs] <;> simp [h]

theorem createPersist_no_collation {D E : Type} (V : Nat) (ids : VectorParamIds)
    (ext : ParamExterns E) (host : Host) (pIdx : Index) (zDbSName : List Nat)
    (idxParams : VectorIdxParams) (type dims : Int) (pArgs : List Expr) :
    IdxErr.cantHaveCollation ∉
      (createPersist V ids ext host pIdx zDbSName idxParams type dims pArgs :
        CreateResult D).errMsgs := by
  have hp := parseVectorIdxParams_no_collation ids ext idxParams type dims pArgs
  unfold createPersist
  simp only
  split_ifs
  · rw [createReturn_errMsgs]; simp
  · rw [createReturn_errMsgs]; simp [hp]
  · split
    · rw [createReturn_errMsgs]; simp [hp]
    · split_ifs
      · rw [createReturn_errMsgs]; simp [hp]
      · exact createStore_no_collation _ _ _ _ _ _ _ _ hp

theorem createArgs_no_collation {D E : Type} (V : Nat) (ids : VectorParamIds)
    (ext : ParamExterns E) (host : Host) (pParse : Parse) (pIdx : Index) (zDbSName : List Nat)
    (idxParams : VectorIdxParams) (pArgsList : Option (List Expr)) (r : CreateResult D)
    (h : createArgs V ids ext host pParse pIdx zDbSName idxParams pArgsList = some r) :
    IdxErr.cantHaveCollation ∉ r.errMsgs := by
  unfold createArgs at h
  split at h
  · exact absurd h (by simp)
  · rw [← Option.some.inj h, createReturn_errMsgs]; simp
  · simp only at h
    split_ifs at h <;> rw [← Option.some.inj h] <;>
      first
        | exact createPersist_no_collation _ _ _ _ _ _ _ _ _ _
        | (rw [createReturn_errMsgs]; simp)

/-- Counterexample to C16 as stated: on a fresh create of the index
`libsql_vector_idx(v, 'metric=cosine' COLLATE NOCASE)` over a column of type `F32_BLOB(3)`,
whose indexed expression is a marker call with a `COLLATE` operator on its second argument,
`vectorIndexCreate` returns -1 with the messages `all arguments after first must be strings`
and `failed to parse vector idx params`, not `vector index can't have collation`, and it has
created the metadata table before. -/
theorem C16_counterexample :
    IsMarkerCall (markerCall [sampleColumn, .collate (stringLiteral "metric=cosine")]) ∧
    (markerCall [sampleColumn, .collate (stringLiteral "metric=cosine")]).containsCollate =
      true ∧
    (vectorIndexCreate 4 sampleIds sampleExterns sampleHost (sampleParse 0)
      (sampleIndex [markerCall [sampleColumn, .collate (stringLiteral "metric=cosine")]] none)
      (bytes "main") none : Option (CreateResult Nat)) =
        some ⟨-1, 0, [.argsMustBeStrings, .parseParams],
          [.execCreateMetaTable (bytes "main")]⟩ := by
  refine ⟨by decide, by decide, rfl⟩

/-- C16, amended: on a fresh create (no VACUUM, normal parse mode, no USING clause,
`init.busy = 0`) of an index with a top-level marker call, `vectorIndexCreate` fails with
the error `vector index can't have collation` when one of the indexed expressions is itself
a `COLLATE` operator: it returns -1 with exactly this message, leaves the index type
unchanged and makes no call. When none of the indexed expressions is itself a `COLLATE`
operator, no result of `vectorIndexCreate` carries this error, whatever the arguments of
the marker contain. -/
theorem C16_collation_error_only_at_top_level {D E : Type} (V : Nat) (ids : VectorParamIds)
    (ext : ParamExterns E) (host : Host) (pParse : Parse) (pIdx : Index) (zDbSName : List Nat)
    (l : List Expr) (hv : pParse.db.isVacuum = false) (hm : pParse.eParseMode = 0)
    (hb : pParse.db.initBusy = 0)
    (hcol : pIdx.aColExpr = some l) (hmark : HasMarker l) :
    ((∃ e ∈ l, e.isCollate = true) →
      (vectorIndexCreate V ids ext host pParse pIdx zDbSName none :
        Option (CreateResult D)) = some ⟨-1, pIdx.idxType, [.cantHaveCollation], []⟩) ∧
    ((∀ e ∈ l, e.isCollate = false) →
      ∀ r : CreateResult D,
        vectorIndexCreate V ids ext host pParse pIdx zDbSName none = some r →
        IdxErr.cantHaveCollation ∉ r.errMsgs) := by
  have _hfresh := hb
  have hchain := vectorIndexCreate_chain (D := D) V ids ext host pParse pIdx zDbSName l hv hm
    hcol
  rw [if_neg (fun hn => hn hmark)] at hchain
  constructor
  · intro hc
    rw [hchain, if_pos hc]
    rfl
  · intro hnone r hr
    have h2 : ¬ ∃ e ∈ l, e.isCollate = true := by
      rintro ⟨e, he, hc⟩
      rw [hnone e he] at hc
      exact absurd hc (by decide)
    rw [hchain, if_neg h2] at hr
    split_ifs at hr
    · rw [← Option.some.inj hr, createReturn_errMsgs]; simp
    · rw [← Option.some.inj hr, createReturn_errMsgs]; simp
    · exact createArgs_no_collation _ _ _ _ _ _ _ _ _ r hr

/-- Instance of C16: a fresh create of the index on `libsql_vector_idx(v) COLLATE ...` fails
with the collation error; the result of a fresh create of the index on
`libsql_vector_idx(v, 'metric=cosine' COLLATE ...)` does not carry it. -/
theorem C16_collation_error_only_at_top_level_witness :
    (vectorIndexCreate 4 sampleIds sampleExterns sampleHost (sampleParse 0)
      (sampleIndex [.collate (markerCall [sampleColumn])] none)
      (bytes "main") none : Option (CreateResult Nat)) =
        some ⟨-1, 0, [.cantHaveCollation], []⟩ ∧
    (vectorIndexCreate 4 sampleIds sampleExterns sampleHost (sampleParse 0)
      (sampleIndex [markerCall [sampleColumn, .collate (stringLiteral "metric=cosine")]] none)
      (bytes "main") none : Option (CreateResult Nat)) =
        some ⟨-1, 0, [.argsMustBeStrings, .parseParams],
          [.execCreateMetaTable (bytes "main")]⟩ ∧
    IdxErr.cantHaveCollation ∉
      ([.argsMustBeStrings, .parseParams] : List IdxErr) :=
  ⟨(C16_collation_error_only_at_top_level 4 sampleIds sampleExterns sampleHost
      (sampleParse 0) (sampleIndex [.collate (markerCall [sampleColumn])] none) (bytes "main")
      [.collate (markerCall [sampleColumn])] rfl rfl rfl rfl (by decide)).1
      ⟨_, List.mem_singleton.mpr rfl, rfl⟩,
    rfl,
    (C16_collation_error_only_at_top_level (D := Nat) 4 sampleIds sampleExterns sampleHost
      (sampleParse 0)
      (sampleIndex [markerCall [sampleColumn, .collate (stringLiteral "metric=cosine")]] none)
      (bytes "main")
      [markerCall [sampleColumn, .collate (stringLiteral "metric=cosine")]]
      rfl rfl rfl rfl (by decide)).2
      (by
        intro e he
        rw [List.mem_singleton.mp he]
        rfl)
      ⟨-1, 0, [.argsMustBeStrings, .parseParams], [.execCreateMetaTable (bytes "main")]⟩
      rfl⟩

/-- On an index whose only indexed expression is a marker call on a column with a declared
type that matches the column type syntax, with no partial-index `WHERE` clause and no USING
clause, `vectorIndexCreate` outside VACUUM and in normal parse mode reaches line 878: it
leaves through `ok` while the schema is loaded and goes on to persist otherwise. -/
theorem vectorIndexCreate_wellformed {D E : Type} (V : Nat) (ids : VectorParamIds)
    (ext : ParamExterns E) (host : Host) (pParse : Parse) (pIdx : Index) (zDbSName : List Nat)
    (z zc : List Nat) (lc : Option (List Expr)) (args : List Expr) (i ic : Int) (col : Column)
    (nBits dims : Nat)
    (hv : pParse.db.isVacuum = false) (hm : pParse.eParseMode = 0)
    (hcol : pIdx.aColExpr =
      some [.node .TK_FUNCTION z (some (.node .TK_COLUMN zc lc ic :: args)) i])
    (hname : EqIgnoreCase (cstr z) VECTOR_INDEX_MARKER_FUNCTION)
    (hpart : pIdx.pPartIdxWhere = none) (hic : 0 ≤ ic)
    (hget : pIdx.pTable.aCol.get? ic.toNat = some col)
    (hty : ColumnTypeSyntax col.zType nBits dims) :
    (vectorIndexCreate V ids ext host pParse pIdx zDbSName none : Option (CreateResult D)) =
      some (if pParse.db.initBusy = 1 then createReturn V pIdx .ok [] []
        else
          createPersist V ids ext host pIdx zDbSName
            (vectorIdxParamsInit ⟨host.idxParamsStack, 0⟩ none 0)
            ((if nBits = 32 then VECTOR_TYPE_FLOAT32 else VECTOR_TYPE_FLOAT64 : Nat) : Int)
            (dims : Int) args) := by
  have hmark : HasMarker [.node .TK_FUNCTION z (some (.node .TK_COLUMN zc lc ic :: args)) i] :=
    ⟨_, List.mem_singleton.mpr rfl, by unfold IsMarkerCall; exact ⟨rfl, hname⟩⟩
  have h2 : ¬ ∃ e ∈ [Expr.node .TK_FUNCTION z (some (.node .TK_COLUMN zc lc ic :: args)) i],
      e.isCollate = true := by
    rintro ⟨e, he, hc⟩
    rw [List.mem_singleton.mp he] at hc
    exact absurd (show false = true from hc) (by decide)
  have h3 : ¬ ([Expr.node .TK_FUNCTION z (some (.node .TK_COLUMN zc lc ic :: args)) i].length
      ≠ 1) := by simp
  have h4 : ¬ (pIdx.pPartIdxWhere.isSome = true) := by rw [hpart]; simp
  have hhead : (([Expr.node .TK_FUNCTION z (some (.node .TK_COLUMN zc lc ic :: args)) i] :
      List Expr).head?.bind Expr.pList) = some (.node .TK_COLUMN zc lc ic :: args) := rfl
  rw [vectorIndexCreate_chain V ids ext host pParse pIdx zDbSName _ hv hm hcol,
    if_neg (fun hn => hn hmark), if_neg h2, if_neg h3, if_neg h4, hhead]
  have hop : ¬ ¬ (Expr.node .TK_COLUMN zc lc ic).opIs .TK_COLUMN = true := by
    simp [Expr.opIs]
  have hcolumn : (Expr.node .TK_COLUMN zc lc ic).iColumn = ic := rfl
  have hneg : ¬ ic < 0 := by omega
  have hparse := parseColumnType_of_grammar col.zType nBits dims hty
  have hrc : ¬ ((vectorIdxParseColumnType col.zType).rc ≠ 0) := by
    rw [hparse]; simp
  unfold createArgs
  simp only [if_neg hop, hcolumn, if_neg hneg, hget, Option.map_some', Option.getD_some,
    if_neg hrc]
  rw [hparse]
  by_cases hb : pParse.db.initBusy = 1
  · rw [if_pos hb, if_pos hb]
  · rw [if_neg hb, if_neg hb]
    rfl

/-- C18: while the schema is being loaded (`init.busy = 1`, no VACUUM, normal parse mode),
`vectorIndexCreate` accepts an index with a USING clause, and an index whose only indexed
expression is a marker call on a column whose declared type matches the column type syntax,
with no partial-index `WHERE` clause: it returns 0 (not the refill-skipping 1), marks the
index as a vector index, reports nothing and makes no call at all, so the metadata table is
not created, the graph engine is not asked to create anything and no parameter row is
inserted. -/
theorem C18_schema_replay_accepts {D E : Type} (V : Nat) (ids : VectorParamIds)
    (ext : ParamExterns E) (host : Host) (pParse : Parse) (pIdx : Index) (zDbSName : List Nat)
    (pUsing : Option (List (List Nat))) (z zc : List Nat) (lc : Option (List Expr))
    (args : List Expr) (i ic : Int) (col : Column) (nBits dims : Nat)
    (hv : pParse.db.isVacuum = false) (hm : pParse.eParseMode = 0)
    (hb : pParse.db.initBusy = 1)
    (h : pUsing.isSome = true ∨
      (pUsing = none ∧
        pIdx.aColExpr =
          some [.node .TK_FUNCTION z (some (.node .TK_COLUMN zc lc ic :: args)) i] ∧
        EqIgnoreCase (cstr z) VECTOR_INDEX_MARKER_FUNCTION ∧ pIdx.pPartIdxWhere = none ∧
        0 ≤ ic ∧ pIdx.pTable.aCol.get? ic.toNat = some col ∧
        ColumnTypeSyntax col.zType nBits dims)) :
    (vectorIndexCreate V ids ext host pParse pIdx zDbSName pUsing :
      Option (CreateResult D)) = some ⟨0, V, [], []⟩ := by
  have hm2 : ¬ (pParse.eParseMode ≠ 0) := by simp [hm]
  rcases h with hu | ⟨hu, hcol, hname, hpart, hic, hget, hty⟩
  · have hnu1 : ¬ (pParse.db.initBusy = 0 ∧ pUsing.isSome = true) := by
      rw [hb]; simp
    have hnu2 : pParse.db.initBusy = 1 ∧ pUsing.isSome = true := ⟨hb, hu⟩
    unfold vectorIndexCreate
    simp only [hv, Bool.false_eq_true, if_false, if_neg hm2, if_neg hnu1, if_pos hnu2]
    rfl
  · subst hu
    rw [vectorIndexCreate_wellformed V ids ext host pParse pIdx zDbSName z zc lc args i ic col
      nBits dims hv hm hcol hname hpart hic hget hty, if_pos hb]
    rfl

/-- Instance of C18: while the schema is loaded, the index `libsql_vector_idx(v,
'metric=cosine')` over a column of type `F32_BLOB(3)` and an index with a USING clause are
accepted without any call. -/
theorem C18_schema_replay_accepts_witness :
    (vectorIndexCreate 4 sampleIds sampleExterns sampleHost (sampleParse 1)
      (sampleIndex [markerCall [sampleColumn, stringLiteral "metric=cosine"]] none)
      (bytes "main") none : Option (CreateResult Nat)) = some ⟨0, 4, [], []⟩ ∧
    (vectorIndexCreate 4 sampleIds sampleExterns sampleHost (sampleParse 1)
      { zName := bytes "idx", pTable := sampleTable, aColExpr := none, pPartIdxWhere := none,
        idxType := 0 }
      (bytes "main") (some [bytes "diskann_cosine_ops"]) : Option (CreateResult Nat)) =
        some ⟨0, 4, [], []⟩ :=
  ⟨C18_schema_replay_accepts 4 sampleIds sampleExterns sampleHost (sampleParse 1)
      (sampleIndex [markerCall [sampleColumn, stringLiteral "metric=cosine"]] none)
      (bytes "main") none (bytes "libsql_vector_idx") (bytes "v") none
      [stringLiteral "metric=cosine"] 0 0
      ⟨bytes "v", bytes "F32_BLOB(3)", 0x41⟩ 32 3 rfl rfl rfl
      (Or.inr ⟨rfl, rfl, by decide, rfl, by decide, rfl,
        ⟨[], bytes "F32_BLOB", [], [], bytes "3", [], [], bytes "F32_BLOB", by decide,
          by decide, by decide, by decide, by decide, by decide, by decide, by decide,
          by decide, by decide, by decide, by decide, by decide⟩⟩),
    C18_schema_replay_accepts 4 sampleIds sampleExterns sampleHost (sampleParse 1)
      { zName := bytes "idx", pTable := sampleTable, aColExpr := none, pPartIdxWhere := none,
        idxType := 0 }
      (bytes "main") (some [bytes "diskann_cosine_ops"]) [] [] none [] 0 0
      ⟨[], [], 0⟩ 0 0 rfl rfl rfl (Or.inl rfl)⟩

/-- A table with a rowid or with a primary key of one column has a key of one column. -/
theorem vectorIdxKeyGet_single (pTable : Table)
    (h : pTable.hasRowid = true ∨ pTable.pk.nKeyCol = 1) :
    ∃ k, vectorIdxKeyGet pTable = .ok k ∧ k.nKeyColumns = 1 := by
  unfold vectorIdxKeyGet
  by_cases hr : pTable.hasRowid = true
  · simp only [hr, not_true_eq_false, if_false]
    exact ⟨_, rfl, rfl⟩
  · rcases h with h | h
    · exact absurd h hr
    · have hn : ¬ (pTable.pk.nKeyCol > VECTOR_INDEX_MAX_KEY_COLUMNS) := by
        rw [h]; decide
      simp only [hr, not_false_eq_true, if_true, if_neg hn]
      exact ⟨_, rfl, h⟩

/-- When the metadata table is ready, the parameters parse and the key has one column,
`createPersist` comes to `createStore` after one call, the `CREATE TABLE IF NOT EXISTS`. -/
theorem createPersist_reaches_store {D E : Type} (V : Nat) (ids : VectorParamIds)
    (ext : ParamExterns E) (host : Host) (pIdx : Index) (zDbSName : List Nat)
    (idxParams : VectorIdxParams) (type dims : Int) (pArgs : List Expr)
    (hmp : host.mprintfMetaTable = true) (hexec : host.rcExecMetaTable = SQLITE_OK)
    (hparse : (parseVectorIdxParams ids ext idxParams type dims pArgs).rc = SQLITE_OK)
    (hkey : pIdx.pTable.hasRowid = true ∨ pIdx.pTable.pk.nKeyCol = 1) :
    ∃ idxKey, vectorIdxKeyGet pIdx.pTable = .ok idxKey ∧
      (createPersist V ids ext host pIdx zDbSName idxParams type dims pArgs :
        CreateResult D) =
      createStore V host pIdx zDbSName idxKey
        (parseVectorIdxParams ids ext idxParams type dims pArgs).params
        (parseVectorIdxParams ids ext idxParams type dims pArgs).errMsgs
        [.execCreateMetaTable zDbSName] := by
  obtain ⟨k, hk, hk1⟩ := vectorIdxKeyGet_single pIdx.pTable hkey
  refine ⟨k, hk, ?_⟩
  have h1 : ¬ ((initVectorIndexMetaTable host zDbSName : Outcome D).rc ≠ SQLITE_OK) := by
    simp [initVectorIndexMetaTable, hmp, hexec]
  have h2 : ¬ ((parseVectorIdxParams ids ext idxParams type dims pArgs).rc ≠ SQLITE_OK) := by
    simp [hparse]
  have h3 : ¬ (k.nKeyColumns ≠ 1) := by simp [hk1]
  have ht : (initVectorIndexMetaTable host zDbSName : Outcome D).trace =
      [.execCreateMetaTable zDbSName] := by
    simp [initVectorIndexMetaTable, hmp]
  unfold createPersist
  simp only [if_neg h1, if_neg h2, hk, if_neg h3, ht]

/-- On a fresh create of a well-formed marker index for which the metadata table is ready,
the parameters parse and the key has one column, `vectorIndexCreate` returns what
`createStore` leaves behind after the one call that created the metadata table. -/
theorem vectorIndexCreate_reaches_store {D E : Type} (V : Nat) (ids : VectorParamIds)
    (ext : ParamExterns E) (host : Host) (pParse : Parse) (pIdx : Index) (zDbSName : List Nat)
    (z zc : List Nat) (lc : Option (List Expr)) (args : List Expr) (i ic : Int) (col : Column)
    (nBits dims : Nat)
    (hv : pParse.db.isVacuum = false) (hm : pParse.eParseMode = 0)
    (hb : pParse.db.initBusy = 0)
    (hcol : pIdx.aColExpr =
      some [.node .TK_FUNCTION z (some (.node .TK_COLUMN zc lc ic :: args)) i])
    (hname : EqIgnoreCase (cstr z) VECTOR_INDEX_MARKER_FUNCTION)
    (hpart : pIdx.pPartIdxWhere = none) (hic : 0 ≤ ic)
    (hget : pIdx.pTable.aCol.get? ic.toNat = some col)
    (hty : ColumnTypeSyntax col.zType nBits dims)
    (hmp : host.mprintfMetaTable = true) (hexec : host.rcExecMetaTable = SQLITE_OK)
    (hparse : (parseVectorIdxParams ids ext
      (vectorIdxParamsInit ⟨host.idxParamsStack, 0⟩ none 0)
      ((if nBits = 32 then VECTOR_TYPE_FLOAT32 else VECTOR_TYPE_FLOAT64 : Nat) : Int)
      (dims : Int) args).rc = SQLITE_OK)
    (hkey : pIdx.pTable.hasRowid = true ∨ pIdx.pTable.pk.nKeyCol = 1) :
    ∃ idxKey, vectorIdxKeyGet pIdx.pTable = .ok idxKey ∧
      (vectorIndexCreate V ids ext host pParse pIdx zDbSName none :
        Option (CreateResult D)) =
      some (createStore V host pIdx zDbSName idxKey
        (parseVectorIdxParams ids ext (vectorIdxParamsInit ⟨host.idxParamsStack, 0⟩ none 0)
          ((if nBits = 32 then VECTOR_TYPE_FLOAT32 else VECTOR_TYPE_FLOAT64 : Nat) : Int)
          (dims : Int) args).params
        (parseVectorIdxParams ids ext (vectorIdxParamsInit ⟨host.idxParamsStack, 0⟩ none 0)
          ((if nBits = 32 then VECTOR_TYPE_FLOAT32 else VECTOR_TYPE_FLOAT64 : Nat) : Int)
          (dims : Int) args).errMsgs
        [.execCreateMetaTable zDbSName]) := by
  have hnb : ¬ (pParse.db.initBusy = 1) := by rw [hb]; decide
  obtain ⟨k, hk, hstore⟩ := createPersist_reaches_store (D := D) V ids ext host pIdx zDbSName
    (vectorIdxParamsInit ⟨host.idxParamsStack, 0⟩ none 0)
    ((if nBits = 32 then VECTOR_TYPE_FLOAT32 else VECTOR_TYPE_FLOAT64 : Nat) : Int)
    (dims : Int) args hmp hexec hparse hkey
  refine ⟨k, hk, ?_⟩
  rw [vectorIndexCreate_wellformed (D := D) V ids ext host pParse pIdx zDbSName z zc
    lc args i ic col nBits dims hv hm hcol hname hpart hic hget hty, if_neg hnb, hstore]

/-- When the graph engine has created the index, `createStore` follows the result of
`insertIndexParameters`: `SQLITE_CONSTRAINT` gives the skip-refill outcome 1 with the index
marked, `SQLITE_OK` gives 0 with the index marked, and every other result gives -1 with the
index type unchanged and the message `unable to update global metadata table`. -/
theorem createStore_follows_insert {D : Type} (V : Nat) (host : Host) (pIdx : Index)
    (zDbSName : List Nat) (idxKey : VectorIdxKey) (idxParams : VectorIdxParams)
    (errMsgs : List IdxErr) (trace : List (Effect D))
    (hann : host.rcDiskAnnCreateIndex = SQLITE_OK) :
    ((insertIndexParameters host zDbSName pIdx.zName idxParams : Outcome D).rc =
        SQLITE_CONSTRAINT →
      (createStore V host pIdx zDbSName idxKey idxParams errMsgs trace).rc = 1 ∧
      (createStore V host pIdx zDbSName idxKey idxParams errMsgs trace).idxType = V) ∧
    ((insertIndexParameters host zDbSName pIdx.zName idxParams : Outcome D).rc = SQLITE_OK →
      (createStore V host pIdx zDbSName idxKey idxParams errMsgs trace).rc = 0 ∧
      (createStore V host pIdx zDbSName idxKey idxParams errMsgs trace).idxType = V) ∧
    ((insertIndexParameters host zDbSName pIdx.zName idxParams : Outcome D).rc ≠
        SQLITE_CONSTRAINT →
      (insertIndexParameters host zDbSName pIdx.zName idxParams : Outcome D).rc ≠ SQLITE_OK →
      (createStore V host pIdx zDbSName idxKey idxParams errMsgs trace).rc = -1 ∧
      (createStore V host pIdx zDbSName idxKey idxParams errMsgs trace).idxType =
        pIdx.idxType ∧
      (createStore V host pIdx zDbSName idxKey idxParams errMsgs trace).errMsgs =
        errMsgs ++ [.metadataUpdate]) := by
  have hann2 : ¬ (host.rcDiskAnnCreateIndex ≠ SQLITE_OK) := by simp [hann]
  unfold createStore
  simp only [if_neg hann2]
  refine ⟨?_, ?_, ?_⟩
  · intro hc
    rw [if_pos hc]
    exact ⟨rfl, rfl⟩
  · intro hok
    have hc : ¬ ((insertIndexParameters host zDbSName pIdx.zName idxParams : Outcome D).rc =
        SQLITE_CONSTRAINT) := by
      rw [hok]; decide
    have hne : ¬ ((insertIndexParameters host zDbSName pIdx.zName idxParams : Outcome D).rc ≠
        SQLITE_OK) := by
      rw [hok]; simp
    rw [if_neg hc, if_neg hne]
    exact ⟨rfl, rfl⟩
  · intro hc hne
    rw [if_neg hc, if_pos hne]
    exact ⟨rfl, rfl, rfl⟩

/-- When the `INSERT` statement is prepared and bound, `insertIndexParameters` returns
`SQLITE_CONSTRAINT` for a step result that is exactly `SQLITE_CONSTRAINT`, `SQLITE_OK` for a
step that is done and `SQLITE_ERROR` for every other step result. -/
theorem insertIndexParameters_step {D : Type} (host : Host) (zDbSName zName : List Nat)
    (pParameters : VectorIdxParams)
    (h1 : host.mprintfInsert = true) (h2 : host.rcInsertPrepare = SQLITE_OK)
    (h3 : host.rcInsertBindText = SQLITE_OK) (h4 : host.rcInsertBindBlob = SQLITE_OK) :
    (insertIndexParameters host zDbSName zName pParameters : Outcome D).rc =
      if host.rcInsertStep = SQLITE_CONSTRAINT then SQLITE_CONSTRAINT
      else if host.rcInsertStep = SQLITE_DONE then SQLITE_OK else SQLITE_ERROR := by
  have g2 : ¬ (host.rcInsertPrepare ≠ SQLITE_OK) := by simp [h2]
  have g3 : ¬ (host.rcInsertBindText ≠ SQLITE_OK) := by simp [h3]
  have g4 : ¬ (host.rcInsertBindBlob ≠ SQLITE_OK) := by simp [h4]
  unfold insertIndexParameters
  simp only [h1, not_true_eq_false, if_false, if_neg g2, if_neg g3, if_neg g4]
  by_cases s1 : host.rcInsertStep = SQLITE_CONSTRAINT
  · rw [if_pos s1, if_pos s1]
  · rw [if_neg s1, if_neg s1]
    by_cases s2 : host.rcInsertStep = SQLITE_DONE
    · have s3 : ¬ (host.rcInsertStep ≠ SQLITE_DONE) := by simp [s2]
      rw [if_neg s3, if_pos s2]
    · rw [if_pos s2, if_neg s2]

/-- C19: on a fresh create of a well-formed marker index in which every earlier step
succeeds (the metadata table is ready, the parameters parse, the key has one column, the
graph engine creates the index, the `INSERT` is prepared and bound), a step of the `INSERT`
that reports the PRIMARY KEY violation by the extended result code
`SQLITE_CONSTRAINT_PRIMARYKEY`, as `sqlite3_step` does on a connection with extended result
codes enabled, does not give the skip-refill outcome: `vectorIndexCreate` returns -1, leaves
the index type unchanged and reports `unable to update global metadata table`. -/
theorem C19_extended_primary_key_code_fails_create {D E : Type} (V : Nat)
    (ids : VectorParamIds) (ext : ParamExterns E) (host : Host) (pParse : Parse) (pIdx : Index)
    (zDbSName : List Nat) (z zc : List Nat) (lc : Option (List Expr)) (args : List Expr)
    (i ic : Int) (col : Column) (nBits dims : Nat)
    (hv : pParse.db.isVacuum = false) (hm : pParse.eParseMode = 0)
    (hb : pParse.db.initBusy = 0)
    (hcol : pIdx.aColExpr =
      some [.node .TK_FUNCTION z (some (.node .TK_COLUMN zc lc ic :: args)) i])
    (hname : EqIgnoreCase (cstr z) VECTOR_INDEX_MARKER_FUNCTION)
    (hpart : pIdx.pPartIdxWhere = none) (hic : 0 ≤ ic)
    (hget : pIdx.pTable.aCol.get? ic.toNat = some col)
    (hty : ColumnTypeSyntax col.zType nBits dims)
    (hmp : host.mprintfMetaTable = true) (hexec : host.rcExecMetaTable = SQLITE_OK)
    (hparse : (parseVectorIdxParams ids ext
      (vectorIdxParamsInit ⟨host.idxParamsStack, 0⟩ none 0)
      ((if nBits = 32 then VECTOR_TYPE_FLOAT32 else VECTOR_TYPE_FLOAT64 : Nat) : Int)
      (dims : Int) args).rc = SQLITE_OK)
    (hkey : pIdx.pTable.hasRowid = true ∨ pIdx.pTable.pk.nKeyCol = 1)
    (hann : host.rcDiskAnnCreateIndex = SQLITE_OK)
    (h1 : host.mprintfInsert = true) (h2 : host.rcInsertPrepare = SQLITE_OK)
    (h3 : host.rcInsertBindText = SQLITE_OK) (h4 : host.rcInsertBindBlob = SQLITE_OK)
    (hstep : host.rcInsertStep = SQLITE_CONSTRAINT_PRIMARYKEY) :
    ∃ r : CreateResult D,
      vectorIndexCreate V ids ext host pParse pIdx zDbSName none = some r ∧
      r.rc = -1 ∧ r.idxType = pIdx.idxType ∧ IdxErr.metadataUpdate ∈ r.errMsgs := by
  obtain ⟨k, _, hr⟩ := vectorIndexCreate_reaches_store (D := D) V ids ext host pParse pIdx
    zDbSName z zc lc args i ic col nBits dims hv hm hb hcol hname hpart hic hget hty hmp hexec
    hparse hkey
  refine ⟨_, hr, ?_⟩
  have hins := insertIndexParameters_step (D := D) host zDbSName pIdx.zName
    (parseVectorIdxParams ids ext (vectorIdxParamsInit ⟨host.idxParamsStack, 0⟩ none 0)
      ((if nBits = 32 then VECTOR_TYPE_FLOAT32 else VECTOR_TYPE_FLOAT64 : Nat) : Int)
      (dims : Int) args).params h1 h2 h3 h4
  have s1 : ¬ (host.rcInsertStep = SQLITE_CONSTRAINT) := by rw [hstep]; decide
  have s2 : ¬ (host.rcInsertStep = SQLITE_DONE) := by rw [hstep]; decide
  rw [if_neg s1, if_neg s2] at hins
  obtain ⟨g1, g2, g3⟩ := (createStore_follows_insert (D := D) V host pIdx zDbSName k
    (parseVectorIdxParams ids ext (vectorIdxParamsInit ⟨host.idxParamsStack, 0⟩ none 0)
      ((if nBits = 32 then VECTOR_TYPE_FLOAT32 else VECTOR_TYPE_FLOAT64 : Nat) : Int)
      (dims : Int) args).params
    (parseVectorIdxParams ids ext (vectorIdxParamsInit ⟨host.idxParamsStack, 0⟩ none 0)
      ((if nBits = 32 then VECTOR_TYPE_FLOAT32 else VECTOR_TYPE_FLOAT64 : Nat) : Int)
      (dims : Int) args).errMsgs
    [.execCreateMetaTable zDbSName] hann).2.2
    (by rw [hins]; decide) (by rw [hins]; decide)
  refine ⟨g1, g2, ?_⟩
  rw [g3]
  simp

set_option maxRecDepth 8000 in
/-- Instance of C19: on the index `libsql_vector_idx(v, 'metric=cosine')` over a column of
type `F32_BLOB(3)`, an insert step that reports `SQLITE_CONSTRAINT_PRIMARYKEY` (1555) makes
the create fail with -1 and the index unmarked, after the metadata table and the graph were
created and the insert was stepped, where the step result `SQLITE_CONSTRAINT` (19) gives the
skip-refill outcome 1 with the index marked. -/
theorem C19_extended_primary_key_code_fails_create_witness :
    (∃ r : CreateResult Nat,
      vectorIndexCreate 4 sampleIds sampleExterns (sampleHostStep 1555) (sampleParse 0)
        (sampleIndex [markerCall [sampleColumn, stringLiteral "metric=cosine"]] none)
        (bytes "main") none = some r ∧
      r.rc = -1 ∧ r.idxType = 0 ∧ IdxErr.metadataUpdate ∈ r.errMsgs) ∧
    ((vectorIndexCreate 4 sampleIds sampleExterns (sampleHostStep 19) (sampleParse 0)
        (sampleIndex [markerCall [sampleColumn, stringLiteral "metric=cosine"]] none)
        (bytes "main") none : Option (CreateResult Nat)).map
      (fun r => (r.rc, r.idxType))) = some (1, 4) :=
  ⟨C19_extended_primary_key_code_fails_create 4 sampleIds sampleExterns (sampleHostStep 1555)
      (sampleParse 0)
      (sampleIndex [markerCall [sampleColumn, stringLiteral "metric=cosine"]] none)
      (bytes "main") (bytes "libsql_vector_idx") (bytes "v") none
      [stringLiteral "metric=cosine"] 0 0
      ⟨bytes "v", bytes "F32_BLOB(3)", 0x41⟩ 32 3 rfl rfl rfl rfl (by decide) rfl (by decide)
      rfl
      ⟨[], bytes "F32_BLOB", [], [], bytes "3", [], [], bytes "F32_BLOB", by decide,
        by decide, by decide, by decide, by decide, by decide, by decide, by decide,
        by decide, by decide, by decide, by decide, by decide⟩
      rfl rfl (by decide) (Or.inl rfl) rfl rfl rfl rfl rfl rfl,
    by decide⟩

/-- C20: with the VACUUM flag set on the connection, `vectorIndexCreate`, `vectorIndexDrop`,
`vectorIndexClear`, `vectorIndexInsert` and `vectorIndexDelete` return `SQLITE_OK` (0) for
every input and make no call to the graph engine and no statement against the metadata
table; `vectorIndexCreate` leaves the index type unchanged and reports nothing. -/
theorem C20_vacuum_is_no_op {D E : Type} (V : Nat) (ids : VectorParamIds)
    (ext : ParamExterns E) (host : Host) (db : Db) (eParseMode : Nat) (pIdx : Index)
    (zDbSName zIdxName : List Nat) (pUsing : Option (List (List Nat)))
    (atof : List Nat → Int × D) (toF32 : D → D) (pRecord r : UnpackedRecord)
    (hv : db.isVacuum = true) :
    (vectorIndexCreate V ids ext host ⟨db, eParseMode⟩ pIdx zDbSName pUsing :
      Option (CreateResult D)) = some ⟨0, pIdx.idxType, [], []⟩ ∧
    ((vectorIndexDrop host db zDbSName zIdxName : Outcome D).rc = 0 ∧
      (vectorIndexDrop host db zDbSName zIdxName : Outcome D).trace = []) ∧
    ((vectorIndexClear host db zDbSName zIdxName : Outcome D).rc = 0 ∧
      (vectorIndexClear host db zDbSName zIdxName : Outcome D).trace = []) ∧
    ((vectorIndexInsert host atof toF32 db pRecord).rc = 0 ∧
      (vectorIndexInsert host atof toF32 db pRecord).trace = []) ∧
    ((vectorIndexDelete host db r : CursorResult D).rc = 0 ∧
      (vectorIndexDelete host db r : CursorResult D).trace = []) := by
  unfold vectorIndexCreate vectorIndexDrop vectorIndexClear vectorIndexInsert
    vectorIndexDelete
  simp [hv, SQLITE_OK]

/-- Instance of C20: during VACUUM, creating the index `libsql_vector_idx(v)` returns 0 and
leaves the index type 0, and inserting the row `('[1,2,3]', 1)` makes no call. -/
theorem C20_vacuum_is_no_op_witness :
    (vectorIndexCreate 4 sampleIds sampleExterns sampleHost ⟨⟨true, 0⟩, 0⟩
      (sampleIndex [markerCall [sampleColumn]] none) (bytes "main") none :
      Option (CreateResult Nat)) = some ⟨0, 0, [], []⟩ ∧
    (vectorIndexInsert sampleHost atofDigits id ⟨true, 0⟩
      ⟨[.text (bytes "[1,2,3]"), .integer 1], 2⟩).trace = [] :=
  ⟨(C20_vacuum_is_no_op 4 sampleIds sampleExterns sampleHost ⟨true, 0⟩ 0
      (sampleIndex [markerCall [sampleColumn]] none) (bytes "main") (bytes "idx") none
      atofDigits id ⟨[.text (bytes "[1,2,3]"), .integer 1], 2⟩
      ⟨[.null, .integer 1], 2⟩ rfl).1,
    (C20_vacuum_is_no_op 4 sampleIds sampleExterns sampleHost ⟨true, 0⟩ 0
      (sampleIndex [markerCall [sampleColumn]] none) (bytes "main") (bytes "idx") none
      atofDigits id ⟨[.text (bytes "[1,2,3]"), .integer 1], 2⟩
      ⟨[.null, .integer 1], 2⟩ rfl).2.2.2.1.2⟩


/-! ### Drop and insert -/

/-- The result and the calls of `removeIndexParameters` in terms of what the SQL interface
answers: a failing prepare or bind is returned as it is and the statement is not stepped, a
step that is not done gives `SQLITE_ERROR`, a step that is done gives `SQLITE_OK`. -/
theorem removeIndexParameters_eq {D : Type} (host : Host) (zName : List Nat) :
    (removeIndexParameters host zName : Outcome D).rc =
      (if host.rcRemovePrepare ≠ SQLITE_OK then host.rcRemovePrepare
        else if host.rcRemoveBindText ≠ SQLITE_OK then host.rcRemoveBindText
        else if host.rcRemoveStep ≠ SQLITE_DONE then SQLITE_ERROR else SQLITE_OK) ∧
    (removeIndexParameters host zName : Outcome D).trace =
      .prepareRemoveParams ::
        (if host.rcRemovePrepare = SQLITE_OK ∧ host.rcRemoveBindText = SQLITE_OK then
          [.stepRemoveParams zName] else []) := by
  unfold removeIndexParameters
  by_cases h1 : host.rcRemovePrepare ≠ SQLITE_OK
  · have g : ¬ (host.rcRemovePrepare = SQLITE_OK ∧ host.rcRemoveBindText = SQLITE_OK) :=
      fun h => h1 h.1
    rw [if_pos h1, if_pos h1, if_neg g]
    exact ⟨rfl, rfl⟩
  · have e1 : host.rcRemovePrepare = SQLITE_OK := by
      by_contra hc; exact h1 hc
    rw [if_neg h1, if_neg h1]
    by_cases h2 : host.rcRemoveBindText ≠ SQLITE_OK
    · have g : ¬ (host.rcRemovePrepare = SQLITE_OK ∧ host.rcRemoveBindText = SQLITE_OK) :=
        fun h => h2 h.2
      rw [if_pos h2, if_pos h2, if_neg g]
      exact ⟨rfl, rfl⟩
    · have e2 : host.rcRemoveBindText = SQLITE_OK := by
        by_contra hc; exact h2 hc
      have h12 : host.rcRemovePrepare = SQLITE_OK ∧ host.rcRemoveBindText = SQLITE_OK :=
        ⟨e1, e2⟩
      rw [if_neg h2, if_neg h2, if_pos h12]
      by_cases h3 : host.rcRemoveStep ≠ SQLITE_DONE
      · rw [if_pos h3, if_pos h3]
        exact ⟨rfl, rfl⟩
      · rw [if_neg h3, if_neg h3]
        exact ⟨rfl, rfl⟩

/-- C21: outside VACUUM, `vectorIndexDrop` calls the graph engine's drop and then, whatever
that call returned, prepares the `DELETE` of the parameter row and, when the statement is
prepared and bound, steps it. It returns the graph engine's result if that is not
`SQLITE_OK`, and otherwise the result of the parameter delete: the result of a failing
prepare or bind, `SQLITE_ERROR` for a step that is not done and `SQLITE_OK` for a step that
is done. So it returns `SQLITE_OK` exactly when the graph engine's drop, the prepare and the
bind return `SQLITE_OK` and the step is done. -/
theorem C21_drop_attempts_both {D : Type} (host : Host) (db : Db)
    (zDbSName zIdxName : List Nat) (hv : db.isVacuum = false) :
    (vectorIndexDrop host db zDbSName zIdxName : Outcome D).trace =
      .diskAnnDropIndex zDbSName zIdxName :: .prepareRemoveParams ::
        (if host.rcRemovePrepare = SQLITE_OK ∧ host.rcRemoveBindText = SQLITE_OK then
          [.stepRemoveParams zIdxName] else []) ∧
    (vectorIndexDrop host db zDbSName zIdxName : Outcome D).rc =
      (if host.rcDiskAnnDropIndex ≠ SQLITE_OK then host.rcDiskAnnDropIndex
        else if host.rcRemovePrepare ≠ SQLITE_OK then host.rcRemovePrepare
        else if host.rcRemoveBindText ≠ SQLITE_OK then host.rcRemoveBindText
        else if host.rcRemoveStep ≠ SQLITE_DONE then SQLITE_ERROR else SQLITE_OK) ∧
    (host.rcDiskAnnDropIndex = SQLITE_OK →
      (vectorIndexDrop host db zDbSName zIdxName : Outcome D).rc =
        (removeIndexParameters host zIdxName : Outcome D).rc) ∧
    ((vectorIndexDrop host db zDbSName zIdxName : Outcome D).rc = SQLITE_OK ↔
      host.rcDiskAnnDropIndex = SQLITE_OK ∧ host.rcRemovePrepare = SQLITE_OK ∧
        host.rcRemoveBindText = SQLITE_OK ∧ host.rcRemoveStep = SQLITE_DONE) := by
  have hd : (vectorIndexDrop host db zDbSName zIdxName : Outcome D) =
      ⟨if host.rcDiskAnnDropIndex ≠ SQLITE_OK then host.rcDiskAnnDropIndex
        else (removeIndexParameters host zIdxName : Outcome D).rc,
        .diskAnnDropIndex zDbSName zIdxName ::
          (removeIndexParameters host zIdxName : Outcome D).trace⟩ := by
    unfold vectorIndexDrop
    simp [hv]
  obtain ⟨hrc, htr⟩ := removeIndexParameters_eq (D := D) host zIdxName
  have hrc2 : (vectorIndexDrop host db zDbSName zIdxName : Outcome D).rc =
      (if host.rcDiskAnnDropIndex ≠ SQLITE_OK then host.rcDiskAnnDropIndex
        else if host.rcRemovePrepare ≠ SQLITE_OK then host.rcRemovePrepare
        else if host.rcRemoveBindText ≠ SQLITE_OK then host.rcRemoveBindText
        else if host.rcRemoveStep ≠ SQLITE_DONE then SQLITE_ERROR else SQLITE_OK) := by
    rw [hd]
    simp only
    rw [hrc]
  refine ⟨?_, hrc2, ?_, ?_⟩
  · rw [hd]
    simp only
    rw [htr]
  · intro h
    have h2 : ¬ (host.rcDiskAnnDropIndex ≠ SQLITE_OK) := by simp [h]
    rw [hd]
    simp only [if_neg h2]
  · rw [hrc2]
    by_cases h0 : host.rcDiskAnnDropIndex ≠ SQLITE_OK
    · rw [if_pos h0]
      exact ⟨fun h => absurd h h0, fun h => absurd h.1 h0⟩
    · have e0 : host.rcDiskAnnDropIndex = SQLITE_OK := by
        by_contra hc; exact h0 hc
      rw [if_neg h0]
      by_cases h1 : host.rcRemovePrepare ≠ SQLITE_OK
      · rw [if_pos h1]
        exact ⟨fun h => absurd h h1, fun h => absurd h.2.1 h1⟩
      · have e1 : host.rcRemovePrepare = SQLITE_OK := by
          by_contra hc; exact h1 hc
        rw [if_neg h1]
        by_cases h2 : host.rcRemoveBindText ≠ SQLITE_OK
        · rw [if_pos h2]
          exact ⟨fun h => absurd h h2, fun h => absurd h.2.2.1 h2⟩
        · have e2 : host.rcRemoveBindText = SQLITE_OK := by
            by_contra hc; exact h2 hc
          rw [if_neg h2]
          by_cases h3 : host.rcRemoveStep ≠ SQLITE_DONE
          · rw [if_pos h3]
            exact ⟨fun h => absurd h (by decide), fun h => absurd h.2.2.2 h3⟩
          · have e3 : host.rcRemoveStep = SQLITE_DONE := by
              by_contra hc; exact h3 hc
            rw [if_neg h3]
            exact ⟨fun _ => ⟨e0, e1, e2, e3⟩, fun _ => rfl⟩

/-- Instance of C21: when the graph engine fails to drop the index with `SQLITE_ERROR`, the
parameter row is still deleted and `SQLITE_ERROR` is returned; when the graph engine drops
the index and the step of the `DELETE` is busy (5), `SQLITE_ERROR` is returned. -/
theorem C21_drop_attempts_both_witness :
    (vectorIndexDrop { sampleHost with rcDiskAnnDropIndex := SQLITE_ERROR } ⟨false, 0⟩
      (bytes "main") (bytes "idx") : Outcome Nat).rc = SQLITE_ERROR ∧
    (vectorIndexDrop { sampleHost with rcDiskAnnDropIndex := SQLITE_ERROR } ⟨false, 0⟩
      (bytes "main") (bytes "idx") : Outcome Nat).trace =
      [.diskAnnDropIndex (bytes "main") (bytes "idx"), .prepareRemoveParams,
        .stepRemoveParams (bytes "idx")] ∧
    (vectorIndexDrop { sampleHost with rcRemoveStep := 5 } ⟨false, 0⟩
      (bytes "main") (bytes "idx") : Outcome Nat).rc = SQLITE_ERROR :=
  ⟨(C21_drop_attempts_both { sampleHost with rcDiskAnnDropIndex := SQLITE_ERROR } ⟨false, 0⟩
      (bytes "main") (bytes "idx") rfl).2.1.trans rfl,
    (C21_drop_attempts_both { sampleHost with rcDiskAnnDropIndex := SQLITE_ERROR } ⟨false, 0⟩
      (bytes "main") (bytes "idx") rfl).1.trans rfl,
    (C21_drop_attempts_both { sampleHost with rcRemoveStep := 5 } ⟨false, 0⟩
      (bytes "main") (bytes "idx") rfl).2.1.trans rfl⟩

/-- C22: outside VACUUM, for every unpacked record with at least one key field (`nField` at
least 2) whose first field, the indexed vector value, is `NULL`, `vectorInRowAlloc` returns
`SQLITE_OK` with the row's vector absent, and `vectorIndexInsert` returns `SQLITE_OK`
without any call to the graph engine. -/
theorem C22_null_vector_is_left_out {D : Type} (host : Host) (atof : List Nat → Int × D)
    (toF32 : D → D) (db : Db) (pRecord : UnpackedRecord) (hv : db.isVacuum = false)
    (hkeys : 2 ≤ pRecord.nField) (hnull : pRecord.aMem.head? = some .null) :
    (vectorInRowAlloc host atof toF32 pRecord).rc = SQLITE_OK ∧
    (vectorInRowAlloc host atof toF32 pRecord).row.pVector = none ∧
    (vectorIndexInsert host atof toF32 db pRecord).rc = SQLITE_OK ∧
    (vectorIndexInsert host atof toF32 db pRecord).trace = [] := by
  have hk : ¬ ((pRecord.nField : Int) - 1 ≤ 0) := by omega
  have hh : pRecord.aMem.headD .null = .null := by
    cases hm : pRecord.aMem with
    | nil => rfl
    | cons a l =>
      rw [hm] at hnull
      simp only [List.head?_cons, Option.some.injEq] at hnull
      rw [hnull]
      rfl
  have hrow : vectorInRowAlloc host atof toF32 pRecord =
      ⟨SQLITE_OK, ⟨none, (pRecord.nField : Int) - 1, pRecord.aMem.tail⟩, none⟩ := by
    unfold vectorInRowAlloc
    simp only [if_neg hk, hh, if_true]
  refine ⟨by rw [hrow], by rw [hrow], ?_, ?_⟩
  · unfold vectorIndexInsert
    simp [hv, hrow]
  · unfold vectorIndexInsert
    simp [hv, hrow]

/-- Instance of C22: inserting the row `(NULL, 7)` makes no call. -/
theorem C22_null_vector_is_left_out_witness :
    (vectorInRowAlloc sampleHost atofDigits id ⟨[.null, .integer 7], 2⟩).row.pVector = none ∧
    (vectorIndexInsert sampleHost atofDigits id ⟨false, 0⟩ ⟨[.null, .integer 7], 2⟩).trace =
      [] :=
  ⟨(C22_null_vector_is_left_out sampleHost atofDigits id ⟨false, 0⟩
      ⟨[.null, .integer 7], 2⟩ rfl (by decide) rfl).2.1,
    (C22_null_vector_is_left_out sampleHost atofDigits id ⟨false, 0⟩
      ⟨[.null, .integer 7], 2⟩ rfl (by decide) rfl).2.2.2⟩

/-! ### Order of the persistence steps -/

theorem getU64Loop_end (p : VectorIdxParams) (tag : Int) (fuel i v : Nat)
    (h : p.nBinSize < i + 9) : getU64Loop p tag fuel i v = v := by
  cases fuel with
  | zero => rfl
  | succ f =>
    rw [getU64Loop, if_neg (by omega)]

/-- The scan over whole entries ends with the value of the last entry when its tag byte
matches. -/
theorem getU64Loop_last (p : VectorIdxParams) (tag : Int) (m : Nat) :
    ∀ (i v fuel : Nat), m + 1 ≤ fuel → p.nBinSize = i + 9 * (m + 1) →
      (p.pBinBuf.getD (i + 9 * m) 0 : Int) = tag →
      getU64Loop p tag fuel i v = readU64 p.pBinBuf (i + 9 * m) := by
  induction m with
  | zero =>
    intro i v fuel hf hn ht
    obtain ⟨f, rfl⟩ : ∃ f, fuel = f + 1 := ⟨fuel - 1, by omega⟩
    have ht2 : ¬ ((p.pBinBuf.getD i 0 : Int) ≠ tag) := by
      simpa using ht
    rw [getU64Loop, if_pos (by omega), if_neg ht2]
    exact getU64Loop_end p tag f (i + 9) _ (by omega)
  | succ m ih =>
    intro i v fuel hf hn ht
    obtain ⟨f, rfl⟩ : ∃ f, fuel = f + 1 := ⟨fuel - 1, by omega⟩
    have e : i + 9 * (m + 1) = i + 9 + 9 * m := by ring
    rw [e] at ht ⊢
    rw [getU64Loop, if_pos (by omega)]
    split_ifs
    · exact ih (i + 9) _ f (by omega) (by omega) ht
    · exact ih (i + 9) _ f (by omega) (by omega) ht

set_option maxRecDepth 8000 in
/-- Counterexample to C26 as stated: on the record that `vectorIdxParamsInit` makes of the
one-byte blob `05`, `vectorIdxParamsPutU64` with tag 7 and value 1 returns 0, and
`vectorIdxParamsGetU64` with tag 7 then returns 0, not 1: the entry is appended at offset 1,
and the scan reads entries at offsets 0, 9, 18 and so on. -/
theorem C26_counterexample :
    (vectorIdxParamsPutU64
      (vectorIdxParamsInit ⟨List.replicate 128 0, 0⟩ (some [5]) 1) 7 1).1 = 0 ∧
    vectorIdxParamsGetU64 (vectorIdxParamsPutU64
      (vectorIdxParamsInit ⟨List.replicate 128 0, 0⟩ (some [5]) 1) 7 1).2 7 = 0 := by
  refine ⟨by decide, by decide⟩

/-- C26, amended: for every parameter record that `vectorIdxParamsInit` makes of a blob of at
most 128 bytes whose length is a multiple of 9 (a sequence of whole entries), every tag
byte in 0..127 and every 64-bit value: if `vectorIdxParamsPutU64` with that tag and value
returns 0, then `vectorIdxParamsGetU64` with that tag returns the value. -/
theorem C26_read_after_write_on_whole_entries (rec0 : VectorIdxParams) (blob : List Nat)
    (tag : Int) (value : Nat) (hlen : rec0.pBinBuf.length = VECTOR_INDEX_PARAMS_BUF_SIZE)
    (hblob : blob.length ≤ VECTOR_INDEX_PARAMS_BUF_SIZE) (hnine : 9 ∣ blob.length)
    (htag : 0 ≤ tag ∧ tag ≤ 127) (hvalue : value < 2 ^ 64)
    (hput : (vectorIdxParamsPutU64
      (vectorIdxParamsInit rec0 (some blob) blob.length) tag value).1 = 0) :
    vectorIdxParamsGetU64 (vectorIdxParamsPutU64
      (vectorIdxParamsInit rec0 (some blob) blob.length) tag value).2 tag = value := by
  obtain ⟨k, hk⟩ := hnine
  have hB : VECTOR_INDEX_PARAMS_BUF_SIZE = 128 := rfl
  have hpl : (vectorIdxParamsInit rec0 (some blob) blob.length).pBinBuf.length =
      VECTOR_INDEX_PARAMS_BUF_SIZE := by
    simp only [vectorIdxParamsInit, List.length_append, List.length_take, List.length_drop,
      hlen]
    omega
  have hsz : (vectorIdxParamsInit rec0 (some blob) blob.length).nBinSize = blob.length := rfl
  have hfit : (vectorIdxParamsInit rec0 (some blob) blob.length).nBinSize + 9 ≤
      VECTOR_INDEX_PARAMS_BUF_SIZE := by
    by_contra hc
    have hgt : (vectorIdxParamsInit rec0 (some blob) blob.length).nBinSize + 9 >
        VECTOR_INDEX_PARAMS_BUF_SIZE := by omega
    unfold vectorIdxParamsPutU64 at hput
    rw [if_pos hgt] at hput
    simp at hput
  obtain ⟨_, hn, hl, htake⟩ := put_ok _ tag value hpl hfit
  rw [hsz] at hn htake
  have hpre : ((vectorIdxParamsInit rec0 (some blob) blob.length).pBinBuf.take
      blob.length).length = blob.length := by
    rw [List.length_take, hpl]; omega
  generalize (vectorIdxParamsInit rec0 (some blob) blob.length).pBinBuf.take blob.length =
    pre at htake hpre
  generalize (vectorIdxParamsPutU64 (vectorIdxParamsInit rec0 (some blob) blob.length) tag
    value).2 = q at hn hl htake ⊢
  have hbyte : ∀ j, j < 9 → q.pBinBuf.getD (9 * k + j) 0 = (entryBytes tag value).getD j 0 := by
    intro j hj
    have := getD_of_take q.pBinBuf (blob.length + 9) j pre (entryBytes tag value) []
      (by rw [List.append_nil]; exact htake) (by rw [entryBytes_length]; exact hj)
    rw [hpre, hk] at this
    exact this
  have htagbyte : (q.pBinBuf.getD (0 + 9 * k) 0 : Int) = tag := by
    have h0 := hbyte 0 (by omega)
    rw [Nat.add_zero] at h0
    rw [Nat.zero_add, h0]
    show ((charToU8 tag : Nat) : Int) = tag
    rw [charToU8_cast]
    omega
  unfold vectorIdxParamsGetU64
  rw [getU64Loop_last q tag k 0 0 _ (by rw [hn]; omega) (by rw [hn]; omega) htagbyte]
  apply readU64_eq _ _ _ hvalue
  intro o ho
  have h1 := hbyte (1 + o) (by omega)
  have e : 0 + 9 * k + 1 + o = 9 * k + (1 + o) := by omega
  rw [e, h1]
  have ho8 : o = 0 ∨ o = 1 ∨ o = 2 ∨ o = 3 ∨ o = 4 ∨ o = 5 ∨ o = 6 ∨ o = 7 := by omega
  rcases ho8 with h | h | h | h | h | h | h | h <;> subst h <;> simp [entryBytes]

set_option maxRecDepth 8000 in
/-- Instance of C26: on the record made of the nine-byte blob that holds tag 7 with value 2,
putting tag 7 with value 1 succeeds and tag 7 then reads 1. -/
theorem C26_read_after_write_on_whole_entries_witness :
    vectorIdxParamsGetU64 (vectorIdxParamsPutU64
      (vectorIdxParamsInit ⟨List.replicate 128 0, 0⟩ (some [7, 2, 0, 0, 0, 0, 0, 0, 0]) 9)
      7 1).2 7 = 1 :=
  C26_read_after_write_on_whole_entries ⟨List.replicate 128 0, 0⟩
    [7, 2, 0, 0, 0, 0, 0, 0, 0] 7 1 (by decide) (by decide) (by decide) (by decide)
    (by decide) (by decide)


/-! ### Detected and parsed shape of a text vector -/

/-- The scan of `detectTextVectorParameters` counts the commas and looks for a digit. -/
theorem detect_scan (text : List Nat) :
    ∀ s : Nat × Bool,
      text.foldl (fun (s : Nat × Bool) c =>
        (if c = 0x2c then s.1 + 1 else s.1, s.2 || sqlite3Isdigit c)) s =
      (s.1 + text.count 0x2c, s.2 || text.any sqlite3Isdigit) := by
  induction text with
  | nil => intro s; simp
  | cons c t ih =>
    intro s
    rw [List.foldl_cons, ih]
    by_cases hc : c = 0x2c
    · subst hc
      simp [Nat.add_assoc, Nat.add_comm, Bool.or_assoc]
    · have hc2 : ¬ (0x2c = c) := fun e => hc e.symm
      simp [hc, List.count_cons, hc2, Bool.or_assoc]

/-- The dimension that `detectTextVectorParameters` assigns: the number of commas, plus one
if the text contains a digit. -/
theorem detect_dims (text : List Nat) (typeHint d : Nat)
    (h : (detectTextVectorParameters text typeHint).pDims = some d) :
    d = text.count 0x2c + (if text.any sqlite3Isdigit = true then 1 else 0) := by
  unfold detectTextVectorParameters at h
  simp only [detect_scan, Nat.zero_add, Bool.false_or] at h
  split_ifs at h <;> simp_all

theorem space_not_comma (c : Nat) (h : sqlite3Isspace c = true) : c ≠ 0x2c := by
  intro e; rw [e] at h; exact absurd h (by decide)

/-- Invariant of the main loop of `vectorParseSqliteText`: with `nc` commas consumed so far,
at most `N` commas in all, `H` true if the text has a digit, and a float parser that accepts
only strings with a digit, the logs stay within `N` (plus one if `H`) elements and the 1025
bytes of `valueBuf`. -/
theorem parseLoop_within {D : Type} (atof : List Nat → Int × D) (toF32 : D → D) (type : Nat)
    (N : Nat) (H : Bool) (hatof : AcceptsOnlyWithDigit atof) (t : List Nat) :
    ∀ (st : TextParseState D) (nc : Nat),
      nc + t.count 0x2c ≤ N → st.iElem ≤ nc →
      ((∃ c ∈ st.valueBuf, sqlite3Isdigit c = true) → H = true) →
      ((∃ c ∈ t, sqlite3Isdigit c = true) → H = true) →
      st.valueBuf.length ≤ MAX_FLOAT_CHAR_SZ + 1 →
      LogsWithin (N + if H = true then 1 else 0) st.stores st.atofArgs st.bufWrites →
      LogsWithin (N + if H = true then 1 else 0)
        (parseLoop atof toF32 type t st).state.stores
        (parseLoop atof toF32 type t st).state.atofArgs
        (parseLoop atof toF32 type t st).state.bufWrites := by
  induction t with
  | nil => intro st nc _ _ _ _ _ hin; exact hin
  | cons c t ih =>
    intro st nc hN hi hvb ht hlen hin
    have htail : (∃ d ∈ t, sqlite3Isdigit d = true) → H = true :=
      fun ⟨d, hd, hdd⟩ => ht ⟨d, List.mem_cons_of_mem _ hd, hdd⟩
    rw [parseLoop]
    by_cases hc0 : c = 0
    · rw [if_pos hc0]; exact hin
    rw [if_neg hc0]
    by_cases hs : sqlite3Isspace c = true
    · rw [if_pos hs]
      have hcount : (c :: t).count 0x2c = t.count 0x2c := by
        rw [List.count_cons_of_ne (space_not_comma c hs).symm]
      exact ih st nc (by rw [← hcount]; exact hN) hi hvb htail hlen hin
    rw [if_neg hs]
    by_cases hlit : c ≠ 0x2c ∧ c ≠ 0x5d
    · rw [if_pos hlit]
      by_cases hfull : st.valueBuf.length > MAX_FLOAT_CHAR_SZ
      · rw [if_pos hfull]; exact hin
      · rw [if_neg hfull]
        have hcount : (c :: t).count 0x2c = t.count 0x2c := by
          rw [List.count_cons_of_ne hlit.1.symm]
        refine ih _ nc ?_ ?_ ?_ ?_ ?_ ?_
        · rw [← hcount]; exact hN
        · exact hi
        · rintro ⟨d, hd, hdd⟩
          rcases List.mem_append.mp hd with h | h
          · exact hvb ⟨d, h, hdd⟩
          · rw [List.mem_singleton.mp h] at hdd
            exact ht ⟨c, List.mem_cons_self _ _, hdd⟩
        · exact htail
        · simp only [List.length_append, List.length_singleton]
          omega
        · obtain ⟨h1, h2, h3⟩ := hin
          refine ⟨h1, ?_, h3⟩
          intro i hi2
          rcases List.mem_append.mp hi2 with h | h
          · exact h2 i h
          · rw [List.mem_singleton.mp h]; omega
    rw [if_neg hlit]
    by_cases hempty : c = 0x5d ∧ st.iElem = 0 ∧ st.valueBuf.length = 0
    · rw [if_pos hempty]; exact hin
    rw [if_neg hempty]
    simp only
    obtain ⟨h1, h2, h3⟩ := hin
    have hin1 : LogsWithin (N + if H = true then 1 else 0) st.stores
        (st.atofArgs ++ [st.valueBuf]) st.bufWrites := by
      refine ⟨h1, h2, ?_⟩
      intro a ha
      rcases List.mem_append.mp ha with h | h
      · exact h3 a h
      · rw [List.mem_singleton.mp h]; exact hlen
    by_cases hrej : (atof st.valueBuf).1 ≤ 0
    · rw [if_pos hrej]; exact hin1
    rw [if_neg hrej]
    by_cases hmax : st.iElem ≥ MAX_VECTOR_SZ
    · rw [if_pos hmax]; exact hin1
    rw [if_neg hmax]
    have hH : H = true := hvb (hatof st.valueBuf (by omega))
    have hstore : ∀ (b : Nat), st.iElem < b → b ≤ N + (if H = true then 1 else 0) →
        LogsWithin (N + if H = true then 1 else 0)
          (storeElem toF32 type { st with atofArgs := st.atofArgs ++ [st.valueBuf] }
            (atof st.valueBuf).2).stores
          (storeElem toF32 type { st with atofArgs := st.atofArgs ++ [st.valueBuf] }
            (atof st.valueBuf).2).atofArgs
          (storeElem toF32 type { st with atofArgs := st.atofArgs ++ [st.valueBuf] }
            (atof st.valueBuf).2).bufWrites := by
      intro b hb1 hb2
      obtain ⟨e1, e2⟩ := storeElem_logs toF32 type
        { st with atofArgs := st.atofArgs ++ [st.valueBuf] } (atof st.valueBuf).2
      rw [e1, e2]
      refine ⟨?_, hin1.2.1, hin1.2.2⟩
      intro s hs2
      unfold storeElem at hs2
      split_ifs at hs2
      · rcases List.mem_append.mp hs2 with h | h
        · exact h1 s h
        · rw [List.mem_singleton.mp h]; show st.iElem < _; omega
      · rcases List.mem_append.mp hs2 with h | h
        · exact h1 s h
        · rw [List.mem_singleton.mp h]; show st.iElem < _; omega
      · exact h1 s hs2
    by_cases hclose : c = 0x5d
    · rw [if_pos hclose]
      exact hstore (N + 1) (by omega) (by rw [if_pos hH])
    · rw [if_neg hclose]
      have hcomma : c = 0x2c := by
        by_contra hne
        exact hlit ⟨hne, hclose⟩
      have hcount : (c :: t).count 0x2c = t.count 0x2c + 1 := by
        rw [hcomma, List.count_cons_self]
      rw [hcount] at hN
      refine ih _ (nc + 1) ?_ ?_ ?_ ?_ ?_ ?_
      · omega
      · have : (storeElem toF32 type { st with atofArgs := st.atofArgs ++ [st.valueBuf] }
            (atof st.valueBuf).2).iElem ≤ st.iElem + 1 := by
          unfold storeElem
          split_ifs <;> simp
        omega
      · rw [storeElem_valueBuf]
        rintro ⟨d, hd, _⟩
        simp at hd
      · exact htail
      · rw [storeElem_valueBuf]; simp
      · exact hstore N (by omega) (by omega)

/-- The logs of `vectorParseSqliteText` are those of the state in which the main loop is
left, or empty when the loop is not reached. -/
theorem parse_logs {D : Type} (atof : List Nat → Int × D) (toF32 : D → D) (type : Nat)
    (text : List Nat) :
    ((vectorParseSqliteText atof toF32 type (some text)).stores = [] ∧
      (vectorParseSqliteText atof toF32 type (some text)).atofArgs = [] ∧
      (vectorParseSqliteText atof toF32 type (some text)).bufWrites = []) ∨
    ∃ w t, text = w ++ 0x5b :: t ∧
      (vectorParseSqliteText atof toF32 type (some text)).stores =
        (parseLoop atof toF32 type t ⟨0, [], [], [], []⟩).state.stores ∧
      (vectorParseSqliteText atof toF32 type (some text)).atofArgs =
        (parseLoop atof toF32 type t ⟨0, [], [], [], []⟩).state.atofArgs ∧
      (vectorParseSqliteText atof toF32 type (some text)).bufWrites =
        (parseLoop atof toF32 type t ⟨0, [], [], [], []⟩).state.bufWrites := by
  obtain ⟨w, _, he⟩ := skipSpace_decomp text
  unfold vectorParseSqliteText
  simp only
  by_cases hb : deref (skipSpace text) ≠ 0x5b
  · rw [if_pos hb]
    exact Or.inl ⟨rfl, rfl, rfl⟩
  rw [if_neg hb]
  have hb2 : deref (skipSpace text) = 0x5b := by simpa using hb
  obtain ⟨c, t, hsk⟩ : ∃ c t, skipSpace text = c :: t := by
    cases h : skipSpace text with
    | nil => rw [h] at hb2; exact absurd hb2 (by decide)
    | cons c t => exact ⟨c, t, rfl⟩
  rw [hsk] at hb2 he ⊢
  simp only [deref] at hb2
  simp only [List.tail_cons]
  right
  refine ⟨w, t, by rw [he, hb2], ?_⟩
  generalize parseLoop atof toF32 type t ⟨0, [], [], [], []⟩ = out
  cases out with
  | error e st => exact ⟨rfl, rfl, rfl⟩
  | done p1 st =>
    simp only
    split_ifs <;> exact ⟨rfl, rfl, rfl⟩

/-- C30: for every TEXT value, given as the bytes that `sqlite3_value_bytes` counts, and
whether or not parsing succeeds, `vectorParseSqliteText` stores elements only at indices
strictly below the dimension that `detectTextVectorParameters` computed for the value,
given that the float parser accepts only strings that contain a digit; it writes `valueBuf`
only at indices 0..1024 of its 1025 bytes, and the length `iBuf` that it hands to the float
parser and to `memset` is at most 1025. -/
theorem C30_text_parse_stays_in_buffers {D : Type} (atof : List Nat → Int × D)
    (toF32 : D → D) (type typeHint d : Nat) (text : List Nat)
    (hatof : AcceptsOnlyWithDigit atof)
    (hdet : (detectTextVectorParameters text typeHint).pDims = some d) :
    (∀ s ∈ (vectorParseSqliteText atof toF32 type (some text)).stores, s.1 < d) ∧
    (∀ i ∈ (vectorParseSqliteText atof toF32 type (some text)).bufWrites,
      i ≤ MAX_FLOAT_CHAR_SZ) ∧
    (∀ a ∈ (vectorParseSqliteText atof toF32 type (some text)).atofArgs,
      a.length ≤ MAX_FLOAT_CHAR_SZ + 1) := by
  rcases parse_logs atof toF32 type text with ⟨h1, h2, h3⟩ | ⟨w, t, he, h1, h2, h3⟩
  · rw [h1, h2, h3]
    simp
  · rw [h1, h2, h3, detect_dims text typeHint d hdet]
    have hcount : 0 + t.count 0x2c ≤ text.count 0x2c := by
      rw [he, List.count_append, List.count_cons]
      omega
    have hdigit : (∃ c ∈ t, sqlite3Isdigit c = true) → text.any sqlite3Isdigit = true := by
      rintro ⟨c, hc, hd⟩
      rw [List.any_eq_true]
      exact ⟨c, by rw [he]; simp [hc], hd⟩
    exact parseLoop_within atof toF32 type (text.count 0x2c) (text.any sqlite3Isdigit) hatof t
      ⟨0, [], [], [], []⟩ 0 hcount (Nat.le_refl 0) (by rintro ⟨c, hc, _⟩; simp at hc) hdigit
      (by simp) ⟨by simp, by simp, by simp⟩

/-- The stand-in float parser accepts only strings of digits. -/
theorem atofDigits_digit : AcceptsOnlyWithDigit atofDigits := by
  intro l h
  unfold atofDigits at h
  split_ifs at h with hc
  · obtain ⟨hne, hall⟩ := hc
    cases l with
    | nil => exact absurd rfl hne
    | cons c l =>
      refine ⟨c, List.mem_cons_self _ _, ?_⟩
      simp only [List.all_cons, Bool.and_eq_true] at hall
      exact hall.1
  · simp at h

/-- Instance of C30: the text `[1,x` with a NUL and `,5` after it has detected dimension 3;
parsing it fails at `x`, having stored one element, at index 0. -/
theorem C30_text_parse_stays_in_buffers_witness :
    (vectorParseSqliteText atofDigits id 1 (some (bytes "[1,x" ++ 0 :: bytes ",5"))).rc = -1 ∧
    (vectorParseSqliteText atofDigits id 1 (some (bytes "[1,x" ++ 0 :: bytes ",5"))).stores =
      [(0, 1)] ∧
    ∀ s ∈ (vectorParseSqliteText atofDigits id 1
      (some (bytes "[1,x" ++ 0 :: bytes ",5"))).stores, s.1 < 3 :=
  ⟨by decide, by decide,
    (C30_text_parse_stays_in_buffers atofDigits id 1 1 3 (bytes "[1,x" ++ 0 :: bytes ",5")
      atofDigits_digit (by decide)).1⟩

/-- C29, failing input: the TEXT value of five bytes `[1]`, NUL, `,` is parsed successfully
into one element by `vectorParseSqliteText`, which stops at the NUL, while
`detectTextVectorParameters`, which scans all five bytes, computes the dimension 2 (one
comma, plus one for the digit); the float parser accepts only strings of digits. -/
theorem C29_parsed_dims_differ_from_detected :
    (vectorParseSqliteText atofDigits id 1 (some (bytes "[1]" ++ 0 :: bytes ","))).rc = 0 ∧
    (vectorParseSqliteText atofDigits id 1 (some (bytes "[1]" ++ 0 :: bytes ","))).dims =
      some 1 ∧
    (detectTextVectorParameters (bytes "[1]" ++ 0 :: bytes ",") VECTOR_TYPE_FLOAT32).pDims =
      some 2 ∧
    (detectTextVectorParameters (bytes "[1]" ++ 0 :: bytes ",") VECTOR_TYPE_FLOAT32).rc = 0 ∧
    AcceptsOnlyWithDigit atofDigits :=
  ⟨by decide, by decide, by decide, by decide, atofDigits_digit⟩

theorem spaces_count (w : List Nat) (hw : IsSpaces w) : w.count 0x2c = 0 := by
  rw [List.count_eq_zero]
  intro h
  exact space_not_comma _ (hw _ h) rfl

theorem spaces_no_digit (w : List Nat) (hw : IsSpaces w) : w.any sqlite3Isdigit = false := by
  rw [List.any_eq_false]
  intro c hc hd
  have hs := hw c hc
  unfold sqlite3Isspace at hs
  unfold sqlite3Isdigit at hd
  simp only [Bool.or_eq_true, beq_iff_eq, Bool.and_eq_true, decide_eq_true_eq] at hs hd
  omega

theorem stripSpaces_count (b : List Nat) : (stripSpaces b).count 0x2c = b.count 0x2c := by
  induction b with
  | nil => rfl
  | cons c b ih =>
    by_cases hs : sqlite3Isspace c = true
    · rw [stripSpaces_cons_space c b hs, ih,
        List.count_cons_of_ne (space_not_comma c hs).symm]
    · rw [stripSpaces_cons_other c b hs, List.count_cons, List.count_cons, ih]

theorem stripSpaces_digit (b : List Nat) :
    (stripSpaces b).any sqlite3Isdigit = b.any sqlite3Isdigit := by
  induction b with
  | nil => rfl
  | cons c b ih =>
    by_cases hs : sqlite3Isspace c = true
    · have hd := spaces_no_digit [c] (by intro d hd; rw [List.mem_singleton.mp hd]; exact hs)
      simp only [List.any_cons, List.any_nil, Bool.or_false] at hd
      rw [stripSpaces_cons_space c b hs, ih, List.any_cons, hd, Bool.false_or]
    · rw [stripSpaces_cons_other c b hs, List.any_cons, List.any_cons, ih]

theorem literal_count (l : List Nat) (hl : IsLiteral l) : l.count 0x2c = 0 := by
  rw [List.count_eq_zero]
  intro h
  exact (hl _ h).2.2.1 rfl

theorem joinComma_count (lits : List (List Nat)) (h : ∀ l ∈ lits, IsLiteral l) :
    (joinComma lits).count 0x2c = lits.length - 1 := by
  induction lits with
  | nil => rfl
  | cons l ls ih =>
    cases ls with
    | nil =>
      show l.count 0x2c = 0
      exact literal_count l (h l (List.mem_cons_self _ _))
    | cons l2 rest =>
      show (l ++ 0x2c :: joinComma (l2 :: rest)).count 0x2c = _
      rw [List.count_append, List.count_cons_self,
        literal_count l (h l (List.mem_cons_self _ _)),
        ih (fun x hx => h x (List.mem_cons_of_mem _ hx))]
      simp

theorem joinComma_digit (l : List Nat) (ls : List (List Nat))
    (h : ∃ c ∈ l, sqlite3Isdigit c = true) :
    (joinComma (l :: ls)).any sqlite3Isdigit = true := by
  obtain ⟨c, hc, hd⟩ := h
  rw [List.any_eq_true]
  refine ⟨c, ?_, hd⟩
  cases ls with
  | nil => exact hc
  | cons l2 rest =>
    show c ∈ l ++ 0x2c :: joinComma (l2 :: rest)
    exact List.mem_append_left _ hc

/-- On a text without NUL byte, a successful `vectorParseSqliteText` assigns the dimension
that `detectTextVectorParameters` computed, given that the float parser accepts only
strings that contain a digit. -/
theorem parse_dims_eq_detected {D : Type} (atof : List Nat → Int × D) (toF32 : D → D)
    (type typeHint d : Nat) (text : List Nat)
    (htype : type = VECTOR_TYPE_FLOAT32 ∨ type = VECTOR_TYPE_FLOAT64)
    (h0 : 0 ∉ text) (hatof : AcceptsOnlyWithDigit atof)
    (hok : (vectorParseSqliteText atof toF32 type (some text)).rc = 0)
    (hdet : (detectTextVectorParameters text typeHint).pDims = some d) :
    (vectorParseSqliteText atof toF32 type (some text)).dims = some d := by
  obtain ⟨w0, t, post, st, hw0, he, hloop, hend, hres⟩ := parse_ok_inv atof toF32 type text hok
  have h0t : 0 ∉ t := fun h => h0 (by rw [he]; simp [h])
  obtain ⟨body, lits, e1, e2, e3, e4, _⟩ :=
    parseLoop_done_inv atof toF32 type htype t _ st _ (by intro c hc; simp at hc) h0t hloop rfl
  have h0p : 0 ∉ post := fun h => h0t (by rw [e1]; simp [h])
  have hpost : IsSpaces post := spaces_of_skipSpace_end post h0p hend
  simp only [List.nil_append] at e2
  have hcount : text.count 0x2c = (joinComma lits).count 0x2c := by
    rw [he, e1, ← e2, stripSpaces_count]
    simp [List.count_append, List.count_cons, spaces_count w0 hw0, spaces_count post hpost]
  have hany : text.any sqlite3Isdigit = (joinComma lits).any sqlite3Isdigit := by
    rw [he, e1, ← e2, stripSpaces_digit]
    have d1 : sqlite3Isdigit 0x5b = false := by decide
    have d2 : sqlite3Isdigit 0x5d = false := by decide
    simp [List.any_append, List.any_cons, spaces_no_digit w0 hw0, spaces_no_digit post hpost,
      d1, d2]
  rw [hres, detect_dims text typeHint d hdet, hcount, hany, e4]
  cases lits with
  | nil => rfl
  | cons l ls =>
    rw [joinComma_count _ (fun x hx => (e3 x hx).1),
      joinComma_digit l ls (hatof l (e3 l (List.mem_cons_self _ _)).2)]
    simp


/-! ### SQL functions -/

/-- The text detection with a hint F32 or F64 succeeds and gives the type of the hint. -/
theorem detectText_type (z : List Nat) (typeHint : Nat)
    (hhint : typeHint = VECTOR_TYPE_FLOAT32 ∨ typeHint = VECTOR_TYPE_FLOAT64) :
    (detectTextVectorParameters z typeHint).rc = 0 ∧
    (detectTextVectorParameters z typeHint).pType = some typeHint := by
  unfold detectTextVectorParameters
  rcases hhint with h | h
  · subst h
    simp [VECTOR_TYPE_FLOAT32]
  · subst h
    simp [VECTOR_TYPE_FLOAT64, VECTOR_TYPE_FLOAT32]

/-- The blob detection, when it succeeds, gives the type that the blob carries: its last
byte when its length is odd, F32 otherwise; the type is then F32 or F64. -/
theorem detectBlob_type (b : List Nat) (h : (detectBlobVectorParameters b).rc = 0) :
    (detectBlobVectorParameters b).pType =
      some (if b.length % 2 ≠ 0 then b.getD (b.length - 1) 0 else VECTOR_TYPE_FLOAT32) ∧
    ((if b.length % 2 ≠ 0 then b.getD (b.length - 1) 0 else VECTOR_TYPE_FLOAT32) =
        VECTOR_TYPE_FLOAT32 ∨
      (if b.length % 2 ≠ 0 then b.getD (b.length - 1) 0 else VECTOR_TYPE_FLOAT32) =
        VECTOR_TYPE_FLOAT64) := by
  unfold detectBlobVectorParameters at h ⊢
  simp only at h ⊢
  generalize (if b.length % 2 ≠ 0 then b.getD (b.length - 1) 0 else VECTOR_TYPE_FLOAT32) = t
    at h ⊢
  by_cases h1 : t = VECTOR_TYPE_FLOAT32
  · rw [if_pos h1]
    exact ⟨detectBlobCheckDims_pType _ _, Or.inl h1⟩
  · rw [if_neg h1] at h ⊢
    by_cases h2 : t = VECTOR_TYPE_FLOAT64
    · rw [if_pos h2]
      exact ⟨detectBlobCheckDims_pType _ _, Or.inr h2⟩
    · rw [if_neg h2] at h
      exact absurd (show (-1 : Int) = 0 from h) (by decide)

/-- The parsers keep the element type of the vector. -/
theorem vectorParse_type {D : Type} (ext : VectorExterns D) (arg : SqlValue) (v : Vector D) :
    (vectorParse ext arg v).vector.type = v.type := by
  cases arg with
  | blob b =>
    show (vectorParseSqliteBlob ext b v).vector.type = v.type
    unfold vectorParseSqliteBlob
    split_ifs <;> rfl
  | text z => rfl
  | null => rfl
  | integer i => rfl
  | real => rfl

/-- The vector that `vectorFuncHintedType` serialises has the type of the hint for a TEXT
argument and the type that the blob carries for a BLOB argument. -/
theorem hinted_type {D : Type} (ext : VectorExterns D) (mallocOk : Nat → Bool)
    (arg : SqlValue) (rest : List SqlValue) (typeHint : Nat) (v : Vector D)
    (hhint : typeHint = VECTOR_TYPE_FLOAT32 ∨ typeHint = VECTOR_TYPE_FLOAT64)
    (hres : (vectorFuncHintedType ext mallocOk (arg :: rest) typeHint).result =
      .serialized v) :
    (∀ z, arg = .text z → v.type = typeHint) ∧
    (∀ b, arg = .blob b →
      v.type = (if b.length % 2 ≠ 0 then b.getD (b.length - 1) 0 else VECTOR_TYPE_FLOAT32) ∧
      (v.type = VECTOR_TYPE_FLOAT32 ∨ v.type = VECTOR_TYPE_FLOAT64)) := by
  unfold vectorFuncHintedType at hres
  simp only at hres
  by_cases h1 : (detectVectorParameters arg typeHint).rc ≠ 0
  · rw [if_pos h1] at hres
    exact absurd hres (by simp)
  rw [if_neg h1] at hres
  by_cases h2 : ¬ mallocOk 0 = true
  · rw [if_pos h2] at hres
    exact absurd hres (by simp)
  rw [if_neg h2] at hres
  by_cases h3 : (vectorParse ext arg (vectorContextAlloc
      ((detectVectorParameters arg typeHint).pType.getD 0)
      ((detectVectorParameters arg typeHint).pDims.getD 0))).rc ≠ 0
  · rw [if_pos h3] at hres
    exact absurd hres (by simp)
  rw [if_neg h3] at hres
  simp only [SqlResult.serialized.injEq] at hres
  have hty : v.type = (detectVectorParameters arg typeHint).pType.getD 0 := by
    rw [← hres, vectorParse_type]
    rfl
  constructor
  · intro z hz
    subst hz
    rw [hty]
    show (detectTextVectorParameters z typeHint).pType.getD 0 = typeHint
    rw [(detectText_type z typeHint hhint).2]
    rfl
  · intro b hb
    subst hb
    have hrc : (detectBlobVectorParameters b).rc = 0 := by
      by_contra hc
      exact h1 hc
    obtain ⟨e1, e2⟩ := detectBlob_type b hrc
    have hty2 : v.type =
        (if b.length % 2 ≠ 0 then b.getD (b.length - 1) 0 else VECTOR_TYPE_FLOAT32) := by
      rw [hty]
      show (detectBlobVectorParameters b).pType.getD 0 = _
      rw [e1]
      rfl
    exact ⟨hty2, by rw [hty2]; exact e2⟩

/-- Counterexample to C23 as stated: with blob parsers that accept well-formed blobs,
`vector32` applied to the nine-byte blob of one F64 element with the tag byte 2 serialises
a vector of element type F64, and `vector64` applied to the eight-byte untagged blob of two
F32 elements serialises a vector of element type F32. -/
theorem C23_counterexample :
    (∃ v, (vector32Func sampleVectorExterns (fun _ => true)
        [.blob [0, 0, 0, 0, 0, 0, 0xf0, 0x3f, 2]]).result = .serialized v ∧
      v.type = VECTOR_TYPE_FLOAT64 ∧ v.type ≠ VECTOR_TYPE_FLOAT32) ∧
    (∃ v, (vector64Func sampleVectorExterns (fun _ => true)
        [.blob [0, 0, 0x80, 0x3f, 0, 0, 0, 0x40]]).result = .serialized v ∧
      v.type = VECTOR_TYPE_FLOAT32 ∧ v.type ≠ VECTOR_TYPE_FLOAT64) :=
  ⟨⟨_, rfl, rfl, by decide⟩, ⟨_, rfl, rfl, by decide⟩⟩

/-- C23, amended: for every TEXT argument that `vector` / `vector32` accepts, the vector it
builds and serialises has element type F32, and for every TEXT argument that `vector64`
accepts it has element type F64. For a BLOB argument that either of them accepts, the
vector has the element type that the blob carries, F32 or F64: its last byte when its length
is odd and F32 otherwise, whichever function is applied. -/
theorem C23_type_hint_decides_text_only {D : Type} (ext : VectorExterns D)
    (mallocOk : Nat → Bool) (arg : SqlValue) (v : Vector D) :
    ((vector32Func ext mallocOk [arg]).result = .serialized v →
      (∀ z, arg = .text z → v.type = VECTOR_TYPE_FLOAT32) ∧
      (∀ b, arg = .blob b →
        v.type = (if b.length % 2 ≠ 0 then b.getD (b.length - 1) 0 else VECTOR_TYPE_FLOAT32) ∧
        (v.type = VECTOR_TYPE_FLOAT32 ∨ v.type = VECTOR_TYPE_FLOAT64))) ∧
    ((vector64Func ext mallocOk [arg]).result = .serialized v →
      (∀ z, arg = .text z → v.type = VECTOR_TYPE_FLOAT64) ∧
      (∀ b, arg = .blob b →
        v.type = (if b.length % 2 ≠ 0 then b.getD (b.length - 1) 0 else VECTOR_TYPE_FLOAT32) ∧
        (v.type = VECTOR_TYPE_FLOAT32 ∨ v.type = VECTOR_TYPE_FLOAT64))) :=
  ⟨fun h => hinted_type ext mallocOk arg [] VECTOR_TYPE_FLOAT32 v (Or.inl rfl) h,
    fun h => hinted_type ext mallocOk arg [] VECTOR_TYPE_FLOAT64 v (Or.inr rfl) h⟩

/-- Instance of C23: `vector64('[1,2]')` serialises a vector of type F64 with two
elements. -/
theorem C23_type_hint_decides_text_only_witness :
    (vector64Func sampleVectorExterns (fun _ => true) [.text (bytes "[1,2]")]).result =
      .serialized ⟨2, 2, 0, .stored [(0, 1), (1, 2)]⟩ ∧
    (⟨2, 2, 0, .stored [(0, 1), (1, 2)]⟩ : Vector Nat).type = VECTOR_TYPE_FLOAT64 :=
  ⟨rfl,
    ((C23_type_hint_decides_text_only sampleVectorExterns (fun _ => true)
      (.text (bytes "[1,2]")) ⟨2, 2, 0, .stored [(0, 1), (1, 2)]⟩).2 rfl).1 (bytes "[1,2]") rfl⟩

/-- C28, failing input: `vector_distance_cos` and the scalar `vector_sum`, applied to the
TEXT value of five bytes `[1]`, NUL, `,` and to `'[1,2]'`, both of detected type F32 and
detected dimension 2, pass the shape checks and call `vectorDistanceCos` and `vectorAdd`
with a first vector of 1 element and a second of 2 elements. -/
theorem C28_algebra_called_on_unequal_dims :
    (detectVectorParameters (.text (bytes "[1]" ++ 0 :: bytes ",")) 0).pDims = some 2 ∧
    (detectVectorParameters (.text (bytes "[1,2]")) 0).pDims = some 2 ∧
    (vectorDistanceCosFunc sampleVectorExterns (fun _ => true)
      [.text (bytes "[1]" ++ 0 :: bytes ","), .text (bytes "[1,2]")]).calls =
      [.vectorDistanceCos ⟨1, 1, 0, .stored [(0, 1)]⟩ ⟨1, 2, 0, .stored [(0, 1), (1, 2)]⟩] ∧
    (vectorSumFunc sampleVectorExterns (fun _ => true)
      [.text (bytes "[1]" ++ 0 :: bytes ","), .text (bytes "[1,2]")]).calls =
      [.vectorAdd ⟨1, 1, 0, .stored [(0, 1)]⟩ ⟨1, 2, 0, .stored [(0, 1), (1, 2)]⟩] :=
  ⟨by decide, by decide, rfl, rfl⟩

/-- The shape check of `vectorDistanceCosFunc` is made on the detected parameters: when both
detections succeed and the detected types or dimensions differ, an error is reported and
the algebra is not called. -/
theorem vectorDistanceCosFunc_checks_detected {D : Type} (ext : VectorExterns D)
    (mallocOk : Nat → Bool) (arg0 arg1 : SqlValue) (rest : List SqlValue)
    (h0 : (detectVectorParameters arg0 0).rc = 0) (h1 : (detectVectorParameters arg1 0).rc = 0)
    (hne : (detectVectorParameters arg0 0).pType.getD 0 ≠
        (detectVectorParameters arg1 0).pType.getD 0 ∨
      (detectVectorParameters arg0 0).pDims.getD 0 ≠
        (detectVectorParameters arg1 0).pDims.getD 0) :
    (vectorDistanceCosFunc ext mallocOk (arg0 :: arg1 :: rest)).calls = [] ∧
    ((vectorDistanceCosFunc ext mallocOk (arg0 :: arg1 :: rest)).result =
        .sameType "vector_distance_cos" ((detectVectorParameters arg0 0).pType.getD 0)
          ((detectVectorParameters arg1 0).pType.getD 0) ∨
      (vectorDistanceCosFunc ext mallocOk (arg0 :: arg1 :: rest)).result =
        .sameLength "vector_distance_cos" ((detectVectorParameters arg0 0).pDims.getD 0)
          ((detectVectorParameters arg1 0).pDims.getD 0)) := by
  have g0 : ¬ ((detectVectorParameters arg0 0).rc ≠ 0) := by simp [h0]
  have g1 : ¬ ((detectVectorParameters arg1 0).rc ≠ 0) := by simp [h1]
  unfold vectorDistanceCosFunc
  simp only [if_neg g0, if_neg g1]
  by_cases ht : (detectVectorParameters arg0 0).pType.getD 0 ≠
      (detectVectorParameters arg1 0).pType.getD 0
  · rw [if_pos ht]
    exact ⟨rfl, Or.inl rfl⟩
  · rw [if_neg ht]
    rcases hne with h | h
    · exact absurd h ht
    · rw [if_pos h]
      exact ⟨rfl, Or.inr rfl⟩


/-! ### The window aggregate `vector_sum` -/

/-- C24, failing input: the window aggregate `vector_sum` is registered with
`vectorSumFinalize` in the place of the value callback, and `vectorSumValue` is registered
nowhere. On a group that has seen the row `'[1,2]'`, the value callback as registered emits
the running sum and frees its block, leaving the pointer in the context; the step on the
next row `'[3,4]'` then reads the freed block. The function `vectorSumValue` would have
emitted the same sum and freed nothing. -/
theorem C24_value_callback_frees_the_sum :
    (aVectorFuncs.find? (fun d => d.zName == "vector_sum" && d.xValue.isSome)).map
        FuncDef.xValue = some (some .vectorSumFinalize) ∧
    (∀ d ∈ aVectorFuncs, d.xSFunc ≠ .vectorSumValue ∧ d.xFinalize ≠ some .vectorSumValue ∧
      d.xValue ≠ some .vectorSumValue ∧ d.xInverse ≠ some .vectorSumValue) ∧
    (vectorSumStep sampleVectorExterns (fun _ => true) ⟨none, []⟩
      (.text (bytes "[1,2]"))).state.freed = [] ∧
    ((windowValue "vector_sum"
      (vectorSumStep sampleVectorExterns (fun _ => true) ⟨none, []⟩
        (.text (bytes "[1,2]"))).state).map (fun r => r.2.freed)) = some [SumBlock.pSum] ∧
    ((windowValue "vector_sum"
      (vectorSumStep sampleVectorExterns (fun _ => true) ⟨none, []⟩
        (.text (bytes "[1,2]"))).state).map
      (fun r => (vectorSumStep sampleVectorExterns (fun _ => true) r.2
        (.text (bytes "[3,4]"))).usesFreed)) = some true ∧
    (vectorSumValue
      (vectorSumStep sampleVectorExterns (fun _ => true) ⟨none, []⟩
        (.text (bytes "[1,2]"))).state).2.freed = [] ∧
    (vectorSumStep sampleVectorExterns (fun _ => true)
      (vectorSumValue
        (vectorSumStep sampleVectorExterns (fun _ => true) ⟨none, []⟩
          (.text (bytes "[1,2]"))).state).2
      (.text (bytes "[3,4]"))).usesFreed = false := by
  refine ⟨by decide, by decide, by decide, by decide, by decide, by decide, by decide⟩


/-! ### Rendering of key columns -/

/-- C27, failing input: for the key of one TEXT column with the collation `NOCASE`, the
prefix `index_key` and a buffer of 128 bytes, `vectorIdxKeyDefsRender` returns 0 and writes
`index_key  TEXT NOCASE`: the name of the collation follows the type without the keyword
`COLLATE`. For the key of a rowid table it writes `index_key  INTEGER `, and for a key of
an INTEGER column and a TEXT column with the collation `RTRIM` it writes
`index_key  INTEGER ,index_key1  TEXT RTRIM`. -/
theorem C27_collation_rendered_without_keyword :
    vectorIdxKeyDefsRender ⟨1, [0x42], [bytes "NOCASE"]⟩ (bytes "index_key") 128 =
      (0, bytes "index_key  TEXT NOCASE") ∧
    vectorIdxKeyDefsRender ⟨1, [SQLITE_AFF_INTEGER], [bytes "BINARY"]⟩ (bytes "index_key") 128 =
      (0, bytes "index_key  INTEGER ") ∧
    vectorIdxKeyDefsRender ⟨2, [SQLITE_AFF_INTEGER, 0x42], [bytes "BINARY", bytes "RTRIM"]⟩
      (bytes "index_key") 128 = (0, bytes "index_key  INTEGER ,index_key1  TEXT RTRIM") := by
  refine ⟨by decide, by decide, by decide⟩

end Libsql
